import Mathlib

/-!
# vlc `src/interface/main.c` : a shallow embedding

The development follows `main.c` (revision 1.94) function by function.

* C strings are lists of characters (the bytes before the terminating NUL).
* The process environment (`environ`) is a list of `name=value` strings, read by
  `getenv` and written by `putenv` as the C library does.
* `int` is a 32 bit two's complement integer, `long` is `w` bits wide (`w = 32` on the
  i386 hosts the program was written for, `w = 64` on LP64 hosts).
* Calls to collaborating subsystems are recorded, in order, in a trace of `Call`s; the
  outcome of each fallible call is an input of the run (`Outcomes`).
* Constants that live in headers outside `main.c` (`config.h`, `tests.h`,
  `input_ext-intf.h`, `errno.h`) are parameters, gathered in `Build`.
* Memory allocation inside `main_PutPszVariable` (`malloc`, `putenv`) is taken to succeed.
* Definitions named `spec_...`, with `isBlank` and `digitsValue`, stand on the specification
  side: they say which integer a string denotes, and `strtol` and `atoi` are compared with them.
* The dispositions installed with `signal` are part of the state; the delivery of a signal
  is a step on the state (`deliver`), and `main` itself is a run in which none arrives.
-/

namespace Vlc

/-! ## C strings and the C library -/

/-- The contents of a NUL-terminated C string. -/
abbrev CStr := List Char

/-- Two's complement reading of the low 32 bits: the conversion of an integer value to `int`. -/
def toInt32 (x : Int) : Int := (x + 2147483648) % 4294967296 - 2147483648

/-- Largest value of a `long` of `w` bits. -/
def LONG_MAX (w : Nat) : Int := 2 ^ (w - 1) - 1

/-- Smallest value of a `long` of `w` bits. -/
def LONG_MIN (w : Nat) : Int := -(2 ^ (w - 1))

/-- Saturation of a mathematical integer to the range of `long`, as `strtol` does on overflow. -/
def clampLong (w : Nat) (x : Int) : Int :=
  if x > LONG_MAX w then LONG_MAX w else if x < LONG_MIN w then LONG_MIN w else x

/-- C `isspace` in the "C" locale: space, `\t`, `\n`, `\v`, `\f`, `\r`. -/
def isspace (c : Char) : Bool :=
  c.toNat = 32 || (9 ≤ c.toNat && c.toNat ≤ 13)

/-- Value of a character as a digit (`0-9`, `a-z`, `A-Z`), if it is one. -/
def digitVal (c : Char) : Option Nat :=
  if 48 ≤ c.toNat ∧ c.toNat ≤ 57 then some (c.toNat - 48)
  else if 97 ≤ c.toNat ∧ c.toNat ≤ 122 then some (c.toNat - 87)
  else if 65 ≤ c.toNat ∧ c.toNat ≤ 90 then some (c.toNat - 55)
  else none

/-- Whether `c` is a digit of the given base. -/
def isDigitIn (base : Nat) (c : Char) : Bool :=
  match digitVal c with
  | some d => decide (d < base)
  | none => false

/-- The digit loop of `strtol`: accumulates the digits of `base` at the head of the string and
returns the accumulated value with the unread remainder. -/
def scanDigits (base : Nat) : Nat → CStr → Nat × CStr
  | acc, [] => (acc, [])
  | acc, c :: cs =>
    match digitVal c with
    | some d => if d < base then scanDigits base (acc * base + d) cs else (acc, c :: cs)
    | none => (acc, c :: cs)

/-- C `strtol (nptr, &end, base)` for a `long` of `w` bits: returns the value and the string
`end` points to. Leading white space and one sign are skipped; with `base = 0` a leading `0x`
or `0X` selects base 16, a leading `0` base 8, anything else base 10; the value saturates at
`LONG_MAX`/`LONG_MIN`; when no digit is read the value is 0 and `end` is `nptr` (or points to
the `x` of a `0x` that no hexadecimal digit follows). -/
def strtol (w : Nat) (nptr : CStr) (base : Nat) : Int × CStr :=
  let s := nptr.dropWhile isspace
  let neg : Bool := match s with
    | '-' :: _ => true
    | _ => false
  let s1 : CStr := match s with
    | '-' :: t => t
    | '+' :: t => t
    | _ => s
  let hex : Bool := match s1 with
    | '0' :: x :: _ => (base = 0 || base = 16) && (x = 'x' || x = 'X')
    | _ => false
  let b : Nat :=
    if hex then 16
    else if base = 0 then (match s1 with
      | '0' :: _ => 8
      | _ => 10)
    else base
  let s2 : CStr := if hex then s1.drop 2 else s1
  match s2 with
  | c :: _ =>
    if isDigitIn b c then
      let r := scanDigits b 0 s2
      (clampLong w (if neg then -(r.1 : Int) else (r.1 : Int)), r.2)
    else if hex then (0, s1.drop 1) else (0, nptr)
  | [] => if hex then (0, s1.drop 1) else (0, nptr)

/-- C `atoi`: `(int) strtol (nptr, NULL, 10)`. -/
def atoi (w : Nat) (nptr : CStr) : Int := toInt32 (strtol w nptr 10).1

/-- The text `sprintf` writes for `"%d"`. -/
def sprintf_d (i : Int) : CStr :=
  if i < 0 then '-' :: Nat.toDigits 10 i.natAbs else Nat.toDigits 10 i.natAbs

/-- The process environment: the strings `environ` points to, in order. -/
abbrev Environ := List CStr

/-- The value part of an `environ` entry when the entry is `name=value`. -/
def afterName : CStr → CStr → Option CStr
  | [], '=' :: v => some v
  | [], _ => none
  | c :: cs, d :: ds => if c = d then afterName cs ds else none
  | _ :: _, [] => none

/-- C `getenv`: the value of the first entry named `name`; NULL (`none`) when there is none
or when the name is empty. -/
def getenv (env : Environ) (name : CStr) : Option CStr :=
  if name = [] then none else env.findSome? (afterName name)

/-- The entry replacement of `putenv`: the first entry named `name` is replaced by `s`; when
there is none, `s` is appended. -/
def replaceEntry (name s : CStr) : Environ → Environ
  | [] => [s]
  | e :: es => if (afterName name e).isSome then s :: es else e :: replaceEntry name s es

/-- C `putenv (s)`: with `s` of the form `name=value` the entry of that name is set to `s`;
a string without `=` removes the entries of that name. -/
def putenv (env : Environ) (s : CStr) : Environ :=
  if '=' ∈ s then replaceEntry (s.takeWhile (fun c => c != '=')) s env
  else if s = [] then env
  else env.filter (fun e => (afterName s e).isNone)

/-! ## The configuration store: `main_GetIntVariable` ... `main_PutIntVariable` -/

/-- The function `main_GetIntVariable`: get the int value of an environment variable. -/
def main_GetIntVariable (w : Nat) (env : Environ) (psz_name : CStr) (i_default : Int) : Int :=
  match getenv env psz_name with
  | some psz_env =>
    let r := strtol w psz_env 0
    if psz_env ≠ [] ∧ r.2 = [] then toInt32 r.1 else i_default
  | none => i_default

/-- The function `main_GetPszVariable`: get the string value of an environment variable. -/
def main_GetPszVariable (env : Environ) (psz_name : CStr) (psz_default : CStr) : CStr :=
  match getenv env psz_name with
  | some psz_env => psz_env
  | none => psz_default

/-- The function `main_PutPszVariable`: set the string value of an environment variable
(`sprintf (psz_env, "%s=%s", psz_name, psz_value); putenv (psz_env)`). -/
def main_PutPszVariable (env : Environ) (psz_name psz_value : CStr) : Environ :=
  putenv env (psz_name ++ '=' :: psz_value)

/-- The function `main_PutIntVariable`: set the integer value of an environment variable. -/
def main_PutIntVariable (env : Environ) (psz_name : CStr) (i_value : Int) : Environ :=
  main_PutPszVariable env psz_name (sprintf_d i_value)

/-- A name usable as a configuration key: not empty and without `=`. -/
def ValidKey (k : CStr) : Prop := k ≠ [] ∧ '=' ∉ k

instance (k : CStr) : Decidable (ValidKey k) := by
  unfold ValidKey; exact inferInstance

/-! ## Constants from headers outside `main.c` -/

/-- The configuration variable names of `config.h` that `GetConfiguration` writes. -/
structure Vars where
  INTF_METHOD_VAR : CStr
  AOUT_METHOD_VAR : CStr
  AOUT_STEREO_VAR : CStr
  AOUT_SPDIF_VAR : CStr
  VOUT_METHOD_VAR : CStr
  VOUT_DISPLAY_VAR : CStr
  VOUT_WIDTH_VAR : CStr
  VOUT_HEIGHT_VAR : CStr
  VOUT_GRAYSCALE_VAR : CStr
  VOUT_FULLSCREEN_VAR : CStr
  VOUT_OVERLAY_VAR : CStr
  MOTION_METHOD_VAR : CStr
  IDCT_METHOD_VAR : CStr
  YUV_METHOD_VAR : CStr
  INPUT_TITLE_VAR : CStr
  INPUT_CHAPTER_VAR : CStr
  INPUT_ANGLE_VAR : CStr
  INPUT_AUDIO_VAR : CStr
  INPUT_CHANNEL_VAR : CStr
  INPUT_SUBTITLE_VAR : CStr
  INPUT_METHOD_VAR : CStr
  INPUT_SERVER_VAR : CStr
  INPUT_PORT_VAR : CStr
  INPUT_BROADCAST_VAR : CStr
  VPAR_SYNCHRO_VAR : CStr

/-- The capability bits of `tests.h`. -/
structure CpuFlags where
  CPU_CAPABILITY_486 : Nat
  CPU_CAPABILITY_586 : Nat
  CPU_CAPABILITY_MMX : Nat
  CPU_CAPABILITY_3DNOW : Nat
  CPU_CAPABILITY_MMXEXT : Nat
  CPU_CAPABILITY_SSE : Nat
  CPU_CAPABILITY_ALTIVEC : Nat

/-- Modelled from the spec: the value of `CPU_CAPABILITY_NONE` (`tests.h` is not part of the
sources at hand); the capability prober "returns the empty set on unsupported hosts", and the
empty set of a bitmask is 0. -/
def CPU_CAPABILITY_NONE : Nat := 0

/-- The compile-time configuration of `main.c`: the preprocessor symbols that select its
conditional code, the width of `long`, and the constants of the headers it includes. -/
structure Build where
  SYS_BEOS : Bool
  SYS_DARWIN1_3 : Bool
  WIN32 : Bool
  i386 : Bool
  pentium : Bool
  longBits : Nat
  vars : Vars
  cpu : CpuFlags
  EINVAL : Int
  REQUESTED_AC3 : Int
  REQUESTED_LPCM : Int
  REQUESTED_MPEG : Int
  REQUESTED_NOAUDIO : Int

/-! ## Command line options constants -/

/-- The `int` value of a character constant. -/
def chr (c : Char) : Int := (c.toNat : Int)

def OPT_NOAUDIO : Int := 150
def OPT_STEREO : Int := 151
def OPT_MONO : Int := 152
def OPT_SPDIF : Int := 153
def OPT_NOVIDEO : Int := 160
def OPT_DISPLAY : Int := 161
def OPT_WIDTH : Int := 162
def OPT_HEIGHT : Int := 163
def OPT_COLOR : Int := 164
def OPT_FULLSCREEN : Int := 165
def OPT_OVERLAY : Int := 166
def OPT_CHANNELS : Int := 170
def OPT_SERVER : Int := 171
def OPT_PORT : Int := 172
def OPT_BROADCAST : Int := 173
def OPT_INPUT : Int := 180
def OPT_MOTION : Int := 181
def OPT_IDCT : Int := 182
def OPT_YUV : Int := 183
def OPT_SYNCHRO : Int := 190
def OPT_WARNING : Int := 191
def OPT_VERSION : Int := 192

def USAGE : Nat := 0
def SHORT_HELP : Nat := 1
def LONG_HELP : Nat := 2

/-- One `struct option` of `getopt.h` (the `flag` member is 0 in every entry of the table). -/
structure LongOpt where
  name : CStr
  has_arg : Nat
  val : Int

/-- The table `longopts` (without its terminating null entry). -/
def longopts : List LongOpt :=
  [ ⟨"help".toList, 0, chr 'h'⟩,
    ⟨"longhelp".toList, 0, chr 'H'⟩,
    ⟨"version".toList, 0, OPT_VERSION⟩,
    ⟨"intf".toList, 1, chr 'I'⟩,
    ⟨"warning".toList, 1, OPT_WARNING⟩,
    ⟨"noaudio".toList, 0, OPT_NOAUDIO⟩,
    ⟨"aout".toList, 1, chr 'A'⟩,
    ⟨"stereo".toList, 0, OPT_STEREO⟩,
    ⟨"mono".toList, 0, OPT_MONO⟩,
    ⟨"spdif".toList, 0, OPT_SPDIF⟩,
    ⟨"novideo".toList, 0, OPT_NOVIDEO⟩,
    ⟨"vout".toList, 1, chr 'V'⟩,
    ⟨"display".toList, 1, OPT_DISPLAY⟩,
    ⟨"width".toList, 1, OPT_WIDTH⟩,
    ⟨"height".toList, 1, OPT_HEIGHT⟩,
    ⟨"grayscale".toList, 0, chr 'g'⟩,
    ⟨"color".toList, 0, OPT_COLOR⟩,
    ⟨"motion".toList, 1, OPT_MOTION⟩,
    ⟨"idct".toList, 1, OPT_IDCT⟩,
    ⟨"yuv".toList, 1, OPT_YUV⟩,
    ⟨"fullscreen".toList, 0, OPT_FULLSCREEN⟩,
    ⟨"overlay".toList, 0, OPT_OVERLAY⟩,
    ⟨"dvdtitle".toList, 1, chr 't'⟩,
    ⟨"dvdchapter".toList, 1, chr 'T'⟩,
    ⟨"dvdangle".toList, 1, chr 'u'⟩,
    ⟨"dvdaudio".toList, 1, chr 'a'⟩,
    ⟨"dvdchannel".toList, 1, chr 'c'⟩,
    ⟨"dvdsubtitle".toList, 1, chr 's'⟩,
    ⟨"input".toList, 1, OPT_INPUT⟩,
    ⟨"channels".toList, 0, OPT_CHANNELS⟩,
    ⟨"server".toList, 1, OPT_SERVER⟩,
    ⟨"port".toList, 1, OPT_PORT⟩,
    ⟨"broadcast".toList, 1, OPT_BROADCAST⟩,
    ⟨"synchro".toList, 1, OPT_SYNCHRO⟩ ]

/-- The string `psz_shortopts`. -/
def psz_shortopts : CStr := "hHvgt:T:u:a:s:c:I:A:V:".toList

/-! ## GNU `getopt_long`

`getopt_long` belongs to the C library (or to the bundled `GNUgetopt`), not to `main.c`. What
follows renders the documented behaviour of the GNU implementation for an option
string that starts with neither `+` nor `-` nor `:` and a table whose `flag` members are 0:
option elements are taken in order wherever they stand, the other elements are moved behind
them (unless `POSIXLY_CORRECT` is set, which stops the scan at the first of them), `--` ends the
scan, long names may be abbreviated to an unambiguous beginning and take a value as
`--name=value` or as the next element, short options may be bundled and take a value as the
rest of their element or as the next element. `opterr` is 0, so nothing is printed. -/

/-- The return value of `getopt_long` for an unrecognised option or a missing value. -/
def BADOPT : Int := chr '?'

/-- Look a character up in an option string: `none` when it is not an option character,
otherwise whether the option takes a value (is followed by a colon). -/
def shortLookup : CStr → Char → Option Bool
  | [], _ => none
  | o :: rest, c =>
    if c = ':' then none
    else if o = c then some (rest.head? = some ':')
    else shortLookup rest c

/-- The scan of one element of bundled short options (the characters after the `-`): the
values returned by the successive calls, and the option left waiting for its value in the
next element, if any. -/
def shortCluster (optstring : CStr) : CStr → List (Int × Option CStr) × Option Int
  | [] => ([], none)
  | c :: cs =>
    match shortLookup optstring c with
    | none => let r := shortCluster optstring cs; ((BADOPT, none) :: r.1, r.2)
    | some false => let r := shortCluster optstring cs; ((chr c, none) :: r.1, r.2)
    | some true =>
      match cs with
      | [] => ([], some (chr c))
      | _ :: _ => ([(chr c, some cs)], none)

/-- The search of the table for a typed long name: the entry found (the exact match, else the
first entry the typed name begins), whether a second, different entry also begins with it,
and whether the match is exact. -/
def searchLong (typed : CStr) : List LongOpt → Option LongOpt → Bool → Option LongOpt × Bool × Bool
  | [], pfound, ambig => (pfound, ambig, false)
  | p :: ps, pfound, ambig =>
    if typed.isPrefixOf p.name then
      if typed.length = p.name.length then (some p, ambig, true)
      else
        match pfound with
        | none => searchLong typed ps (some p) ambig
        | some q =>
          if q.has_arg ≠ p.has_arg ∨ q.val ≠ p.val then searchLong typed ps pfound true
          else searchLong typed ps pfound ambig
    else searchLong typed ps pfound ambig

/-- The scan of one long option element (the characters after the `--`): the value returned,
if the call returns on this element, and the option left waiting for its value. -/
def longOption (table : List LongOpt) (body : CStr) : List (Int × Option CStr) × Option Int :=
  let typed := body.takeWhile (fun c => c != '=')
  let tail := body.dropWhile (fun c => c != '=')
  match searchLong typed table none false with
  | (some p, ambig, exact) =>
    if ambig && !exact then ([(BADOPT, none)], none)
    else
      match tail with
      | _ :: value => if p.has_arg ≠ 0 then ([(p.val, some value)], none) else ([(BADOPT, none)], none)
      | [] => if p.has_arg = 1 then ([], some p.val) else ([(p.val, none)], none)
  | (none, _, _) => ([(BADOPT, none)], none)

/-- What a complete series of `getopt_long` calls does with `argv[1 ..]`. -/
structure Scan where
  /-- The successive return values before `EOF`, each with the `optarg` it sets. -/
  returns : List (Int × Option CStr)
  /-- The elements taken as options or option values, in order. -/
  consumed : List CStr
  /-- The elements left at `argv[optind ..]` when `EOF` is returned. -/
  operands : List CStr

/-- The series of `getopt_long` calls over the elements after `argv[0]`; the first argument is
the option that waits for its value in the next element. -/
def getoptScan (posixly_correct : Bool) : Option Int → List CStr → Scan
  | none, [] => ⟨[], [], []⟩
  | some _, [] => ⟨[(BADOPT, none)], [], []⟩
  | some c, a :: rest =>
    let r := getoptScan posixly_correct none rest
    ⟨(c, some a) :: r.returns, a :: r.consumed, r.operands⟩
  | none, a :: rest =>
    match a with
    | ['-', '-'] => ⟨[], [a], rest⟩
    | '-' :: '-' :: body =>
      let o := longOption longopts body
      let r := getoptScan posixly_correct o.2 rest
      ⟨o.1 ++ r.returns, a :: r.consumed, r.operands⟩
    | '-' :: c :: cs =>
      let o := shortCluster psz_shortopts (c :: cs)
      let r := getoptScan posixly_correct o.2 rest
      ⟨o.1 ++ r.returns, a :: r.consumed, r.operands⟩
    | _ =>
      if posixly_correct then ⟨[], [], a :: rest⟩
      else
        let r := getoptScan posixly_correct none rest
        ⟨r.returns, r.consumed, a :: r.operands⟩

/-! ## The root context and the calls of a run -/

/-- The signals `main.c` sets a disposition for. -/
inductive Signal where
  | SIGINT
  | SIGHUP
  | SIGQUIT
  | SIGALRM
  | SIGPIPE
  deriving DecidableEq, Repr

/-- What happens when a signal is delivered: the default action, nothing (`SIG_IGN`), or a
call of one of the two handlers of `main.c`. -/
inductive Disposition where
  | SIG_DFL
  | SIG_IGN
  | Fatal
  | Simple
  deriving DecidableEq, Repr

/-- The part of `intf_thread_t` that `main.c` touches. -/
structure intf_thread_t where
  b_die : Bool

/-- The members of `main_t` that `main.c` reads or writes. -/
structure main_t where
  i_cpu_capabilities : Nat
  i_argc : Nat
  ppsz_argv : List CStr
  ppsz_env : Environ
  psz_arg0 : CStr
  b_audio : Bool
  b_video : Bool
  b_channels : Bool
  i_warning_level : Int
  p_intf : Option intf_thread_t

/-- The calls `main.c` makes to its collaborators; a call that may fail carries its outcome. -/
inductive Call where
  | system_Init
  | intf_MsgCreate (ok : Bool)
  | intf_MsgImm
  | intf_Msg
  | intf_ErrMsg
  | Usage (i_fashion : Nat)
  | Version
  | intf_MsgDestroy
  | intf_PlaylistCreate (ok : Bool)
  | intf_PlaylistInit
  | intf_PlaylistAdd (psz_item : CStr)
  | module_InitBank
  | aout_InitBank
  | vout_InitBank
  | network_ChannelCreate (ok : Bool)
  | intf_Create (ok : Bool)
  | InitSignalHandler
  | pf_run
  | intf_Destroy
  | network_ChannelJoin
  | vout_EndBank
  | aout_EndBank
  | module_EndBank
  | intf_PlaylistDestroy
  | system_End
  | signal (i_signal : Signal) (handler : Disposition)
  | intf_ErrMsgImm
  | intf_WarnMsg
  deriving DecidableEq, Repr

/-- The state a run of `main` works on. -/
structure World where
  p_main : main_t
  environ : Environ
  /-- The variable `i_argc` of `main`, which `GetConfiguration` writes through `pi_argc`. -/
  i_argc : Nat
  /-- The array `ppsz_argv` of `main`, which `getopt_long` reorders. -/
  ppsz_argv : List CStr
  optind : Nat
  /-- The calls made so far, oldest first. -/
  trace : List Call
  /-- The disposition of each signal. -/
  signals : Signal → Disposition
  /-- Whether the interface `p_main->p_intf` points to exists: it was created by
  `intf_Create` and `intf_Destroy` has not been called on it. -/
  intf_alive : Bool

/-- Record a call. -/
def World.call (w : World) (c : Call) : World := { w with trace := w.trace ++ [c] }

/-- Perform `main_PutPszVariable` on the environment of the run. -/
def World.putPsz (w : World) (psz_name psz_value : CStr) : World :=
  { w with environ := main_PutPszVariable w.environ psz_name psz_value }

/-- Perform `main_PutIntVariable` on the environment of the run. -/
def World.putInt (w : World) (psz_name : CStr) (i_value : Int) : World :=
  { w with environ := main_PutIntVariable w.environ psz_name i_value }

/-- Assign `p_main->i_warning_level`. -/
def World.setWarning (w : World) (i : Int) : World :=
  { w with p_main := { w.p_main with i_warning_level := i } }

/-! ## `GetConfiguration` -/

/-- The loop that finds the executable name: the first argument is `p_main->psz_arg0`, the
second is `p_tmp`. -/
def arg0Loop : CStr → CStr → CStr
  | psz_arg0, [] => psz_arg0
  | psz_arg0, c :: p_tmp => if c = '/' then arg0Loop p_tmp p_tmp else arg0Loop psz_arg0 p_tmp

/-- The body of the `switch (i_cmd)` of `GetConfiguration`: `some r` when the case executes
`return (r)`, `none` when it ends with `break`. -/
def optionCase (B : Build) (i_cmd : Int) (optarg : CStr) (w : World) : Option Int × World :=
  if i_cmd = chr 'h' then (some (-1), w.call (Call.Usage SHORT_HELP))
  else if i_cmd = chr 'H' then (some (-1), w.call (Call.Usage LONG_HELP))
  else if i_cmd = OPT_VERSION then (some (-1), w.call Call.Version)
  else if i_cmd = chr 'v' then (none, w.setWarning (toInt32 (w.p_main.i_warning_level + 1)))
  else if i_cmd = chr 'I' then (none, w.putPsz B.vars.INTF_METHOD_VAR optarg)
  else if i_cmd = OPT_WARNING then
    (none, (w.call Call.intf_ErrMsg).setWarning (atoi B.longBits optarg))
  else if i_cmd = OPT_NOAUDIO then (none, { w with p_main := { w.p_main with b_audio := false } })
  else if i_cmd = chr 'A' then (none, w.putPsz B.vars.AOUT_METHOD_VAR optarg)
  else if i_cmd = OPT_STEREO then (none, w.putInt B.vars.AOUT_STEREO_VAR 1)
  else if i_cmd = OPT_MONO then (none, w.putInt B.vars.AOUT_STEREO_VAR 0)
  else if i_cmd = OPT_SPDIF then (none, w.putInt B.vars.AOUT_SPDIF_VAR 1)
  else if i_cmd = OPT_NOVIDEO then (none, { w with p_main := { w.p_main with b_video := false } })
  else if i_cmd = chr 'V' then (none, w.putPsz B.vars.VOUT_METHOD_VAR optarg)
  else if i_cmd = OPT_DISPLAY then (none, w.putPsz B.vars.VOUT_DISPLAY_VAR optarg)
  else if i_cmd = OPT_WIDTH then (none, w.putPsz B.vars.VOUT_WIDTH_VAR optarg)
  else if i_cmd = OPT_HEIGHT then (none, w.putPsz B.vars.VOUT_HEIGHT_VAR optarg)
  else if i_cmd = chr 'g' then (none, w.putInt B.vars.VOUT_GRAYSCALE_VAR 1)
  else if i_cmd = OPT_COLOR then (none, w.putInt B.vars.VOUT_GRAYSCALE_VAR 0)
  else if i_cmd = OPT_FULLSCREEN then (none, w.putInt B.vars.VOUT_FULLSCREEN_VAR 1)
  else if i_cmd = OPT_OVERLAY then (none, w.putInt B.vars.VOUT_OVERLAY_VAR 1)
  else if i_cmd = OPT_MOTION then (none, w.putPsz B.vars.MOTION_METHOD_VAR optarg)
  else if i_cmd = OPT_IDCT then (none, w.putPsz B.vars.IDCT_METHOD_VAR optarg)
  else if i_cmd = OPT_YUV then (none, w.putPsz B.vars.YUV_METHOD_VAR optarg)
  else if i_cmd = chr 't' then (none, w.putInt B.vars.INPUT_TITLE_VAR (atoi B.longBits optarg))
  else if i_cmd = chr 'T' then (none, w.putInt B.vars.INPUT_CHAPTER_VAR (atoi B.longBits optarg))
  else if i_cmd = chr 'u' then (none, w.putInt B.vars.INPUT_ANGLE_VAR (atoi B.longBits optarg))
  else if i_cmd = chr 'a' then
    if optarg = "ac3".toList then (none, w.putInt B.vars.INPUT_AUDIO_VAR B.REQUESTED_AC3)
    else if optarg = "lpcm".toList then (none, w.putInt B.vars.INPUT_AUDIO_VAR B.REQUESTED_LPCM)
    else if optarg = "mpeg".toList then (none, w.putInt B.vars.INPUT_AUDIO_VAR B.REQUESTED_MPEG)
    else (none, w.putInt B.vars.INPUT_AUDIO_VAR B.REQUESTED_NOAUDIO)
  else if i_cmd = chr 'c' then (none, w.putInt B.vars.INPUT_CHANNEL_VAR (atoi B.longBits optarg))
  else if i_cmd = chr 's' then (none, w.putInt B.vars.INPUT_SUBTITLE_VAR (atoi B.longBits optarg))
  else if i_cmd = OPT_INPUT then (none, w.putPsz B.vars.INPUT_METHOD_VAR optarg)
  else if i_cmd = OPT_CHANNELS then (none, { w with p_main := { w.p_main with b_channels := true } })
  else if i_cmd = OPT_SERVER then (none, w.putPsz B.vars.INPUT_SERVER_VAR optarg)
  else if i_cmd = OPT_PORT then (none, w.putPsz B.vars.INPUT_PORT_VAR optarg)
  else if i_cmd = OPT_BROADCAST then (none, w.putPsz B.vars.INPUT_BROADCAST_VAR optarg)
  else if i_cmd = OPT_SYNCHRO then (none, w.putPsz B.vars.VPAR_SYNCHRO_VAR optarg)
  else (some B.EINVAL, (w.call Call.intf_ErrMsg).call (Call.Usage USAGE))

/-- The `while ((i_cmd = getopt_long (...)) != EOF)` loop over the values `getopt_long`
returns: `some r` when a case returned `r`, `none` when the loop ended on `EOF`. A null
`optarg` (an option without value) is read as the empty string; no case reads it then. -/
def optionLoop (B : Build) : List (Int × Option CStr) → World → Option Int × World
  | [], w => (none, w)
  | (i_cmd, optarg) :: rest, w =>
    match optionCase B i_cmd (optarg.getD []) w with
    | (some r, w1) => (some r, w1)
    | (none, w1) => optionLoop B rest w1

/-- The function `GetConfiguration`: parse command line. The result is the return value with the state
left behind. `argv[0]` of an empty argument vector is read as the empty string. When a case
of the option loop returns, `optind` and the order of `argv` are left as they were on entry
(`main` exits without reading them). -/
def GetConfiguration (B : Build) (w : World) : Int × World :=
  let argv0 := w.ppsz_argv.headD []
  let w1 : World := { w with p_main := { w.p_main with
      i_argc := w.i_argc, ppsz_argv := w.ppsz_argv, ppsz_env := w.environ,
      b_audio := true, b_video := true, b_channels := false,
      i_warning_level := 0, psz_arg0 := arg0Loop argv0 argv0 } }
  if B.SYS_DARWIN1_3 ∧ w.i_argc > 1 ∧ ((w.ppsz_argv.getD 1 []).take 4 = "-psn".toList) then
    (0, { w1 with i_argc := w.i_argc - 1 })
  else
    let posixly_correct := (getenv w.environ "POSIXLY_CORRECT".toList).isSome
    let scan := getoptScan posixly_correct none ((w.ppsz_argv.take w.i_argc).drop 1)
    match optionLoop B scan.returns w1 with
    | (some r, w2) => (r, w2)
    | (none, w2) =>
      let w3 : World := { w2 with
        ppsz_argv := argv0 :: (scan.consumed ++ scan.operands),
        optind := 1 + scan.consumed.length }
      if w3.p_main.i_warning_level < 0 then (0, w3.setWarning 0) else (0, w3)

/-- The function `GetFilenames`: parse command line options which are not flags. -/
def GetFilenames (w : World) : World :=
  { w with trace := w.trace ++
      ((w.ppsz_argv.take w.i_argc).drop w.optind).map Call.intf_PlaylistAdd }

/-! ## `CPUCapabilities` -/

/-- The four registers the `cpuid` macro of `CPUCapabilities` writes. -/
structure Regs where
  i_eax : Nat
  i_ebx : Nat
  i_ecx : Nat
  i_edx : Nat

/-- What the host processor answers to the probes of `CPUCapabilities`. -/
structure Cpu where
  /-- The register `i_eax` after the `pushfl ... popl` sequence: EFLAGS read back after the
  attempt to toggle the ID bit. -/
  flags_eax : Nat
  /-- The register `i_ebx` after that sequence: EFLAGS as they were. -/
  flags_ebx : Nat
  /-- The registers after `cpuid (a)`. -/
  cpuid : Nat → Regs
  /-- Darwin: whether `host_info` returned `KERN_SUCCESS`. -/
  host_info_ok : Bool
  /-- Darwin: the name `slot_name` gives for the CPU type. -/
  psz_name : CStr

/-- The x86 branch of `CPUCapabilities`. -/
def CPUCapabilities_i386 (F : CpuFlags) (cpu : Cpu) : Nat :=
  let i_capabilities := CPU_CAPABILITY_NONE
  if cpu.flags_eax = cpu.flags_ebx then i_capabilities
  else
    let i_capabilities := i_capabilities ||| F.CPU_CAPABILITY_486
    let r0 := cpu.cpuid 0x00000000
    if r0.i_eax = 0 then i_capabilities
    else
      let i_capabilities := i_capabilities ||| F.CPU_CAPABILITY_586
      let b_amd : Bool := r0.i_ebx = 0x68747541 && r0.i_ecx = 0x444d4163 && r0.i_edx = 0x69746e65
      let r1 := cpu.cpuid 0x00000001
      if r1.i_edx &&& 0x00800000 = 0 then i_capabilities
      else
        let i_capabilities := i_capabilities ||| F.CPU_CAPABILITY_MMX
        let i_capabilities :=
          if r1.i_edx &&& 0x02000000 ≠ 0 then
            (i_capabilities ||| F.CPU_CAPABILITY_MMXEXT) ||| F.CPU_CAPABILITY_SSE
          else i_capabilities
        let r2 := cpu.cpuid 0x80000000
        if r2.i_eax < 0x80000001 then i_capabilities
        else
          let r3 := cpu.cpuid 0x80000001
          let i_capabilities :=
            if r3.i_edx &&& 0x80000000 ≠ 0 then i_capabilities ||| F.CPU_CAPABILITY_3DNOW
            else i_capabilities
          let i_capabilities :=
            if b_amd ∧ r3.i_edx &&& 0x00400000 ≠ 0 then i_capabilities ||| F.CPU_CAPABILITY_MMXEXT
            else i_capabilities
          i_capabilities

/-- The Darwin branch of `CPUCapabilities`. -/
def CPUCapabilities_darwin (F : CpuFlags) (cpu : Cpu) : Nat :=
  let i_capabilities := CPU_CAPABILITY_NONE
  if ¬ cpu.host_info_ok then i_capabilities
  else if cpu.psz_name ≠ "ppc7400".toList ∨ cpu.psz_name ≠ "ppc7450".toList then
    i_capabilities ||| F.CPU_CAPABILITY_ALTIVEC
  else i_capabilities

/-- The function `CPUCapabilities`: list the processors MMX support and other capabilities. -/
def CPUCapabilities (B : Build) (cpu : Cpu) : Nat :=
  if B.SYS_BEOS then
    CPU_CAPABILITY_NONE |||
      (B.cpu.CPU_CAPABILITY_486 ||| B.cpu.CPU_CAPABILITY_586 ||| B.cpu.CPU_CAPABILITY_MMX)
  else if B.SYS_DARWIN1_3 then CPUCapabilities_darwin B.cpu cpu
  else if B.i386 then CPUCapabilities_i386 B.cpu cpu
  else CPU_CAPABILITY_NONE

/-- Modelled from the spec: the macro `TestCPU` of `tests.h`, which is not part of the sources
at hand; the capabilities are a "bitmask of detected hardware features ... read by any
subsystem that wants to pick a feature-specific code path", so the test is whether the mask
holds a bit of the flag. -/
def TestCPU (i_cpu_capabilities flag : Nat) : Bool := i_cpu_capabilities &&& flag != 0

/-! ## Signal handlers -/

/-- The call `signal (i_signal, handler)`. -/
def World.signal (w : World) (i_signal : Signal) (handler : Disposition) : World :=
  { w.call (Call.signal i_signal handler) with
    signals := fun s => if s = i_signal then handler else w.signals s }

/-- The function `InitSignalHandler`: system signal handler initialization. -/
def InitSignalHandler (B : Build) (w : World) : World :=
  if B.WIN32 then w
  else
    ((((w.signal Signal.SIGINT Disposition.Fatal).signal Signal.SIGHUP
      Disposition.Fatal).signal Signal.SIGQUIT Disposition.Fatal).signal Signal.SIGALRM
      Disposition.Simple).signal Signal.SIGPIPE Disposition.Simple

/-- The function `SimpleSignalHandler`: called when a non fatal signal is received. -/
def SimpleSignalHandler (_i_signal : Signal) (w : World) : World :=
  w.call Call.intf_WarnMsg

/-- How the delivery of a signal ends: the program resumes in a new state, the process is
terminated by the default action, or the handler makes an invalid access (it dereferences a
null pointer or an interface that no longer exists) in the state given. -/
inductive Delivery where
  | resumes (w : World)
  | terminates
  | faults (w : World)

/-- The function `FatalSignalHandler`: called when a fatal signal is received. The last
statement, `p_main->p_intf->b_die = 1`, dereferences `p_intf` without any test. -/
def FatalSignalHandler (B : Build) (_i_signal : Signal) (w : World) : Delivery :=
  let w1 :=
    if B.WIN32 then w
    else
      ((w.signal Signal.SIGINT Disposition.SIG_IGN).signal Signal.SIGHUP
        Disposition.SIG_IGN).signal Signal.SIGQUIT Disposition.SIG_IGN
  let w2 := w1.call Call.intf_ErrMsgImm
  match w2.p_main.p_intf with
  | some intf =>
    if w2.intf_alive then
      Delivery.resumes
        { w2 with p_main := { w2.p_main with p_intf := some { intf with b_die := true } } }
    else Delivery.faults w2
  | none => Delivery.faults w2

/-- The delivery of one signal to the process in state `w`; a handler installed by `signal`
stays installed when it is called (BSD semantics). -/
def deliver (B : Build) (i_signal : Signal) (w : World) : Delivery :=
  match w.signals i_signal with
  | Disposition.SIG_DFL => Delivery.terminates
  | Disposition.SIG_IGN => Delivery.resumes w
  | Disposition.Fatal => FatalSignalHandler B i_signal w
  | Disposition.Simple => Delivery.resumes (SimpleSignalHandler i_signal w)

/-- The delivery of a series of signals, one after the other, as long as the program
resumes. -/
def deliverAll (B : Build) : List Signal → World → Delivery
  | [], w => Delivery.resumes w
  | s :: rest, w =>
    match deliver B s w with
    | Delivery.resumes w1 => deliverAll B rest w1
    | Delivery.terminates => Delivery.terminates
    | Delivery.faults w1 => Delivery.faults w1

/-- The fatal class of signals: those `InitSignalHandler` gives to `FatalSignalHandler`. -/
def Signal.isFatal (s : Signal) : Bool :=
  match s with
  | Signal.SIGINT => true
  | Signal.SIGHUP => true
  | Signal.SIGQUIT => true
  | _ => false

/-! ## `main` -/

/-- The outcomes of the fallible calls of a run, and the value of `errno` that `main` finds
when it reads it. -/
structure Outcomes where
  /-- `intf_MsgCreate` returns a message interface. -/
  msg_created : Bool
  /-- `intf_PlaylistCreate` returns a playlist. -/
  playlist_created : Bool
  /-- `network_ChannelCreate` returns 0. -/
  channel_created : Bool
  /-- `intf_Create` returns an interface. -/
  intf_created : Bool
  errno : Int

/-- The state `main` starts from: `p_main` points to the fresh `main_data`, of which only
`i_cpu_capabilities` is assigned (the other members are shown zeroed); every signal has its
default disposition. -/
def initialWorld (B : Build) (cpu : Cpu) (argv : List CStr) (env : Environ) : World :=
  { p_main :=
      { i_cpu_capabilities := CPUCapabilities B cpu, i_argc := 0, ppsz_argv := [],
        ppsz_env := [], psz_arg0 := [], b_audio := false, b_video := false,
        b_channels := false, i_warning_level := 0, p_intf := none },
    environ := env, i_argc := argv.length, ppsz_argv := argv, optind := 1, trace := [],
    signals := fun _ => Disposition.SIG_DFL, intf_alive := false }

/-- Lines 297-306 of `main`: initialize shared resources and libraries. The call to
`network_ChannelCreate` is made only when `b_channels` is set. -/
def channelsInit (o : Outcomes) (w : World) : World :=
  if w.p_main.b_channels then
    let w1 := w.call (Call.network_ChannelCreate o.channel_created)
    if ¬ o.channel_created then
      { w1.call Call.intf_Msg with p_main := { w1.p_main with b_channels := false } }
    else w1
  else w

/-- Lines 308-340 of `main`: try to run the interface. The interface exists from the
successful `intf_Create` to `intf_Destroy`; `main` never clears `p_intf` nor the handlers.
Signals that arrive meanwhile are the matter of `deliver`, not of this function. -/
def runInterface (B : Build) (o : Outcomes) (w : World) : World :=
  let w1 := w.call (Call.intf_Create o.intf_created)
  if ¬ o.intf_created then
    { w1.call Call.intf_ErrMsg with p_main := { w1.p_main with p_intf := none } }
  else
    let w2 : World :=
      { w1 with p_main := { w1.p_main with p_intf := some ⟨false⟩ }, intf_alive := true }
    let w3 := InitSignalHandler B (w2.call Call.InitSignalHandler)
    let w4 := w3.call Call.pf_run
    let w5 : World := { w4.call Call.intf_Destroy with intf_alive := false }
    if w5.p_main.b_channels then w5.call Call.network_ChannelJoin else w5

/-- Lines 342-365 of `main`: free the banks and the playlist, system specific cleaning code,
terminate the messages interface. -/
def teardown (B : Build) (w : World) : World :=
  let w1 := (((w.call Call.vout_EndBank).call Call.aout_EndBank).call Call.module_EndBank).call
    Call.intf_PlaylistDestroy
  let w2 := if B.SYS_BEOS ∨ B.SYS_DARWIN1_3 then w1.call Call.system_End else w1
  (w2.call Call.intf_Msg).call Call.intf_MsgDestroy

/-- Lines 273-367 of `main`: what `main` does once `GetConfiguration` has returned 0. -/
def startup (B : Build) (o : Outcomes) (w : World) : Int × World :=
  let w5 := w.call (Call.intf_PlaylistCreate o.playlist_created)
  if ¬ o.playlist_created then
    (o.errno, (w5.call Call.intf_ErrMsg).call Call.intf_MsgDestroy)
  else
    let w6 := GetFilenames (w5.call Call.intf_PlaylistInit)
    let w7 := ((w6.call Call.module_InitBank).call Call.aout_InitBank).call
      Call.vout_InitBank
    (0, teardown B (runInterface B o (channelsInit o w7)))

/-- Lines 244-262 of `main`: the system specific initialization code, then the state in
which `GetConfiguration` is called, the messages interface being created. -/
def systemInit (B : Build) (w : World) : World :=
  if B.SYS_BEOS ∨ B.SYS_DARWIN1_3 then w.call Call.system_Init else w

/-- The state in which `main` calls `GetConfiguration`: `intf_MsgCreate` has succeeded and the
copyright message is printed. -/
def msgReady (B : Build) (cpu : Cpu) (argv : List CStr) (env : Environ) : World :=
  ((systemInit B (initialWorld B cpu argv env)).call (Call.intf_MsgCreate true)).call
    Call.intf_MsgImm

/-- The function `main`: parse command line, start interface and spawn threads. The result is the exit
status with the final state, whose trace lists the calls of the run. -/
def main (B : Build) (cpu : Cpu) (o : Outcomes) (argv : List CStr) (env : Environ) :
    Int × World :=
  let w0 := initialWorld B cpu argv env
  if B.pentium ∧ ¬ TestCPU w0.p_main.i_cpu_capabilities B.cpu.CPU_CAPABILITY_586 then (1, w0)
  else if ¬ o.msg_created then (o.errno, (systemInit B w0).call (Call.intf_MsgCreate false))
  else
    let c := GetConfiguration B (msgReady B cpu argv env)
    if c.1 ≠ 0 then (o.errno, c.2.call Call.intf_MsgDestroy)
    else startup B o c.2

/-! ## Subsystems created and destroyed by a run -/

/-- The subsystems `main` brings up. The host specific `system_Init`/`system_End` pair is
initialisation code of the host, not a subsystem. -/
inductive Subsystem where
  | msg
  | playlist
  | module_bank
  | aout_bank
  | vout_bank
  | channels
  | intf
  deriving DecidableEq, Repr

/-- The subsystem a call creates, when it is a create call that succeeds. -/
def Call.creates : Call → Option Subsystem
  | Call.intf_MsgCreate true => some Subsystem.msg
  | Call.intf_PlaylistCreate true => some Subsystem.playlist
  | Call.module_InitBank => some Subsystem.module_bank
  | Call.aout_InitBank => some Subsystem.aout_bank
  | Call.vout_InitBank => some Subsystem.vout_bank
  | Call.network_ChannelCreate true => some Subsystem.channels
  | Call.intf_Create true => some Subsystem.intf
  | _ => none

/-- The subsystem a call destroys, when it is a destroy call. -/
def Call.destroys : Call → Option Subsystem
  | Call.intf_MsgDestroy => some Subsystem.msg
  | Call.intf_PlaylistDestroy => some Subsystem.playlist
  | Call.module_EndBank => some Subsystem.module_bank
  | Call.aout_EndBank => some Subsystem.aout_bank
  | Call.vout_EndBank => some Subsystem.vout_bank
  | Call.intf_Destroy => some Subsystem.intf
  | _ => none

/-- The subsystems created in a trace, in order of creation. -/
def created (t : List Call) : List Subsystem := t.filterMap Call.creates

/-- The subsystems destroyed in a trace, in order of destruction. -/
def destroyed (t : List Call) : List Subsystem := t.filterMap Call.destroys

/-! ## A concrete build and host, to evaluate the definitions -/

/-- Sample variable names, in the style of `config.h`. -/
def sampleVars : Vars :=
  { INTF_METHOD_VAR := "vlc_intf".toList, AOUT_METHOD_VAR := "vlc_aout".toList,
    AOUT_STEREO_VAR := "vlc_stereo".toList, AOUT_SPDIF_VAR := "vlc_spdif".toList,
    VOUT_METHOD_VAR := "vlc_vout".toList, VOUT_DISPLAY_VAR := "vlc_display".toList,
    VOUT_WIDTH_VAR := "vlc_width".toList, VOUT_HEIGHT_VAR := "vlc_height".toList,
    VOUT_GRAYSCALE_VAR := "vlc_grayscale".toList, VOUT_FULLSCREEN_VAR := "vlc_fullscreen".toList,
    VOUT_OVERLAY_VAR := "vlc_overlay".toList, MOTION_METHOD_VAR := "vlc_motion".toList,
    IDCT_METHOD_VAR := "vlc_idct".toList, YUV_METHOD_VAR := "vlc_yuv".toList,
    INPUT_TITLE_VAR := "vlc_input_title".toList, INPUT_CHAPTER_VAR := "vlc_input_chapter".toList,
    INPUT_ANGLE_VAR := "vlc_input_angle".toList, INPUT_AUDIO_VAR := "vlc_input_audio".toList,
    INPUT_CHANNEL_VAR := "vlc_input_channel".toList,
    INPUT_SUBTITLE_VAR := "vlc_input_subtitle".toList, INPUT_METHOD_VAR := "vlc_input".toList,
    INPUT_SERVER_VAR := "vlc_server".toList, INPUT_PORT_VAR := "vlc_server_port".toList,
    INPUT_BROADCAST_VAR := "vlc_broadcast".toList, VPAR_SYNCHRO_VAR := "vlc_synchro".toList }

/-- Sample capability bits: one bit per capability. -/
def sampleFlags : CpuFlags :=
  { CPU_CAPABILITY_486 := 1, CPU_CAPABILITY_586 := 2, CPU_CAPABILITY_MMX := 8,
    CPU_CAPABILITY_3DNOW := 16, CPU_CAPABILITY_MMXEXT := 32, CPU_CAPABILITY_SSE := 64,
    CPU_CAPABILITY_ALTIVEC := 65536 }

/-- A sample build: a 32 bit x86 host that is neither BeOS nor Darwin, `EINVAL` being 22. -/
def sampleBuild : Build :=
  { SYS_BEOS := false, SYS_DARWIN1_3 := false, WIN32 := false, i386 := true, pentium := false,
    longBits := 32,
    vars := sampleVars, cpu := sampleFlags, EINVAL := 22,
    REQUESTED_AC3 := 2, REQUESTED_LPCM := 3, REQUESTED_MPEG := 1, REQUESTED_NOAUDIO := 255 }

/-- A sample Darwin build: the sample build with `SYS_DARWIN1_3` defined instead of
`__i386__`. -/
def sampleDarwin : Build := { sampleBuild with SYS_DARWIN1_3 := true, i386 := false }

/-- A sample processor without the CPUID instruction. -/
def sampleCpu : Cpu :=
  { flags_eax := 0, flags_ebx := 0, cpuid := fun _ => ⟨0, 0, 0, 0⟩, host_info_ok := true,
    psz_name := "ppc7400".toList }

/-- Command line words as C strings. -/
def words (l : List String) : List CStr := l.map String.toList

/-- Whether a character is one of the decimal digits `0` to `9`. -/
def isDecDigit (c : Char) : Bool := 48 ≤ c.toNat && c.toNat ≤ 57

/-- The number a string of decimal digits denotes, read from the left, starting from the
value `acc` of the digits already read. -/
def decVal (acc : Nat) (ds : CStr) : Nat :=
  ds.foldl (fun a c => a * 10 + (c.toNat - 48)) acc

/-- Whether a string starts with a decimal number: white space, then an optional sign, then
a decimal digit. -/
def startsWithNumber (s : CStr) : Bool :=
  match s.dropWhile isspace with
  | '-' :: c :: _ => isDecDigit c
  | '+' :: c :: _ => isDecDigit c
  | c :: _ => isDecDigit c
  | [] => false

/-- The options whose case of the switch is `main_PutIntVariable (KEY, atoi (optarg))`: each
spelling accepted by the tables, with the key written. -/
def numericStore (V : Vars) : List (CStr × CStr) :=
  [ ("-t".toList, V.INPUT_TITLE_VAR), ("--dvdtitle".toList, V.INPUT_TITLE_VAR),
    ("-T".toList, V.INPUT_CHAPTER_VAR), ("--dvdchapter".toList, V.INPUT_CHAPTER_VAR),
    ("-u".toList, V.INPUT_ANGLE_VAR), ("--dvdangle".toList, V.INPUT_ANGLE_VAR),
    ("-c".toList, V.INPUT_CHANNEL_VAR), ("--dvdchannel".toList, V.INPUT_CHANNEL_VAR),
    ("-s".toList, V.INPUT_SUBTITLE_VAR), ("--dvdsubtitle".toList, V.INPUT_SUBTITLE_VAR) ]

/-- What a case of the option switch leaves unchanged in the state `w`: the variable `i_argc`
of `main` and the executable name. -/
def CaseKeeps (w : World) (x : Option Int × World) : Prop :=
  x.2.i_argc = w.i_argc ∧ x.2.p_main.psz_arg0 = w.p_main.psz_arg0

/-- The calls of `InitSignalHandler`. -/
def initSignalCalls (B : Build) : List Call :=
  if B.WIN32 then []
  else
    [Call.signal Signal.SIGINT Disposition.Fatal, Call.signal Signal.SIGHUP Disposition.Fatal,
      Call.signal Signal.SIGQUIT Disposition.Fatal, Call.signal Signal.SIGALRM Disposition.Simple,
      Call.signal Signal.SIGPIPE Disposition.Simple]

/-- The calls of `channelsInit`, given the value of `b_channels` on entry. -/
def channelCalls (o : Outcomes) (b_channels : Bool) : List Call :=
  if b_channels then
    if o.channel_created then [Call.network_ChannelCreate true]
    else [Call.network_ChannelCreate false, Call.intf_Msg]
  else []

/-- The calls of `runInterface`, given the value of `b_channels` on entry. -/
def interfaceCalls (B : Build) (o : Outcomes) (b_channels : Bool) : List Call :=
  if o.intf_created then
    [Call.intf_Create true, Call.InitSignalHandler] ++ initSignalCalls B ++
      [Call.pf_run, Call.intf_Destroy] ++ (if b_channels then [Call.network_ChannelJoin] else [])
  else [Call.intf_Create false, Call.intf_ErrMsg]

/-- The calls of `teardown`. -/
def teardownCalls (B : Build) : List Call :=
  [Call.vout_EndBank, Call.aout_EndBank, Call.module_EndBank, Call.intf_PlaylistDestroy] ++
    (if B.SYS_BEOS ∨ B.SYS_DARWIN1_3 then [Call.system_End] else []) ++
    [Call.intf_Msg, Call.intf_MsgDestroy]

/-- The calls `startup` makes from state `w` when the playlist is created: playlist, file
names, banks, channels, interface, teardown. -/
def startupCalls (B : Build) (o : Outcomes) (w : World) : List Call :=
  [Call.intf_PlaylistCreate true, Call.intf_PlaylistInit] ++
    ((w.ppsz_argv.take w.i_argc).drop w.optind).map Call.intf_PlaylistAdd ++
    [Call.module_InitBank, Call.aout_InitBank, Call.vout_InitBank] ++
    channelCalls o w.p_main.b_channels ++
    interfaceCalls B o (w.p_main.b_channels && o.channel_created) ++
    teardownCalls B

/-- The calls a run can make before it initializes the banks: those of the runs that end
early are all of this kind. -/
def Call.isEarly : Call → Bool
  | Call.system_Init => true
  | Call.intf_MsgCreate _ => true
  | Call.intf_MsgImm => true
  | Call.intf_ErrMsg => true
  | Call.Usage _ => true
  | Call.Version => true
  | Call.intf_MsgDestroy => true
  | Call.intf_PlaylistCreate false => true
  | _ => false

/-- The calls that end `GetConfiguration` when a case of its option loop returns `r`: the
help or version text for -1, the error message and the short usage for `EINVAL`. -/
def exitPrints (B : Build) (r : Int) (l : List Call) : Prop :=
  (r = -1 ∧ (l = [Call.Usage SHORT_HELP] ∨ l = [Call.Usage LONG_HELP] ∨ l = [Call.Version])) ∨
    (r = B.EINVAL ∧ l = [Call.intf_ErrMsg, Call.Usage USAGE])

/-- The state `w` with the argument vector `argv` (and `i_argc` its length). -/
def World.withArgs (w : World) (argv : List CStr) : World :=
  { w with ppsz_argv := argv, i_argc := argv.length }

/-- The options whose case of the switch is a plain `main_PutPszVariable (KEY, optarg)`: each
spelling accepted by the tables, with the key written. -/
def directStore (V : Vars) : List (CStr × CStr) :=
  [ ("--width".toList, V.VOUT_WIDTH_VAR), ("--height".toList, V.VOUT_HEIGHT_VAR),
    ("--display".toList, V.VOUT_DISPLAY_VAR),
    ("-I".toList, V.INTF_METHOD_VAR), ("--intf".toList, V.INTF_METHOD_VAR),
    ("-A".toList, V.AOUT_METHOD_VAR), ("--aout".toList, V.AOUT_METHOD_VAR),
    ("-V".toList, V.VOUT_METHOD_VAR), ("--vout".toList, V.VOUT_METHOD_VAR),
    ("--motion".toList, V.MOTION_METHOD_VAR), ("--idct".toList, V.IDCT_METHOD_VAR),
    ("--yuv".toList, V.YUV_METHOD_VAR), ("--input".toList, V.INPUT_METHOD_VAR),
    ("--server".toList, V.INPUT_SERVER_VAR), ("--port".toList, V.INPUT_PORT_VAR),
    ("--broadcast".toList, V.INPUT_BROADCAST_VAR), ("--synchro".toList, V.VPAR_SYNCHRO_VAR) ]

/-- The code `GetConfiguration` stores for a value of `-a`/`--dvdaudio`. -/
def audioCode (B : Build) (v : CStr) : Int :=
  if v = "ac3".toList then B.REQUESTED_AC3
  else if v = "lpcm".toList then B.REQUESTED_LPCM
  else if v = "mpeg".toList then B.REQUESTED_MPEG
  else B.REQUESTED_NOAUDIO

/-- The x86 capability constants are distinct bits: no two of them share a bit. -/
def CpuFlags.Distinct (F : CpuFlags) : Prop :=
  [F.CPU_CAPABILITY_486, F.CPU_CAPABILITY_586, F.CPU_CAPABILITY_MMX, F.CPU_CAPABILITY_3DNOW,
    F.CPU_CAPABILITY_MMXEXT, F.CPU_CAPABILITY_SSE].Pairwise (fun a b => a &&& b = 0)

instance (F : CpuFlags) : Decidable F.Distinct := by
  unfold CpuFlags.Distinct; exact inferInstance

/-- The calls that print the help or version text. -/
def Call.isHelp (c : Call) : Prop :=
  c = Call.Usage SHORT_HELP ∨ c = Call.Usage LONG_HELP ∨ c = Call.Version

instance (c : Call) : Decidable c.isHelp := by
  unfold Call.isHelp; exact inferInstance

/-- A stretch of a run from state `w` to state `w2`: the calls added to the trace create the
subsystems `cr`, destroy the subsystems `de`, and print no help or version text. -/
def Seg (w w2 : World) (cr de : List Subsystem) : Prop :=
  ∃ t : List Call, w2.trace = w.trace ++ t ∧ created t = cr ∧ destroyed t = de ∧
    ∀ c ∈ t, ¬ c.isHelp

/-- What a case of the option switch may add to the trace `t`: nothing or one error message
when it ends with `break`, the text of `exitPrints` when it returns. -/
def CaseTrace (B : Build) (t : List Call) (x : Option Int × World) : Prop :=
  (x.1 = none ∧ (x.2.trace = t ∨ x.2.trace = t ++ [Call.intf_ErrMsg])) ∨
    ∃ r e, x.1 = some r ∧ exitPrints B r e ∧ x.2.trace = t ++ e

/-- A series of writes to the configuration store, oldest first. -/
def putAll (env : Environ) (ws : List (CStr × CStr)) : Environ :=
  ws.foldl (fun e kv => main_PutPszVariable e kv.1 kv.2) env

/-- The value of the last write to `k` in a series of writes, if there is one. -/
def lastWrite (k : CStr) : List (CStr × CStr) → Option CStr
  | [] => none
  | kv :: ws =>
    match lastWrite k ws with
    | some v => some v
    | none => if kv.1 = k then some kv.2 else none

/-- The part of `strtol` that follows the blanks and the sign, as a function of the sign that
was read and of the string after it: the choice of the base, the digit loop and the
saturation. It is the body of `strtol` from that point on, and serves to state lemmas. -/
def strtolAfterSign (w : Nat) (nptr : CStr) (base : Nat) (neg : Bool) (s1 : CStr) : Int × CStr :=
  let hex : Bool := match s1 with
    | '0' :: x :: _ => (base = 0 || base = 16) && (x = 'x' || x = 'X')
    | _ => false
  let b : Nat :=
    if hex then 16
    else if base = 0 then (match s1 with
      | '0' :: _ => 8
      | _ => 10)
    else base
  let s2 : CStr := if hex then s1.drop 2 else s1
  match s2 with
  | c :: _ =>
    if isDigitIn b c then
      let r := scanDigits b 0 s2
      (clampLong w (if neg then -(r.1 : Int) else (r.1 : Int)), r.2)
    else if hex then (0, s1.drop 1) else (0, nptr)
  | [] => if hex then (0, s1.drop 1) else (0, nptr)

/-- Specification side: the blank characters skipped in front of a number: space, tab, line
feed, vertical tab, form feed and carriage return. -/
def isBlank (c : Char) : Bool :=
  " \t\n\x0b\x0c\r".toList.contains c

/-- The number a string of digits denotes in a base, most significant digit first. -/
def digitsValue (base : Nat) (ds : CStr) : Nat :=
  ds.foldl (fun a c => a * base + (digitVal c).getD 0) 0

/-- Specification side: the integer a whole string denotes when read as a C integer constant:
blanks, an optional sign, then hexadecimal digits after `0x` or `0X`, or octal digits after
a `0`, or decimal digits. It is `none` when the string is not of that form: no digit, or
characters after the digits. -/
def spec_integerDenoted (v : CStr) : Option Int :=
  let s := v.dropWhile isBlank
  let neg : Bool := s.head? = some '-'
  let u := if s.head? = some '-' ∨ s.head? = some '+' then s.tail else s
  let hex : Bool := u.take 2 = "0x".toList ∨ u.take 2 = "0X".toList
  let base : Nat := if hex then 16 else if u.head? = some '0' then 8 else 10
  let ds := if hex then u.drop 2 else u
  if ds ≠ [] ∧ ds.all (isDigitIn base) = true then
    some (if neg then -(digitsValue base ds : Int) else (digitsValue base ds : Int))
  else none

/-- Specification side: the integer prefix of a string: after blanks and an optional sign,
the number its leading decimal digits denote; 0 when no digit stands there. -/
def spec_leadingInteger (v : CStr) : Int :=
  let s := v.dropWhile isBlank
  let neg : Bool := s.head? = some '-'
  let u := if s.head? = some '-' ∨ s.head? = some '+' then s.tail else s
  if neg then -(decVal 0 (u.takeWhile isDecDigit) : Int)
  else (decVal 0 (u.takeWhile isDecDigit) : Int)

/-! ## The environment: reading back what was written -/

theorem afterName_self (k v : CStr) : afterName k (k ++ '=' :: v) = some v := by
  induction k with
  | nil => rfl
  | cons c cs ih => simp [afterName, ih]

theorem afterName_eq_some {k e v : CStr} (h : afterName k e = some v) : e = k ++ '=' :: v := by
  induction k generalizing e with
  | nil =>
    cases e with
    | nil => simp [afterName] at h
    | cons d ds =>
      by_cases hd : d = '='
      · subst hd; simp [afterName] at h; simp [h]
      · unfold afterName at h
        split at h
        · rename_i heq; simp at heq; exact absurd heq.1 hd
        · simp at h
        · rename_i heq _; simp at heq
        · rename_i heq _; simp at heq
  | cons c cs ih =>
    cases e with
    | nil => simp [afterName] at h
    | cons d ds =>
      simp only [afterName] at h
      split at h
      · rename_i hcd; subst hcd; simp [ih h]
      · simp at h

theorem afterName_other {k q : CStr} (v : CStr) (hk : '=' ∉ k) (hq : '=' ∉ q)
    (hne : k ≠ q) : afterName q (k ++ '=' :: v) = none := by
  cases h : afterName q (k ++ '=' :: v) with
  | none => rfl
  | some u =>
    exfalso
    have h1 := afterName_eq_some h
    clear h
    induction k generalizing q with
    | nil =>
      cases q with
      | nil => exact hne rfl
      | cons c cs =>
        simp at h1
        exact hq (by rw [← h1.1]; simp)
    | cons c cs ih =>
      cases q with
      | nil =>
        simp at h1
        exact hk (by rw [h1.1]; simp)
      | cons d ds =>
        simp at h1
        refine ih (q := ds) ?_ ?_ ?_ h1.2
        · intro hm; exact hk (List.mem_cons_of_mem _ hm)
        · intro hm; exact hq (List.mem_cons_of_mem _ hm)
        · intro he; exact hne (by rw [h1.1, he])

theorem takeWhile_key {k : CStr} (v : CStr) (hk : '=' ∉ k) :
    (k ++ '=' :: v).takeWhile (fun c => c != '=') = k := by
  induction k with
  | nil => simp
  | cons c cs ih =>
    have hc : c ≠ '=' := fun h => hk (by simp [h])
    have hcs : '=' ∉ cs := fun h => hk (List.mem_cons_of_mem _ h)
    simp [List.takeWhile_cons, hc, ih hcs]

theorem putenv_entry {k : CStr} (env : Environ) (v : CStr) (hk : '=' ∉ k) :
    main_PutPszVariable env k v = replaceEntry k (k ++ '=' :: v) env := by
  simp [main_PutPszVariable, putenv, takeWhile_key v hk]

theorem findSome_replace_same (k v : CStr) (env : Environ) :
    (replaceEntry k (k ++ '=' :: v) env).findSome? (afterName k) = some v := by
  induction env with
  | nil => simp [replaceEntry, afterName_self]
  | cons e es ih =>
    unfold replaceEntry
    cases he : afterName k e with
    | none => simp [he, ih]
    | some u => simp [afterName_self]

theorem findSome_replace_other {k k2 : CStr} (v : CStr) (env : Environ) (hk : '=' ∉ k)
    (hk2 : '=' ∉ k2) (hne : k ≠ k2) :
    (replaceEntry k (k ++ '=' :: v) env).findSome? (afterName k2) =
      env.findSome? (afterName k2) := by
  induction env with
  | nil => simp [replaceEntry, afterName_other v hk hk2 hne]
  | cons e es ih =>
    unfold replaceEntry
    cases he : afterName k e with
    | none =>
      have h2 : (if (none : Option CStr).isSome then (k ++ '=' :: v) :: es
          else e :: replaceEntry k (k ++ '=' :: v) es) = e :: replaceEntry k (k ++ '=' :: v) es := rfl
      rw [h2, List.findSome?_cons, List.findSome?_cons, ih]
    | some u =>
      have := afterName_eq_some he
      subst this
      simp [afterName_other _ hk hk2 hne]

/-- Reading a key back after a write to it gives the value written. -/
theorem getenv_put_same {k : CStr} (env : Environ) (v : CStr) (hk : ValidKey k) :
    getenv (main_PutPszVariable env k v) k = some v := by
  rw [putenv_entry env v hk.2]
  simp [getenv, hk.1, findSome_replace_same]

/-- A write to one key leaves the reading of every other key unchanged. -/
theorem getenv_put_other {k k2 : CStr} (env : Environ) (v : CStr) (hk : ValidKey k)
    (hk2 : ValidKey k2) (hne : k ≠ k2) :
    getenv (main_PutPszVariable env k v) k2 = getenv env k2 := by
  rw [putenv_entry env v hk.2]
  simp [getenv, hk2.1, findSome_replace_other v env hk.2 hk2.2 hne]

/-- After a series of writes a key reads as its last write, or as before the series when it
was not written. -/
theorem getenv_putAll (env : Environ) (ws : List (CStr × CStr)) (k : CStr) (hk : ValidKey k)
    (hws : ∀ kv ∈ ws, ValidKey kv.1) :
    getenv (putAll env ws) k =
      match lastWrite k ws with
      | some v => some v
      | none => getenv env k := by
  induction ws generalizing env with
  | nil => simp [putAll, lastWrite]
  | cons kv ws ih =>
    have h1 : putAll env (kv :: ws) = putAll (main_PutPszVariable env kv.1 kv.2) ws := rfl
    have hkv : ValidKey kv.1 := hws kv (by simp)
    rw [h1, ih _ (fun x hx => hws x (List.mem_cons_of_mem _ hx))]
    have h2 : lastWrite k (kv :: ws) =
        match lastWrite k ws with
        | some v => some v
        | none => if kv.1 = k then some kv.2 else none := rfl
    rw [h2]
    cases hl : lastWrite k ws with
    | some v => rfl
    | none =>
      by_cases he : kv.1 = k
      · subst he; simp [getenv_put_same env kv.2 hkv]
      · simp [he, getenv_put_other env kv.2 hkv hk he]

theorem lastWrite_eq_none {k : CStr} {ws : List (CStr × CStr)} :
    lastWrite k ws = none ↔ ∀ kv ∈ ws, kv.1 ≠ k := by
  induction ws with
  | nil => simp [lastWrite]
  | cons kv ws ih =>
    have h2 : lastWrite k (kv :: ws) =
        match lastWrite k ws with
        | some v => some v
        | none => if kv.1 = k then some kv.2 else none := rfl
    rw [h2]
    cases hl : lastWrite k ws with
    | some v =>
      simp only [List.mem_cons, forall_eq_or_imp]
      constructor
      · intro h; cases h
      · intro h; rw [ih.mpr h.2] at hl; cases hl
    | none =>
      have := ih.mp hl
      by_cases he : kv.1 = k
      · simp [he]
      · simp [he]; intro a b hab; exact this (a, b) hab

theorem toInt32_of_range {x : Int} (h1 : -2147483648 ≤ x) (h2 : x < 2147483648) :
    toInt32 x = x := by
  unfold toInt32
  omega

theorem clampLong_of_range {w : Nat} {x : Int} (hw : 32 ≤ w) (h1 : -2147483648 ≤ x)
    (h2 : x < 2147483648) : clampLong w x = x := by
  have hp : (2 : Int) ^ 31 ≤ 2 ^ (w - 1) := by
    have : (2 : Nat) ^ 31 ≤ 2 ^ (w - 1) := Nat.pow_le_pow_right (by norm_num) (by omega)
    exact_mod_cast this
  unfold clampLong LONG_MAX LONG_MIN
  norm_num at hp
  split_ifs <;> omega

/-- C6: the configuration store is last-write-wins. After two writes to a key the second
value is read; after any series of writes a key reads as its last write, and as before the
series when the series does not write it; the default is used only for a key that no write
of the series names and that the environment did not hold before. -/
theorem configuration_store_last_write_wins (env : Environ) (k v1 v2 d : CStr)
    (hk : ValidKey k) :
    main_GetPszVariable (main_PutPszVariable (main_PutPszVariable env k v1) k v2) k d = v2 ∧
      (∀ ws : List (CStr × CStr), (∀ kv ∈ ws, ValidKey kv.1) →
        main_GetPszVariable (putAll env ws) k d =
          match lastWrite k ws with
          | some v => v
          | none => main_GetPszVariable env k d) ∧
      (∀ ws : List (CStr × CStr), (∀ kv ∈ ws, ValidKey kv.1) →
        getenv (putAll env ws) k = none → (∀ kv ∈ ws, kv.1 ≠ k) ∧ getenv env k = none) ∧
      (getenv env k = none → main_GetPszVariable env k d = d) := by
  refine ⟨?_, ?_, ?_, ?_⟩
  · simp [main_GetPszVariable, getenv_put_same _ v2 hk]
  · intro ws hws
    simp only [main_GetPszVariable, getenv_putAll env ws k hk hws]
    cases lastWrite k ws <;> rfl
  · intro ws hws h
    rw [getenv_putAll env ws k hk hws] at h
    cases hl : lastWrite k ws with
    | some v => rw [hl] at h; cases h
    | none => rw [hl] at h; exact ⟨lastWrite_eq_none.mp hl, h⟩
  · intro h; simp [main_GetPszVariable, h]

theorem configuration_store_last_write_wins_witness :
    ValidKey "vlc_width".toList ∧
      main_GetPszVariable (main_PutPszVariable (main_PutPszVariable ["vlc_width=1".toList]
        "vlc_width".toList "800".toList) "vlc_width".toList "640".toList) "vlc_width".toList
        "320".toList = "640".toList :=
  ⟨by decide,
   (configuration_store_last_write_wins ["vlc_width=1".toList] "vlc_width".toList
     "800".toList "640".toList "320".toList (by decide)).1⟩

@[simp]
theorem World.call_trace (w : World) (c : Call) : (w.call c).trace = w.trace ++ [c] := rfl
@[simp]
theorem World.putPsz_trace (w : World) (k v : CStr) : (w.putPsz k v).trace = w.trace := rfl
@[simp]
theorem World.putInt_trace (w : World) (k : CStr) (i : Int) :
    (w.putInt k i).trace = w.trace := rfl
@[simp]
theorem World.setWarning_trace (w : World) (i : Int) :
    (w.setWarning i).trace = w.trace := rfl

theorem ite_cases {α : Type} (P : α → Prop) (c : Prop) [Decidable c] {a b : α} (ha : P a)
    (hb : P b) : P (if c then a else b) := by
  split <;> assumption

/-- What one case of the option switch adds to the trace. -/
theorem optionCase_trace (B : Build) (i_cmd : Int) (optarg : CStr) (w : World) :
    CaseTrace B w.trace (optionCase B i_cmd optarg w) := by
  unfold optionCase
  repeat' apply ite_cases (CaseTrace B w.trace)
  all_goals simp [CaseTrace, exitPrints]

/-- What the option loop adds to the trace: error messages of the deprecated `--warning`,
then the text of the case that returned, if one did. -/
theorem optionLoop_trace (B : Build) (evs : List (Int × Option CStr)) (w : World) :
    ∃ l : List Call, (∀ c ∈ l, c = Call.intf_ErrMsg) ∧
      (((optionLoop B evs w).1 = none ∧ (optionLoop B evs w).2.trace = w.trace ++ l) ∨
        ∃ r e, (optionLoop B evs w).1 = some r ∧ exitPrints B r e ∧
          (optionLoop B evs w).2.trace = w.trace ++ l ++ e) := by
  induction evs generalizing w with
  | nil => exact ⟨[], by simp, Or.inl ⟨rfl, by simp [optionLoop]⟩⟩
  | cons ev evs ih =>
    obtain ⟨i_cmd, optarg⟩ := ev
    rcases optionCase_trace B i_cmd (optarg.getD []) w with ⟨h1, h2⟩ | ⟨r, e, h1, h2, h3⟩
    · have hstep : optionLoop B ((i_cmd, optarg) :: evs) w =
          optionLoop B evs (optionCase B i_cmd (optarg.getD []) w).2 := by
        generalize hx : optionCase B i_cmd (optarg.getD []) w = x at h1
        obtain ⟨x1, x2⟩ := x
        simp at h1; subst h1
        simp [optionLoop, hx]
      obtain ⟨l, hl, hres⟩ := ih (optionCase B i_cmd (optarg.getD []) w).2
      rw [hstep]
      rcases h2 with h2 | h2
      · rw [h2] at hres; exact ⟨l, hl, hres⟩
      · rw [h2] at hres
        refine ⟨Call.intf_ErrMsg :: l, ?_, ?_⟩
        · intro c hc; simp at hc; rcases hc with hc | hc
          · exact hc
          · exact hl c hc
        · simpa using hres
    · have hstep : optionLoop B ((i_cmd, optarg) :: evs) w =
          (some r, (optionCase B i_cmd (optarg.getD []) w).2) := by
        generalize hx : optionCase B i_cmd (optarg.getD []) w = x at h1
        obtain ⟨x1, x2⟩ := x
        simp at h1; subst h1
        simp [optionLoop, hx]
      rw [hstep]
      exact ⟨[], by simp, Or.inr ⟨r, e, rfl, h2, by simpa using h3⟩⟩

/-- What `GetConfiguration` adds to the trace: it returns 0 after error messages only, or it
returns the value of the case that ended the option loop after the text of that case. -/
theorem GetConfiguration_trace (B : Build) (w : World) :
    ∃ l : List Call, (∀ c ∈ l, c = Call.intf_ErrMsg) ∧
      (((GetConfiguration B w).1 = 0 ∧ (GetConfiguration B w).2.trace = w.trace ++ l) ∨
        ∃ e, exitPrints B (GetConfiguration B w).1 e ∧
          (GetConfiguration B w).2.trace = w.trace ++ l ++ e) := by
  unfold GetConfiguration
  simp only
  split_ifs with hd
  · exact ⟨[], by simp, Or.inl ⟨rfl, by simp⟩⟩
  · generalize hw1 : ({ w with p_main := _ } : World) = w1
    have ht : w1.trace = w.trace := by rw [← hw1]
    generalize hs : getoptScan _ none _ = scan
    obtain ⟨l, hl, hres⟩ := optionLoop_trace B scan.returns w1
    refine ⟨l, hl, ?_⟩
    generalize hx : optionLoop B scan.returns w1 = x at hres
    obtain ⟨x1, x2⟩ := x
    rcases hres with ⟨h1, h2⟩ | ⟨r, e, h1, h2, h3⟩
    · simp at h1; subst h1
      simp only
      left
      split_ifs <;> simp [h2, ht] at * <;> simp [h2, ht]
    · simp at h1; subst h1
      right
      exact ⟨e, h2, by simpa [ht] using h3⟩

@[simp]
theorem created_append (a b : List Call) : created (a ++ b) = created a ++ created b := by
  simp [created]

@[simp]
theorem destroyed_append (a b : List Call) :
    destroyed (a ++ b) = destroyed a ++ destroyed b := by
  simp [destroyed]

theorem created_errMsgs {l : List Call} (hl : ∀ c ∈ l, c = Call.intf_ErrMsg) : created l = [] := by
  induction l with
  | nil => rfl
  | cons c cs ih =>
    have hc := hl c (by simp)
    subst hc
    have h : created (Call.intf_ErrMsg :: cs) = created cs := rfl
    rw [h]; exact ih (fun x hx => hl x (List.mem_cons_of_mem _ hx))

theorem destroyed_errMsgs {l : List Call} (hl : ∀ c ∈ l, c = Call.intf_ErrMsg) :
    destroyed l = [] := by
  induction l with
  | nil => rfl
  | cons c cs ih =>
    have hc := hl c (by simp)
    subst hc
    have h : destroyed (Call.intf_ErrMsg :: cs) = destroyed cs := rfl
    rw [h]; exact ih (fun x hx => hl x (List.mem_cons_of_mem _ hx))

theorem created_playlistAdd (l : List CStr) : created (l.map Call.intf_PlaylistAdd) = [] := by
  induction l with
  | nil => rfl
  | cons c cs ih => simp [created, Call.creates]

theorem destroyed_playlistAdd (l : List CStr) :
    destroyed (l.map Call.intf_PlaylistAdd) = [] := by
  induction l with
  | nil => rfl
  | cons c cs ih => simp [destroyed, Call.destroys]

theorem created_exitPrints {B : Build} {r : Int} {e : List Call} (h : exitPrints B r e) :
    created e = [] ∧ destroyed e = [] := by
  rcases h with ⟨_, h | h | h⟩ | ⟨_, h⟩ <;> subst h <;> exact ⟨rfl, rfl⟩

theorem Seg.trans {w w2 w3 : World} {c1 d1 c2 d2 : List Subsystem} (h1 : Seg w w2 c1 d1)
    (h2 : Seg w2 w3 c2 d2) : Seg w w3 (c1 ++ c2) (d1 ++ d2) := by
  obtain ⟨t1, ht1, hc1, hd1, hn1⟩ := h1
  obtain ⟨t2, ht2, hc2, hd2, hn2⟩ := h2
  refine ⟨t1 ++ t2, by rw [ht2, ht1, List.append_assoc], by simp [hc1, hc2], by simp [hd1, hd2],
    ?_⟩
  intro c hc
  rcases List.mem_append.mp hc with h | h
  · exact hn1 c h
  · exact hn2 c h

theorem teardown_seg (B : Build) (w : World) :
    Seg w (teardown B w) []
      [Subsystem.vout_bank, Subsystem.aout_bank, Subsystem.module_bank, Subsystem.playlist,
        Subsystem.msg] := by
  unfold teardown
  by_cases h : B.SYS_BEOS = true ∨ B.SYS_DARWIN1_3 = true
  · refine ⟨[Call.vout_EndBank, Call.aout_EndBank, Call.module_EndBank,
      Call.intf_PlaylistDestroy, Call.system_End, Call.intf_Msg, Call.intf_MsgDestroy], ?_, rfl,
      rfl, ?_⟩
    · simp [h, World.call]
    · simp [Call.isHelp]
  · refine ⟨[Call.vout_EndBank, Call.aout_EndBank, Call.module_EndBank,
      Call.intf_PlaylistDestroy, Call.intf_Msg, Call.intf_MsgDestroy], ?_, rfl, rfl, ?_⟩
    · simp [h, World.call]
    · simp [Call.isHelp]

theorem World.signal_trace (w : World) (s : Signal) (h : Disposition) :
    (w.signal s h).trace = w.trace ++ [Call.signal s h] := rfl

theorem World.signal_p_main (w : World) (s : Signal) (h : Disposition) :
    (w.signal s h).p_main = w.p_main := rfl

theorem World.signal_alive (w : World) (s : Signal) (h : Disposition) :
    (w.signal s h).intf_alive = w.intf_alive := rfl

/-- What `InitSignalHandler` changes: the trace and the dispositions only. -/
theorem InitSignalHandler_state (B : Build) (w : World) :
    (InitSignalHandler B w).trace = w.trace ++ initSignalCalls B ∧
      (InitSignalHandler B w).p_main = w.p_main ∧
      (InitSignalHandler B w).intf_alive = w.intf_alive := by
  unfold InitSignalHandler initSignalCalls
  cases B.WIN32
  · simp [World.signal_trace, World.signal_p_main, World.signal_alive]
  · simp

theorem InitSignalHandler_trace (B : Build) (w : World) :
    (InitSignalHandler B w).trace = w.trace ++ initSignalCalls B :=
  (InitSignalHandler_state B w).1

theorem InitSignalHandler_p_main (B : Build) (w : World) :
    (InitSignalHandler B w).p_main = w.p_main :=
  (InitSignalHandler_state B w).2.1

theorem InitSignalHandler_alive (B : Build) (w : World) :
    (InitSignalHandler B w).intf_alive = w.intf_alive :=
  (InitSignalHandler_state B w).2.2

theorem World.call_p_main (w : World) (c : Call) : (w.call c).p_main = w.p_main := rfl

theorem World.call_alive (w : World) (c : Call) : (w.call c).intf_alive = w.intf_alive := rfl

/-- The trace and the root context after `runInterface`. -/
theorem runInterface_state (B : Build) (o : Outcomes) (w : World) :
    (runInterface B o w).trace = w.trace ++ interfaceCalls B o w.p_main.b_channels ∧
      (runInterface B o w).p_main.b_channels = w.p_main.b_channels ∧
      (runInterface B o w).intf_alive = (if o.intf_created then false else w.intf_alive) := by
  unfold runInterface interfaceCalls
  cases hi : o.intf_created
  · simp [World.call]
  · simp only [Bool.not_eq_true, Bool.true_eq_false, ↓reduceIte, World.call_trace,
      World.call_p_main, InitSignalHandler_trace, InitSignalHandler_p_main]
    cases hc : w.p_main.b_channels
    · simp [World.call_trace, World.call_p_main, World.call_alive, InitSignalHandler_trace,
        InitSignalHandler_p_main]
    · simp [World.call_trace, World.call_p_main, World.call_alive, InitSignalHandler_trace,
        InitSignalHandler_p_main]

theorem initSignalCalls_quiet (B : Build) :
    created (initSignalCalls B) = [] ∧ destroyed (initSignalCalls B) = [] ∧
      ∀ c ∈ initSignalCalls B, ¬ c.isHelp := by
  unfold initSignalCalls
  cases B.WIN32
  · refine ⟨rfl, rfl, ?_⟩
    intro c hc
    simp at hc
    rcases hc with h | h | h | h | h <;> subst h <;> simp [Call.isHelp]
  · exact ⟨rfl, rfl, by simp⟩

theorem runInterface_seg (B : Build) (o : Outcomes) (w : World) :
    Seg w (runInterface B o w) (if o.intf_created then [Subsystem.intf] else [])
      (if o.intf_created then [Subsystem.intf] else []) := by
  refine ⟨interfaceCalls B o w.p_main.b_channels, (runInterface_state B o w).1, ?_, ?_, ?_⟩
  · unfold interfaceCalls
    cases o.intf_created <;> cases w.p_main.b_channels <;>
      simp only [created_append, (initSignalCalls_quiet B).1, ↓reduceIte, Bool.false_eq_true] <;>
      rfl
  · unfold interfaceCalls
    cases o.intf_created <;> cases w.p_main.b_channels <;>
      simp only [destroyed_append, (initSignalCalls_quiet B).2.1, ↓reduceIte,
        Bool.false_eq_true] <;>
      rfl
  · unfold interfaceCalls
    cases o.intf_created
    · simp only [Bool.false_eq_true, ↓reduceIte]; decide
    · cases w.p_main.b_channels
      · simp only [↓reduceIte, Bool.false_eq_true, List.forall_mem_append]
        exact ⟨⟨⟨by decide, (initSignalCalls_quiet B).2.2⟩, by decide⟩, by decide⟩
      · simp only [↓reduceIte, List.forall_mem_append]
        exact ⟨⟨⟨by decide, (initSignalCalls_quiet B).2.2⟩, by decide⟩, by decide⟩

theorem channelsInit_seg (o : Outcomes) (w : World) :
    Seg w (channelsInit o w)
      (if w.p_main.b_channels ∧ o.channel_created then [Subsystem.channels] else []) [] := by
  unfold channelsInit
  cases hc : w.p_main.b_channels
  · exact ⟨[], by simp, by simp [created], rfl, by simp⟩
  · cases ho : o.channel_created
    · exact ⟨[Call.network_ChannelCreate false, Call.intf_Msg], by simp [World.call], rfl, rfl,
        by simp [Call.isHelp]⟩
    · exact ⟨[Call.network_ChannelCreate true], by simp [World.call], rfl, rfl,
        by simp [Call.isHelp]⟩

theorem banks_seg (w : World) :
    Seg w (((((GetFilenames ((w.call (Call.intf_PlaylistCreate true)).call
      Call.intf_PlaylistInit)).call Call.module_InitBank).call Call.aout_InitBank).call
      Call.vout_InitBank))
      [Subsystem.playlist, Subsystem.module_bank, Subsystem.aout_bank, Subsystem.vout_bank]
      [] := by
  have ht : (((((GetFilenames ((w.call (Call.intf_PlaylistCreate true)).call
      Call.intf_PlaylistInit)).call Call.module_InitBank).call Call.aout_InitBank).call
      Call.vout_InitBank)).trace = w.trace ++ ([Call.intf_PlaylistCreate true,
      Call.intf_PlaylistInit] ++ ((((w.ppsz_argv.take w.i_argc).drop w.optind).map
      Call.intf_PlaylistAdd) ++ [Call.module_InitBank, Call.aout_InitBank,
      Call.vout_InitBank])) := by
    simp only [GetFilenames, World.call, List.append_assoc]
    rfl
  generalize (w.ppsz_argv.take w.i_argc).drop w.optind = names at ht
  refine ⟨_, ht, ?_, ?_, ?_⟩
  · rw [created_append, created_append, created_playlistAdd]; rfl
  · rw [destroyed_append, destroyed_append, destroyed_playlistAdd]; rfl
  · intro c hc
    simp only [List.mem_append, List.mem_map, List.mem_cons, List.mem_singleton,
      List.not_mem_nil, or_false] at hc
    rcases hc with (h | h) | ⟨a, _, h⟩ | h | h | h <;> subst h <;> simp [Call.isHelp]

/-- The calls of `startup`: a failed playlist creation is followed by the destruction of the
message interface alone; otherwise the banks, the channels (when enabled and created) and the
interface (when created) are created, and the interface, the banks, the playlist and the
message interface are destroyed. No call prints the help or version text. -/
theorem startup_seg (B : Build) (o : Outcomes) (w : World) :
    (o.playlist_created = false ∧ (startup B o w).1 = o.errno ∧
        Seg w (startup B o w).2 [] [Subsystem.msg]) ∨
      (o.playlist_created = true ∧ (startup B o w).1 = 0 ∧
        Seg w (startup B o w).2
          ([Subsystem.playlist, Subsystem.module_bank, Subsystem.aout_bank, Subsystem.vout_bank]
            ++ (if w.p_main.b_channels ∧ o.channel_created then [Subsystem.channels] else [])
            ++ (if o.intf_created then [Subsystem.intf] else []))
          ((if o.intf_created then [Subsystem.intf] else []) ++
            [Subsystem.vout_bank, Subsystem.aout_bank, Subsystem.module_bank,
              Subsystem.playlist, Subsystem.msg])) := by
  unfold startup
  cases hp : o.playlist_created
  · left
    refine ⟨rfl, by simp, ?_⟩
    exact ⟨[Call.intf_PlaylistCreate false, Call.intf_ErrMsg, Call.intf_MsgDestroy],
      by simp [World.call], rfl, rfl, by simp [Call.isHelp]⟩
  · right
    refine ⟨rfl, by simp, ?_⟩
    have h1 := banks_seg w
    have h2 := channelsInit_seg o (((((GetFilenames ((w.call (Call.intf_PlaylistCreate true)).call
      Call.intf_PlaylistInit)).call Call.module_InitBank).call Call.aout_InitBank).call
      Call.vout_InitBank))
    have h3 := runInterface_seg B o (channelsInit o (((((GetFilenames ((w.call
      (Call.intf_PlaylistCreate true)).call Call.intf_PlaylistInit)).call
      Call.module_InitBank).call Call.aout_InitBank).call Call.vout_InitBank)))
    have h4 := teardown_seg B (runInterface B o (channelsInit o (((((GetFilenames ((w.call
      (Call.intf_PlaylistCreate true)).call Call.intf_PlaylistInit)).call
      Call.module_InitBank).call Call.aout_InitBank).call Call.vout_InitBank))))
    have h := ((h1.trans h2).trans h3).trans h4
    simpa [GetFilenames, World.call] using h

theorem msgReady_trace (B : Build) (cpu : Cpu) (argv : List CStr) (env : Environ) :
    created (msgReady B cpu argv env).trace = [Subsystem.msg] ∧
      destroyed (msgReady B cpu argv env).trace = [] ∧
      ∀ c ∈ (msgReady B cpu argv env).trace, ¬ c.isHelp := by
  unfold msgReady systemInit initialWorld
  by_cases h : B.SYS_BEOS = true ∨ B.SYS_DARWIN1_3 = true
  · simp [h, World.call, created, destroyed, Call.creates, Call.destroys, Call.isHelp]
  · simp [h, World.call, created, destroyed, Call.creates, Call.destroys, Call.isHelp]

theorem systemInit_trace (B : Build) (cpu : Cpu) (argv : List CStr) (env : Environ) :
    created ((systemInit B (initialWorld B cpu argv env)).call
        (Call.intf_MsgCreate false)).trace = [] ∧
      destroyed ((systemInit B (initialWorld B cpu argv env)).call
        (Call.intf_MsgCreate false)).trace = [] ∧
      ∀ c ∈ ((systemInit B (initialWorld B cpu argv env)).call
        (Call.intf_MsgCreate false)).trace, ¬ c.isHelp := by
  unfold systemInit initialWorld
  by_cases h : B.SYS_BEOS = true ∨ B.SYS_DARWIN1_3 = true
  · simp [h, World.call, created, destroyed, Call.creates, Call.destroys, Call.isHelp]
  · simp [h, World.call, created, destroyed, Call.creates, Call.destroys, Call.isHelp]

/-- The function `GetConfiguration` creates and destroys no subsystem. -/
theorem GetConfiguration_created (B : Build) (w : World) :
    created (GetConfiguration B w).2.trace = created w.trace ∧
      destroyed (GetConfiguration B w).2.trace = destroyed w.trace := by
  obtain ⟨l, hl, ⟨_, h⟩ | ⟨e, he, h⟩⟩ := GetConfiguration_trace B w
  · rw [h]; simp [created_errMsgs hl, destroyed_errMsgs hl]
  · rw [h]
    simp [created_errMsgs hl, destroyed_errMsgs hl, (created_exitPrints he).1,
      (created_exitPrints he).2]

/-- The four ways a run of `main` can go. -/
theorem main_cases (B : Build) (cpu : Cpu) (o : Outcomes) (argv : List CStr) (env : Environ) :
    main B cpu o argv env = (1, initialWorld B cpu argv env) ∨
      (o.msg_created = false ∧ main B cpu o argv env =
        (o.errno, (systemInit B (initialWorld B cpu argv env)).call
          (Call.intf_MsgCreate false))) ∨
      (o.msg_created = true ∧ (GetConfiguration B (msgReady B cpu argv env)).1 ≠ 0 ∧
        main B cpu o argv env =
          (o.errno, (GetConfiguration B (msgReady B cpu argv env)).2.call
            Call.intf_MsgDestroy)) ∨
      (o.msg_created = true ∧ (GetConfiguration B (msgReady B cpu argv env)).1 = 0 ∧
        main B cpu o argv env =
          startup B o (GetConfiguration B (msgReady B cpu argv env)).2) := by
  unfold main
  simp only
  by_cases h1 : B.pentium = true ∧
      ¬ TestCPU (initialWorld B cpu argv env).p_main.i_cpu_capabilities
        B.cpu.CPU_CAPABILITY_586 = true
  · rw [if_pos h1]; exact Or.inl rfl
  · rw [if_neg h1]
    cases h2 : o.msg_created
    · exact Or.inr (Or.inl ⟨rfl, by simp⟩)
    · by_cases h3 : (GetConfiguration B (msgReady B cpu argv env)).1 ≠ 0
      · exact Or.inr (Or.inr (Or.inl ⟨rfl, h3, by simp [h3]⟩))
      · exact Or.inr (Or.inr (Or.inr ⟨rfl, by simpa using h3, by simp [h3]⟩))

/-- C1 (as amended): in every run of `main` the destroy calls are, in order, the reverse of the
successful create calls other than the creation of the channels, which `main` never
destroys; no subsystem is destroyed twice. -/
theorem main_destroys_reverse_of_creates (B : Build) (cpu : Cpu) (o : Outcomes)
    (argv : List CStr) (env : Environ) :
    destroyed (main B cpu o argv env).2.trace =
        ((created (main B cpu o argv env).2.trace).filter
          (fun s => s ≠ Subsystem.channels)).reverse ∧
      (destroyed (main B cpu o argv env).2.trace).Nodup ∧
      (Subsystem.channels ∉ created (main B cpu o argv env).2.trace →
        destroyed (main B cpu o argv env).2.trace =
          (created (main B cpu o argv env).2.trace).reverse) := by
  have hm := msgReady_trace B cpu argv env
  have hg := GetConfiguration_created B (msgReady B cpu argv env)
  rcases main_cases B cpu o argv env with h | ⟨_, h⟩ | ⟨_, _, h⟩ | ⟨_, _, h⟩
  · rw [h]; simp [initialWorld, created, destroyed]
  · have hs := systemInit_trace B cpu argv env
    rw [h]; simp only [hs.1, hs.2.1]; simp
  · rw [h]
    simp only [World.call_trace, created_append, destroyed_append, hg.1, hg.2, hm.1, hm.2.1]
    simp [created, destroyed, Call.creates, Call.destroys]
  · rw [h]
    rcases startup_seg B o (GetConfiguration B (msgReady B cpu argv env)).2 with
      ⟨_, _, t, ht, hc, hd, _⟩ | ⟨_, _, t, ht, hc, hd, _⟩
    · rw [ht]
      simp only [created_append, destroyed_append, hg.1, hg.2, hm.1, hm.2.1, hc, hd]
      simp
    · rw [ht]
      simp only [created_append, destroyed_append, hg.1, hg.2, hm.1, hm.2.1, hc, hd]
      split_ifs <;> simp

theorem main_destroys_reverse_of_creates_witness :
    Subsystem.channels ∉ created (main sampleBuild sampleCpu ⟨true, true, true, false, 0⟩
        (words ["vlc", "a.mpg"]) []).2.trace ∧
      destroyed (main sampleBuild sampleCpu ⟨true, true, true, false, 0⟩
        (words ["vlc", "a.mpg"]) []).2.trace =
        (created (main sampleBuild sampleCpu ⟨true, true, true, false, 0⟩
          (words ["vlc", "a.mpg"]) []).2.trace).reverse :=
  ⟨by decide,
   (main_destroys_reverse_of_creates sampleBuild sampleCpu ⟨true, true, true, false, 0⟩
     (words ["vlc", "a.mpg"]) []).2.2 (by decide)⟩

/-- C1 (counterexample): with `--channels` and every creation succeeding, the channels are
created and never destroyed, so the destroy calls are not the reverse of the create calls. -/
theorem main_channels_never_destroyed :
    destroyed (main sampleBuild sampleCpu ⟨true, true, true, true, 0⟩
        (words ["vlc", "--channels"]) []).2.trace ≠
      (created (main sampleBuild sampleCpu ⟨true, true, true, true, 0⟩
        (words ["vlc", "--channels"]) []).2.trace).reverse := by
  decide

/-- C2 (the code at the failing input): for `vlc --frobnicate`, `GetConfiguration` returns
`EINVAL` and only the message interface is created and destroyed, but the exit status of
`main` is the value of `errno`, whatever it is: 0 when `errno` is 0, not `EINVAL`. -/
theorem main_unknown_option_exit_status (e : Int) :
    (GetConfiguration sampleBuild (msgReady sampleBuild sampleCpu
        (words ["vlc", "--frobnicate"]) [])).1 = sampleBuild.EINVAL ∧
      (main sampleBuild sampleCpu ⟨true, true, true, true, e⟩
        (words ["vlc", "--frobnicate"]) []).1 = e ∧
      (main sampleBuild sampleCpu ⟨true, true, true, true, 0⟩
        (words ["vlc", "--frobnicate"]) []).1 ≠ sampleBuild.EINVAL ∧
      created (main sampleBuild sampleCpu ⟨true, true, true, true, e⟩
        (words ["vlc", "--frobnicate"]) []).2.trace = [Subsystem.msg] ∧
      destroyed (main sampleBuild sampleCpu ⟨true, true, true, true, e⟩
        (words ["vlc", "--frobnicate"]) []).2.trace = [Subsystem.msg] := by
  refine ⟨by decide, rfl, by decide, rfl, rfl⟩

theorem or_and_eq_zero {a b c : Nat} (ha : a &&& c = 0) (hb : b &&& c = 0) :
    (a ||| b) &&& c = 0 := by
  rw [Nat.and_comm, Nat.and_or_distrib_left, Nat.and_comm c a, Nat.and_comm c b, ha, hb]
  rfl

/-- C4: the x86 probe chain of `CPUCapabilities` has the prefix property. When the CPUID test
fails the result is empty; when the CPUID level is 0 it is exactly the 486 flag; when the MMX
bit is clear it is exactly the 486 and 586 flags; when the extended level is below 0x80000001
it holds no 3DNOW flag and holds MMXEXT only with the SSE bit, never from the AMD bits. In
each case no flag of a later probe is in the result. -/
theorem CPUCapabilities_i386_probe_chain (F : CpuFlags) (cpu : Cpu) (hF : F.Distinct) :
    (cpu.flags_eax = cpu.flags_ebx → CPUCapabilities_i386 F cpu = 0) ∧
      (cpu.flags_eax ≠ cpu.flags_ebx → (cpu.cpuid 0).i_eax = 0 →
        CPUCapabilities_i386 F cpu = F.CPU_CAPABILITY_486 ∧
          CPUCapabilities_i386 F cpu &&& F.CPU_CAPABILITY_586 = 0 ∧
          CPUCapabilities_i386 F cpu &&& F.CPU_CAPABILITY_MMX = 0 ∧
          CPUCapabilities_i386 F cpu &&& F.CPU_CAPABILITY_MMXEXT = 0 ∧
          CPUCapabilities_i386 F cpu &&& F.CPU_CAPABILITY_SSE = 0 ∧
          CPUCapabilities_i386 F cpu &&& F.CPU_CAPABILITY_3DNOW = 0) ∧
      (cpu.flags_eax ≠ cpu.flags_ebx → (cpu.cpuid 0).i_eax ≠ 0 →
        (cpu.cpuid 1).i_edx &&& 0x00800000 = 0 →
        CPUCapabilities_i386 F cpu = F.CPU_CAPABILITY_486 ||| F.CPU_CAPABILITY_586 ∧
          CPUCapabilities_i386 F cpu &&& F.CPU_CAPABILITY_MMX = 0 ∧
          CPUCapabilities_i386 F cpu &&& F.CPU_CAPABILITY_MMXEXT = 0 ∧
          CPUCapabilities_i386 F cpu &&& F.CPU_CAPABILITY_SSE = 0 ∧
          CPUCapabilities_i386 F cpu &&& F.CPU_CAPABILITY_3DNOW = 0) ∧
      (cpu.flags_eax ≠ cpu.flags_ebx → (cpu.cpuid 0).i_eax ≠ 0 →
        (cpu.cpuid 1).i_edx &&& 0x00800000 ≠ 0 →
        (cpu.cpuid 0x80000000).i_eax < 0x80000001 →
        CPUCapabilities_i386 F cpu =
            (if (cpu.cpuid 1).i_edx &&& 0x02000000 ≠ 0 then
              F.CPU_CAPABILITY_486 ||| F.CPU_CAPABILITY_586 ||| F.CPU_CAPABILITY_MMX |||
                F.CPU_CAPABILITY_MMXEXT ||| F.CPU_CAPABILITY_SSE
            else F.CPU_CAPABILITY_486 ||| F.CPU_CAPABILITY_586 ||| F.CPU_CAPABILITY_MMX) ∧
          CPUCapabilities_i386 F cpu &&& F.CPU_CAPABILITY_3DNOW = 0 ∧
          ((cpu.cpuid 1).i_edx &&& 0x02000000 = 0 →
            CPUCapabilities_i386 F cpu &&& F.CPU_CAPABILITY_MMXEXT = 0)) := by
  simp only [CpuFlags.Distinct, List.pairwise_cons, List.mem_cons, List.mem_singleton,
    forall_eq_or_imp, forall_eq, List.not_mem_nil, List.Pairwise.nil] at hF
  obtain ⟨⟨h12, h13, h14, h15, h16, -⟩, ⟨h23, h24, h25, h26, -⟩, ⟨h34, h35, h36, -⟩,
    ⟨h45, h46, -⟩, ⟨h56, -⟩, -⟩ := hF
  refine ⟨?_, ?_, ?_, ?_⟩
  · intro h; simp [CPUCapabilities_i386, h, CPU_CAPABILITY_NONE]
  · intro h1 h2
    have hr : CPUCapabilities_i386 F cpu = F.CPU_CAPABILITY_486 := by
      simp [CPUCapabilities_i386, h1, h2, CPU_CAPABILITY_NONE]
    rw [hr]; exact ⟨rfl, h12, h13, h15, h16, h14⟩
  · intro h1 h2 h3
    have hr : CPUCapabilities_i386 F cpu =
        F.CPU_CAPABILITY_486 ||| F.CPU_CAPABILITY_586 := by
      simp [CPUCapabilities_i386, h1, h2, h3, CPU_CAPABILITY_NONE]
    rw [hr]
    exact ⟨rfl, or_and_eq_zero h13 h23, or_and_eq_zero h15 h25, or_and_eq_zero h16 h26,
      or_and_eq_zero h14 h24⟩
  · intro h1 h2 h3 h4
    have hr : CPUCapabilities_i386 F cpu =
        (if (cpu.cpuid 1).i_edx &&& 0x02000000 ≠ 0 then
          F.CPU_CAPABILITY_486 ||| F.CPU_CAPABILITY_586 ||| F.CPU_CAPABILITY_MMX |||
            F.CPU_CAPABILITY_MMXEXT ||| F.CPU_CAPABILITY_SSE
        else F.CPU_CAPABILITY_486 ||| F.CPU_CAPABILITY_586 ||| F.CPU_CAPABILITY_MMX) := by
      simp [CPUCapabilities_i386, h1, h2, h3, h4, CPU_CAPABILITY_NONE]
    have h54 : F.CPU_CAPABILITY_MMXEXT &&& F.CPU_CAPABILITY_3DNOW = 0 := by
      rw [Nat.and_comm]; exact h45
    have h64 : F.CPU_CAPABILITY_SSE &&& F.CPU_CAPABILITY_3DNOW = 0 := by
      rw [Nat.and_comm]; exact h46
    rw [hr]
    refine ⟨rfl, ?_, ?_⟩
    · split_ifs
      · exact or_and_eq_zero (or_and_eq_zero (or_and_eq_zero (or_and_eq_zero h14 h24) h34) h54)
          h64
      · exact or_and_eq_zero (or_and_eq_zero h14 h24) h34
    · intro h5
      rw [if_neg (by simp [h5])]
      exact or_and_eq_zero (or_and_eq_zero h15 h25) h35

theorem CPUCapabilities_i386_probe_chain_witness :
    sampleFlags.Distinct ∧
      CPUCapabilities_i386 sampleFlags
        { flags_eax := 0x200000, flags_ebx := 0, host_info_ok := false, psz_name := [],
          cpuid := fun a => if a = 0 then ⟨1, 0, 0, 0⟩ else ⟨0, 0, 0, 0x02000000⟩ } = 3 :=
  ⟨by decide,
   ((CPUCapabilities_i386_probe_chain sampleFlags
      { flags_eax := 0x200000, flags_ebx := 0, host_info_ok := false, psz_name := [],
        cpuid := fun a => if a = 0 then ⟨1, 0, 0, 0⟩ else ⟨0, 0, 0, 0x02000000⟩ }
      (by decide)).2.2.1 (by decide) (by decide) (by decide)).1⟩

/-- The function `GetConfiguration` on an argument vector whose scan returns one option that stores its
value: it returns 0 and the environment is changed by the one write of that option. -/
theorem GetConfiguration_one (B : Build) (w : World) (args : List CStr) (argv0 : CStr)
    (c : Int) (v : CStr) (f : Environ → Environ)
    (hpsn : ¬ (B.SYS_DARWIN1_3 = true ∧ (argv0 :: args).length > 1 ∧
      ((argv0 :: args).getD 1 []).take 4 = "-psn".toList))
    (hscan : ∀ px, (getoptScan px none args).returns = [(c, some v)])
    (hcase : ∀ w2 : World, optionCase B c v w2 = (none, { w2 with environ := f w2.environ })) :
    (GetConfiguration B (w.withArgs (argv0 :: args))).1 = 0 ∧
      (GetConfiguration B (w.withArgs (argv0 :: args))).2.environ = f w.environ ∧
      (GetConfiguration B (w.withArgs (argv0 :: args))).2.p_main.i_warning_level = 0 := by
  unfold GetConfiguration
  simp only [World.withArgs]
  rw [if_neg hpsn]
  have ht : (List.take (argv0 :: args).length (argv0 :: args)).drop 1 = args := by simp
  simp only [ht, hscan, optionLoop, Option.getD_some, hcase]
  simp [World.setWarning]

/-- C7: each direct-store option writes its value unchanged under its key, whatever the
value, and parsing returns success: the environment is changed by exactly the write
`main_PutPszVariable (KEY, v)`, so the key reads back as `v`; `--width 800 --height 600`
leaves the width entry at `800` and the height entry at `600`. -/
theorem GetConfiguration_direct_store (B : Build) (w : World) (argv0 v d : CStr)
    (hkeys : ∀ p ∈ directStore B.vars, ValidKey p.2)
    (hwh : B.vars.VOUT_WIDTH_VAR ≠ B.vars.VOUT_HEIGHT_VAR) :
    (∀ p ∈ directStore B.vars,
        (GetConfiguration B (w.withArgs [argv0, p.1, v])).1 = 0 ∧
        (GetConfiguration B (w.withArgs [argv0, p.1, v])).2.environ =
          main_PutPszVariable w.environ p.2 v ∧
        main_GetPszVariable (GetConfiguration B (w.withArgs [argv0, p.1, v])).2.environ p.2 d
          = v) ∧
      (GetConfiguration B (w.withArgs (argv0 :: words ["--width", "800", "--height", "600"]))).1
        = 0 ∧
      main_GetPszVariable (GetConfiguration B (w.withArgs
        (argv0 :: words ["--width", "800", "--height", "600"]))).2.environ
        B.vars.VOUT_WIDTH_VAR d = "800".toList ∧
      main_GetPszVariable (GetConfiguration B (w.withArgs
        (argv0 :: words ["--width", "800", "--height", "600"]))).2.environ
        B.vars.VOUT_HEIGHT_VAR d = "600".toList := by
  have hread : ∀ (e : Environ) (k : CStr), ValidKey k →
      main_GetPszVariable (main_PutPszVariable e k v) k d = v := by
    intro e k hk; simp [main_GetPszVariable, getenv_put_same e v hk]
  have key : ∀ (opt k : CStr) (c : Int), ValidKey k → opt.take 4 ≠ "-psn".toList →
      (∀ px, (getoptScan px none [opt, v]).returns = [(c, some v)]) →
      (∀ w2 : World, optionCase B c v w2 =
        (none, { w2 with environ := main_PutPszVariable w2.environ k v })) →
      (GetConfiguration B (w.withArgs [argv0, opt, v])).1 = 0 ∧
        (GetConfiguration B (w.withArgs [argv0, opt, v])).2.environ =
          main_PutPszVariable w.environ k v ∧
        main_GetPszVariable (GetConfiguration B (w.withArgs [argv0, opt, v])).2.environ k d
          = v := by
    intro opt k c hk hopt hscan hcase
    have h := GetConfiguration_one B w [opt, v] argv0 c v
      (fun e => main_PutPszVariable e k v) (fun h => hopt h.2.2) hscan hcase
    exact ⟨h.1, h.2.1, by rw [h.2.1]; exact hread _ _ hk⟩
  refine ⟨?_, ?_⟩
  · intro p hp
    have hk := hkeys p hp
    simp only [directStore, List.mem_cons, List.mem_singleton, List.not_mem_nil, or_false] at hp
    rcases hp with h | h | h | h | h | h | h | h | h | h | h | h | h | h | h | h | h <;>
      subst h <;>
      exact key _ _ _ hk (by simp) (fun _ => rfl) (fun _ => rfl)
  · have hw : ValidKey B.vars.VOUT_WIDTH_VAR :=
      hkeys ("--width".toList, B.vars.VOUT_WIDTH_VAR) (by simp [directStore])
    have hh : ValidKey B.vars.VOUT_HEIGHT_VAR :=
      hkeys ("--height".toList, B.vars.VOUT_HEIGHT_VAR) (by simp [directStore])
    have hr : GetConfiguration B (w.withArgs
        (argv0 :: words ["--width", "800", "--height", "600"])) =
        (0, (GetConfiguration B (w.withArgs
          (argv0 :: words ["--width", "800", "--height", "600"]))).2) ∧
        (GetConfiguration B (w.withArgs
          (argv0 :: words ["--width", "800", "--height", "600"]))).2.environ =
        main_PutPszVariable (main_PutPszVariable w.environ B.vars.VOUT_WIDTH_VAR "800".toList)
          B.vars.VOUT_HEIGHT_VAR "600".toList := by
      unfold GetConfiguration
      simp only [World.withArgs]
      rw [if_neg (by simp [words])]
      have ht : (List.take (argv0 :: words ["--width", "800", "--height", "600"]).length
          (argv0 :: words ["--width", "800", "--height", "600"])).drop 1 =
          words ["--width", "800", "--height", "600"] := by simp
      have hs : ∀ px, (getoptScan px none (words ["--width", "800", "--height", "600"])).returns
          = [(OPT_WIDTH, some "800".toList), (OPT_HEIGHT, some "600".toList)] := fun _ => rfl
      have hc1 : ∀ (w2 : World) (x : CStr), optionCase B OPT_WIDTH x w2 =
          (none, w2.putPsz B.vars.VOUT_WIDTH_VAR x) := fun _ _ => rfl
      have hc2 : ∀ (w2 : World) (x : CStr), optionCase B OPT_HEIGHT x w2 =
          (none, w2.putPsz B.vars.VOUT_HEIGHT_VAR x) := fun _ _ => rfl
      simp only [ht, hs, optionLoop, Option.getD_some, hc1, hc2]
      simp [World.setWarning, World.putPsz]
    refine ⟨by rw [hr.1], ?_, ?_⟩
    · rw [hr.2]
      simp [main_GetPszVariable, getenv_put_other _ _ hh hw (Ne.symm hwh),
        getenv_put_same _ _ hw]
    · rw [hr.2]
      simp [main_GetPszVariable, getenv_put_same _ _ hh]

theorem GetConfiguration_direct_store_witness :
    (∀ p ∈ directStore sampleBuild.vars, ValidKey p.2) ∧
      sampleBuild.vars.VOUT_WIDTH_VAR ≠ sampleBuild.vars.VOUT_HEIGHT_VAR ∧
      main_GetPszVariable (GetConfiguration sampleBuild
        ((initialWorld sampleBuild sampleCpu [] []).withArgs
          ("vlc".toList :: words ["--width", "800", "--height", "600"]))).2.environ
        sampleBuild.vars.VOUT_WIDTH_VAR [] = "800".toList :=
  ⟨by decide, by decide,
   (GetConfiguration_direct_store sampleBuild (initialWorld sampleBuild sampleCpu [] [])
     "vlc".toList "x".toList [] (by decide) (by decide)).2.2.1⟩

theorem optionCase_dvdaudio (B : Build) (v : CStr) (w2 : World) :
    optionCase B (chr 'a') v w2 =
      (none, { w2 with environ :=
        main_PutIntVariable w2.environ B.vars.INPUT_AUDIO_VAR (audioCode B v) }) := by
  have h : optionCase B (chr 'a') v w2 =
      (if v = "ac3".toList then (none, w2.putInt B.vars.INPUT_AUDIO_VAR B.REQUESTED_AC3)
      else if v = "lpcm".toList then (none, w2.putInt B.vars.INPUT_AUDIO_VAR B.REQUESTED_LPCM)
      else if v = "mpeg".toList then (none, w2.putInt B.vars.INPUT_AUDIO_VAR B.REQUESTED_MPEG)
      else (none, w2.putInt B.vars.INPUT_AUDIO_VAR B.REQUESTED_NOAUDIO)) := rfl
  rw [h]
  unfold audioCode
  split_ifs <;> rfl

/-- C8: for every value of `-a`/`--dvdaudio` parsing succeeds and writes, under the audio
type key, the decimal text of the AC3 code for `ac3`, of the LPCM code for `lpcm`, of the MPEG
code for `mpeg`, and of the "no audio" code for every other value (`dvorak`, `AC3`, the empty
string). -/
theorem GetConfiguration_dvdaudio (B : Build) (w : World) (argv0 v d : CStr)
    (hk : ValidKey B.vars.INPUT_AUDIO_VAR) :
    (∀ opt ∈ ["-a".toList, "--dvdaudio".toList],
        (GetConfiguration B (w.withArgs [argv0, opt, v])).1 = 0 ∧
        (GetConfiguration B (w.withArgs [argv0, opt, v])).2.environ =
          main_PutIntVariable w.environ B.vars.INPUT_AUDIO_VAR (audioCode B v) ∧
        main_GetPszVariable (GetConfiguration B (w.withArgs [argv0, opt, v])).2.environ
          B.vars.INPUT_AUDIO_VAR d = sprintf_d (audioCode B v)) ∧
      (v = "ac3".toList → audioCode B v = B.REQUESTED_AC3) ∧
      (v = "lpcm".toList → audioCode B v = B.REQUESTED_LPCM) ∧
      (v = "mpeg".toList → audioCode B v = B.REQUESTED_MPEG) ∧
      (v ≠ "ac3".toList → v ≠ "lpcm".toList → v ≠ "mpeg".toList →
        audioCode B v = B.REQUESTED_NOAUDIO) ∧
      audioCode B "dvorak".toList = B.REQUESTED_NOAUDIO ∧
      audioCode B "AC3".toList = B.REQUESTED_NOAUDIO ∧
      audioCode B [] = B.REQUESTED_NOAUDIO := by
  refine ⟨?_, ?_, ?_, ?_, ?_, rfl, rfl, rfl⟩
  · intro opt hopt
    have key : opt.take 4 ≠ "-psn".toList →
        (∀ px, (getoptScan px none [opt, v]).returns = [(chr 'a', some v)]) →
        (GetConfiguration B (w.withArgs [argv0, opt, v])).1 = 0 ∧
        (GetConfiguration B (w.withArgs [argv0, opt, v])).2.environ =
          main_PutIntVariable w.environ B.vars.INPUT_AUDIO_VAR (audioCode B v) ∧
        main_GetPszVariable (GetConfiguration B (w.withArgs [argv0, opt, v])).2.environ
          B.vars.INPUT_AUDIO_VAR d = sprintf_d (audioCode B v) := by
      intro h4 hscan
      have h := GetConfiguration_one B w [opt, v] argv0 (chr 'a') v
        (fun e => main_PutIntVariable e B.vars.INPUT_AUDIO_VAR (audioCode B v))
        (fun h => h4 h.2.2) hscan (optionCase_dvdaudio B v)
      refine ⟨h.1, h.2.1, ?_⟩
      rw [h.2.1]
      simp [main_GetPszVariable, main_PutIntVariable, getenv_put_same _ _ hk]
    simp only [List.mem_cons, List.mem_singleton, List.not_mem_nil, or_false] at hopt
    rcases hopt with h | h <;> subst h <;> exact key (by simp) (fun _ => rfl)
  · intro h; subst h; rfl
  · intro h; subst h; rfl
  · intro h; subst h; rfl
  · intro h1 h2 h3; unfold audioCode; rw [if_neg h1, if_neg h2, if_neg h3]

theorem GetConfiguration_dvdaudio_witness :
    ValidKey sampleBuild.vars.INPUT_AUDIO_VAR ∧
      main_GetPszVariable (GetConfiguration sampleBuild
        ((initialWorld sampleBuild sampleCpu [] []).withArgs
          (words ["vlc", "-a", "dvorak"]))).2.environ sampleBuild.vars.INPUT_AUDIO_VAR [] =
        "255".toList :=
  ⟨by decide,
   ((GetConfiguration_dvdaudio sampleBuild (initialWorld sampleBuild sampleCpu [] [])
     "vlc".toList "dvorak".toList [] (by decide)).1 "-a".toList (by decide)).2.2⟩

theorem getoptScan_verbose (px : Bool) (n : Nat) :
    (getoptScan px none (List.replicate n "-v".toList)).returns =
      List.replicate n (chr 'v', none) := by
  induction n with
  | zero => rfl
  | succ n ih =>
    have h : (getoptScan px none ("-v".toList :: List.replicate n "-v".toList)).returns =
        (chr 'v', none) :: (getoptScan px none (List.replicate n "-v".toList)).returns := rfl
    rw [List.replicate_succ, h, ih, List.replicate_succ]

theorem optionLoop_verbose (B : Build) (n : Nat) (w : World)
    (h0 : 0 ≤ w.p_main.i_warning_level)
    (hn : w.p_main.i_warning_level + n < 2147483648) :
    (optionLoop B (List.replicate n (chr 'v', none)) w).1 = none ∧
      (optionLoop B (List.replicate n (chr 'v', none)) w).2.p_main.i_warning_level =
        w.p_main.i_warning_level + n ∧
      (optionLoop B (List.replicate n (chr 'v', none)) w).2.environ = w.environ := by
  induction n generalizing w with
  | zero => simp [optionLoop]
  | succ n ih =>
    have hc : optionCase B (chr 'v') [] w =
        (none, w.setWarning (toInt32 (w.p_main.i_warning_level + 1))) := rfl
    have hs : optionLoop B (List.replicate (n + 1) (chr 'v', none)) w =
        optionLoop B (List.replicate n (chr 'v', none))
          (w.setWarning (toInt32 (w.p_main.i_warning_level + 1))) := by
      rw [List.replicate_succ]
      simp only [optionLoop, Option.getD_none, hc]
    have ht : toInt32 (w.p_main.i_warning_level + 1) = w.p_main.i_warning_level + 1 :=
      toInt32_of_range (by omega) (by push_cast at hn; omega)
    have hl : (w.setWarning (toInt32 (w.p_main.i_warning_level + 1))).p_main.i_warning_level =
        w.p_main.i_warning_level + 1 := ht
    have := ih (w.setWarning (toInt32 (w.p_main.i_warning_level + 1)))
      (by rw [hl]; omega) (by rw [hl]; push_cast at hn; omega)
    rw [hs]
    refine ⟨this.1, ?_, ?_⟩
    · rw [this.2.1, hl]; push_cast; ring
    · rw [this.2.2]; rfl

/-- C9 (the code at the failing input): `n` flags `-v` parse successfully and give warning
level `n`, but the long form `--verbose` is not in the table `longopts`: `GetConfiguration`
takes it for an unknown option and returns `EINVAL`, the warning level staying 0. -/
theorem GetConfiguration_verbose (B : Build) (w : World) (argv0 : CStr) :
    (∀ n : Nat, n < 2147483648 →
        (GetConfiguration B (w.withArgs (argv0 :: List.replicate n "-v".toList))).1 = 0 ∧
        (GetConfiguration B (w.withArgs (argv0 :: List.replicate n
          "-v".toList))).2.p_main.i_warning_level = n) ∧
      (GetConfiguration B (w.withArgs [argv0, "--verbose".toList])).1 = B.EINVAL ∧
      (GetConfiguration B (w.withArgs
        [argv0, "--verbose".toList])).2.p_main.i_warning_level = 0 := by
  refine ⟨?_, ?_, ?_⟩
  · intro n hn
    have hpsn : ¬ (B.SYS_DARWIN1_3 = true ∧
        (argv0 :: List.replicate n "-v".toList).length > 1 ∧
        ((argv0 :: List.replicate n "-v".toList).getD 1 []).take 4 = "-psn".toList) := by
      intro h
      cases n with
      | zero => simp at h
      | succ m =>
        have h3 : ("-v".toList).take 4 = "-psn".toList := h.2.2
        exact absurd h3 (by decide)
    have ht : (List.take (argv0 :: List.replicate n "-v".toList).length
        (argv0 :: List.replicate n "-v".toList)).drop 1 = List.replicate n "-v".toList := by
      simp
    unfold GetConfiguration
    simp only [World.withArgs]
    rw [if_neg hpsn]
    simp only [ht, getoptScan_verbose]
    generalize hw1 : ({ w with ppsz_argv := _, i_argc := _, p_main := _ } : World) = w1
    have hl1 : w1.p_main.i_warning_level = 0 := by rw [← hw1]
    have hv := optionLoop_verbose B n w1 (by rw [hl1]) (by rw [hl1]; omega)
    generalize hx : optionLoop B (List.replicate n (chr 'v', none)) w1 = x at hv
    obtain ⟨x1, x2⟩ := x
    obtain ⟨hv1, hv2, -⟩ := hv
    simp only at hv1 hv2
    subst hv1
    simp only
    rw [hl1] at hv2
    have hnn : ¬ ((x2.p_main.i_warning_level : Int) < 0) := by rw [hv2]; omega
    rw [if_neg hnn]
    exact ⟨rfl, by simpa using hv2⟩
  · unfold GetConfiguration
    simp only [World.withArgs]
    have hp : ¬ (("--verbose".toList).take 4 = "-psn".toList) := by decide
    rw [if_neg (fun h => hp h.2.2)]
    rfl
  · unfold GetConfiguration
    simp only [World.withArgs]
    have hp : ¬ (("--verbose".toList).take 4 = "-psn".toList) := by decide
    rw [if_neg (fun h => hp h.2.2)]
    rfl

theorem GetConfiguration_verbose_witness :
    (3 : Nat) < 2147483648 ∧
      (GetConfiguration sampleBuild ((initialWorld sampleBuild sampleCpu [] []).withArgs
        ("vlc".toList :: List.replicate 3 "-v".toList))).2.p_main.i_warning_level = (3 : Nat) ∧
      (GetConfiguration sampleBuild ((initialWorld sampleBuild sampleCpu [] []).withArgs
        [ "vlc".toList, "--verbose".toList])).1 = 22 :=
  ⟨by decide,
   ((GetConfiguration_verbose sampleBuild (initialWorld sampleBuild sampleCpu [] [])
     "vlc".toList).1 3 (by decide)).2,
   (GetConfiguration_verbose sampleBuild (initialWorld sampleBuild sampleCpu [] [])
     "vlc".toList).2.1⟩

theorem optionLoop_return {B : Build} {evs : List (Int × Option CStr)} {w : World} {r : Int}
    (h : (optionLoop B evs w).1 = some r) : r = -1 ∨ r = B.EINVAL := by
  obtain ⟨l, _, ⟨h1, _⟩ | ⟨r2, e, h1, h2, _⟩⟩ := optionLoop_trace B evs w
  · rw [h1] at h; cases h
  · rw [h1] at h
    cases h
    rcases h2 with ⟨h2, _⟩ | ⟨h2, _⟩
    · exact Or.inl h2
    · exact Or.inr h2

/-- C10 (as amended): whenever `GetConfiguration` returns 0 the warning level it leaves in the
root context is not negative, also when `--warning` was given a negative value; when a case
of the option loop returns (help, version, unknown option) the level is left as
accumulated. -/
theorem GetConfiguration_warning_level (B : Build) (w : World) (hE : B.EINVAL ≠ 0)
    (h0 : (GetConfiguration B w).1 = 0) :
    0 ≤ (GetConfiguration B w).2.p_main.i_warning_level := by
  unfold GetConfiguration at h0 ⊢
  simp only at h0 ⊢
  split_ifs with hd
  · simp
  · rw [if_neg hd] at h0
    generalize hw1 : ({ w with p_main := _ } : World) = w1 at h0 ⊢
    generalize hs : getoptScan _ none _ = scan at h0 ⊢
    have hr := @optionLoop_return B scan.returns w1
    generalize hx : optionLoop B scan.returns w1 = x at h0 hr ⊢
    obtain ⟨x1, x2⟩ := x
    cases x1 with
    | some r =>
      simp only at h0
      rcases hr rfl with h | h
      · rw [h] at h0; cases h0
      · rw [h] at h0; exact absurd h0 hE
    | none =>
      simp only
      split_ifs with hneg
      · simp [World.setWarning]
      · simpa using hneg

theorem GetConfiguration_warning_level_witness :
    sampleBuild.EINVAL ≠ 0 ∧
      (GetConfiguration sampleBuild ((initialWorld sampleBuild sampleCpu [] []).withArgs
        (words ["vlc", "--warning", "-5"]))).1 = 0 ∧
      0 ≤ (GetConfiguration sampleBuild ((initialWorld sampleBuild sampleCpu [] []).withArgs
        (words ["vlc", "--warning", "-5"]))).2.p_main.i_warning_level :=
  ⟨by decide, by decide,
   GetConfiguration_warning_level sampleBuild ((initialWorld sampleBuild sampleCpu [] []).withArgs
     (words ["vlc", "--warning", "-5"])) (by decide) (by decide)⟩

/-- C10 (counterexample): `vlc --warning -5 -h` sets the warning level to -5 and returns from
the `-h` case, before the clamp: the level is negative when `GetConfiguration` returns. -/
theorem GetConfiguration_warning_level_negative :
    (GetConfiguration sampleBuild ((initialWorld sampleBuild sampleCpu [] []).withArgs
        (words ["vlc", "--warning", "-5", "-h"]))).1 = -1 ∧
      (GetConfiguration sampleBuild ((initialWorld sampleBuild sampleCpu [] []).withArgs
        (words ["vlc", "--warning", "-5", "-h"]))).2.p_main.i_warning_level = -5 := by
  decide

/-- C20: in the Darwin branch of `CPUCapabilities` the result is the ALTIVEC flag whenever
`host_info` succeeds, whatever the CPU name, because every string differs from `ppc7400` or
from `ppc7450`; the result is empty when `host_info` fails. -/
theorem CPUCapabilities_darwin_altivec (F : CpuFlags) (cpu : Cpu) :
    (cpu.host_info_ok = true →
        CPUCapabilities_darwin F cpu = F.CPU_CAPABILITY_ALTIVEC ∧
        CPUCapabilities_darwin F cpu &&& F.CPU_CAPABILITY_ALTIVEC = F.CPU_CAPABILITY_ALTIVEC) ∧
      (cpu.host_info_ok = false → CPUCapabilities_darwin F cpu = 0) ∧
      (∀ name : CStr, name ≠ "ppc7400".toList ∨ name ≠ "ppc7450".toList) ∧
      (∀ cpu2 : Cpu, cpu2.host_info_ok = cpu.host_info_ok →
        CPUCapabilities_darwin F cpu2 = CPUCapabilities_darwin F cpu) ∧
      (∀ B : Build, B.SYS_BEOS = false → B.SYS_DARWIN1_3 = true →
        CPUCapabilities B cpu = CPUCapabilities_darwin B.cpu cpu) := by
  have hname : ∀ name : CStr, name ≠ "ppc7400".toList ∨ name ≠ "ppc7450".toList := by
    intro name
    by_cases h : name = "ppc7400".toList
    · right; rw [h]; decide
    · left; exact h
  have hval : ∀ c : Cpu, CPUCapabilities_darwin F c =
      if c.host_info_ok then F.CPU_CAPABILITY_ALTIVEC else 0 := by
    intro c
    unfold CPUCapabilities_darwin
    cases c.host_info_ok
    · simp [CPU_CAPABILITY_NONE]
    · simp only [Bool.not_eq_true, Bool.true_eq_false, ↓reduceIte]
      rw [if_pos (hname c.psz_name)]
      simp [CPU_CAPABILITY_NONE]
  refine ⟨?_, ?_, hname, ?_, ?_⟩
  · intro h; rw [hval, h]; simp
  · intro h; rw [hval, h]; simp
  · intro cpu2 h; rw [hval, hval, h]
  · intro B h1 h2; simp [CPUCapabilities, h1, h2]

theorem CPUCapabilities_darwin_altivec_witness :
    CPUCapabilities sampleDarwin sampleCpu = 65536 ∧
      CPUCapabilities_darwin sampleFlags { sampleCpu with psz_name := "ppc750".toList } = 65536 :=
  ⟨((CPUCapabilities_darwin_altivec sampleFlags sampleCpu).2.2.2.2 sampleDarwin
      (by decide) (by decide)).trans (by decide),
   ((CPUCapabilities_darwin_altivec sampleFlags
      { sampleCpu with psz_name := "ppc750".toList }).1 (by decide)).1⟩

/-- The executable name loop: either the scanned string has no `/` and the name is left as it
was, or the name is what follows the last `/` of the scanned string. -/
theorem arg0Loop_cases (cur p : CStr) :
    ('/' ∉ p ∧ arg0Loop cur p = cur) ∨
      (∃ q, p = q ++ '/' :: arg0Loop cur p ∧ '/' ∉ arg0Loop cur p) := by
  induction p generalizing cur with
  | nil => left; exact ⟨by simp, rfl⟩
  | cons c p ih =>
    by_cases hc : c = '/'
    · subst hc
      have hs : arg0Loop cur ('/' :: p) = arg0Loop p p := by simp [arg0Loop]
      rw [hs]
      right
      rcases ih p with ⟨h1, h2⟩ | ⟨q, h1, h2⟩
      · exact ⟨[], by rw [h2]; rfl, by rw [h2]; exact h1⟩
      · refine ⟨'/' :: q, ?_, h2⟩
        rw [List.cons_append, ← h1]
    · have hs : arg0Loop cur (c :: p) = arg0Loop cur p := by simp [arg0Loop, hc]
      rw [hs]
      rcases ih cur with ⟨h1, h2⟩ | ⟨q, h1, h2⟩
      · left
        refine ⟨?_, h2⟩
        intro hm
        rcases List.mem_cons.mp hm with h | h
        · exact hc h.symm
        · exact h1 h
      · right
        refine ⟨c :: q, ?_, h2⟩
        rw [List.cons_append, ← h1]

theorem optionCase_keeps (B : Build) (i_cmd : Int) (optarg : CStr) (w : World) :
    CaseKeeps w (optionCase B i_cmd optarg w) := by
  unfold optionCase
  repeat' apply ite_cases (CaseKeeps w)
  all_goals exact ⟨rfl, rfl⟩

theorem optionLoop_keeps (B : Build) (evs : List (Int × Option CStr)) (w : World) :
    (optionLoop B evs w).2.i_argc = w.i_argc ∧
      (optionLoop B evs w).2.p_main.psz_arg0 = w.p_main.psz_arg0 := by
  induction evs generalizing w with
  | nil => exact ⟨rfl, rfl⟩
  | cons ev evs ih =>
    obtain ⟨i_cmd, optarg⟩ := ev
    have hk := optionCase_keeps B i_cmd (optarg.getD []) w
    unfold optionLoop
    generalize optionCase B i_cmd (optarg.getD []) w = x at hk
    obtain ⟨x1, x2⟩ := x
    cases x1 with
    | some r => exact hk
    | none =>
      have := ih x2
      exact ⟨this.1.trans hk.1, this.2.trans hk.2⟩

/-- The executable name `GetConfiguration` leaves in the root context, on every path. -/
theorem GetConfiguration_arg0 (B : Build) (w : World) :
    (GetConfiguration B w).2.p_main.psz_arg0 =
      arg0Loop (w.ppsz_argv.headD []) (w.ppsz_argv.headD []) := by
  unfold GetConfiguration
  simp only
  split_ifs with hd
  · rfl
  · generalize hw1 : ({ w with p_main := _ } : World) = w1
    have h1 : w1.p_main.psz_arg0 = arg0Loop (w.ppsz_argv.headD []) (w.ppsz_argv.headD []) := by
      rw [← hw1]
    generalize getoptScan _ none _ = scan
    have hk := (optionLoop_keeps B scan.returns w1).2
    generalize optionLoop B scan.returns w1 = x at hk
    obtain ⟨x1, x2⟩ := x
    cases x1 with
    | some r => exact hk.trans h1
    | none =>
      simp only
      split_ifs
      · exact hk.trans h1
      · exact hk.trans h1

/-- C17: the executable name computed by `GetConfiguration` is the basename of `argv[0]`: the
part of `argv[0]` after its last `/`, free of `/`; it is `argv[0]` itself when `argv[0]` has no
`/` and the empty string when `argv[0]` ends with `/`. -/
theorem GetConfiguration_basename (B : Build) (w : World) (argv0 : CStr) (args : List CStr) :
    (∃ q, argv0 = q ++ (GetConfiguration B (w.withArgs (argv0 :: args))).2.p_main.psz_arg0 ∧
        (q = [] ∨ ∃ d, q = d ++ ['/'])) ∧
      '/' ∉ (GetConfiguration B (w.withArgs (argv0 :: args))).2.p_main.psz_arg0 ∧
      ('/' ∉ argv0 →
        (GetConfiguration B (w.withArgs (argv0 :: args))).2.p_main.psz_arg0 = argv0) ∧
      (∀ d, argv0 = d ++ ['/'] →
        (GetConfiguration B (w.withArgs (argv0 :: args))).2.p_main.psz_arg0 = []) := by
  have hg : (GetConfiguration B (w.withArgs (argv0 :: args))).2.p_main.psz_arg0 =
      arg0Loop argv0 argv0 := GetConfiguration_arg0 B (w.withArgs (argv0 :: args))
  rw [hg]
  rcases arg0Loop_cases argv0 argv0 with ⟨h1, h2⟩ | ⟨q, h1, h2⟩
  · rw [h2]
    refine ⟨⟨[], rfl, Or.inl rfl⟩, h1, fun _ => rfl, ?_⟩
    intro d hd
    exact absurd (by rw [hd]; simp) h1
  · refine ⟨⟨q ++ ['/'], by rw [List.append_assoc]; exact h1, Or.inr ⟨q, rfl⟩⟩, h2, ?_, ?_⟩
    · intro hn
      exact absurd (by rw [h1]; simp) hn
    · intro d hd
      generalize arg0Loop argv0 argv0 = r at h1 h2
      rw [hd] at h1
      have hr := congrArg List.reverse h1
      simp at hr
      cases hrr : r.reverse with
      | nil => simpa using hrr
      | cons x xs =>
        rw [hrr] at hr
        simp at hr
        have hx : x ∈ r := by
          rw [← List.mem_reverse, hrr]; simp
        rw [← hr.1] at hx
        exact absurd hx h2

theorem GetConfiguration_basename_witness :
    '/' ∉ "vlc".toList ∧
      (GetConfiguration sampleBuild ((initialWorld sampleBuild sampleCpu [] []).withArgs
        ("vlc".toList :: words ["-h"]))).2.p_main.psz_arg0 = "vlc".toList ∧
      (GetConfiguration sampleBuild ((initialWorld sampleBuild sampleCpu [] []).withArgs
        ("/usr/bin/".toList :: words []))).2.p_main.psz_arg0 = [] ∧
      (GetConfiguration sampleBuild ((initialWorld sampleBuild sampleCpu [] []).withArgs
        ("/usr/local/bin/vlc".toList :: words ["a.mpg"]))).2.p_main.psz_arg0 = "vlc".toList :=
  ⟨by decide,
   (GetConfiguration_basename sampleBuild (initialWorld sampleBuild sampleCpu [] [])
     "vlc".toList (words ["-h"])).2.2.1 (by decide),
   (GetConfiguration_basename sampleBuild (initialWorld sampleBuild sampleCpu [] [])
     "/usr/bin/".toList (words [])).2.2.2 "/usr/bin".toList (by decide),
   by decide⟩

/-- The trace and `b_channels` after `channelsInit`. -/
theorem channelsInit_state (o : Outcomes) (w : World) :
    (channelsInit o w).trace = w.trace ++ channelCalls o w.p_main.b_channels ∧
      (channelsInit o w).p_main.b_channels = (w.p_main.b_channels && o.channel_created) := by
  unfold channelsInit channelCalls
  cases hc : w.p_main.b_channels <;> cases ho : o.channel_created <;> simp [World.call, hc]

/-- The trace and the root context after `teardown`. -/
theorem teardown_state (B : Build) (w : World) :
    (teardown B w).trace = w.trace ++ teardownCalls B ∧ (teardown B w).p_main = w.p_main := by
  unfold teardown teardownCalls
  by_cases h : B.SYS_BEOS = true ∨ B.SYS_DARWIN1_3 = true
  · simp [h, World.call]
  · simp [h, World.call]

/-- The run of `startup` when the playlist is created. -/
theorem startup_run (B : Build) (o : Outcomes) (w : World) (hp : o.playlist_created = true) :
    (startup B o w).1 = 0 ∧
      (startup B o w).2.trace = w.trace ++ startupCalls B o w ∧
      (startup B o w).2.p_main.b_channels = (w.p_main.b_channels && o.channel_created) := by
  unfold startup
  simp only [hp, not_true_eq_false, ↓reduceIte]
  refine ⟨trivial, ?_, ?_⟩
  · rw [(teardown_state B _).1, (runInterface_state B o _).1, (channelsInit_state o _).1,
      (channelsInit_state o _).2]
    simp [startupCalls, GetFilenames, World.call, List.append_assoc]
  · rw [(teardown_state B _).2, (runInterface_state B o _).2.1, (channelsInit_state o _).2]
    rfl

/-- The run of `startup` when the playlist cannot be created. -/
theorem startup_fail (B : Build) (o : Outcomes) (w : World) (hp : o.playlist_created = false) :
    (startup B o w).1 = o.errno ∧
      (startup B o w).2.trace = w.trace ++
        [Call.intf_PlaylistCreate false, Call.intf_ErrMsg, Call.intf_MsgDestroy] := by
  unfold startup
  simp [hp, World.call]

theorem exitPrints_early {B : Build} {r : Int} {e : List Call} (h : exitPrints B r e) :
    ∀ c ∈ e, c.isEarly = true := by
  rcases h with ⟨_, h | h | h⟩ | ⟨_, h⟩ <;> subst h <;> decide

/-- Every call made up to the return of `GetConfiguration` is an early call. -/
theorem GetConfiguration_early (B : Build) (cpu : Cpu) (argv : List CStr) (env : Environ) :
    ∀ c ∈ (GetConfiguration B (msgReady B cpu argv env)).2.trace, c.isEarly = true := by
  have hm : ∀ c ∈ (msgReady B cpu argv env).trace, c.isEarly = true := by
    unfold msgReady systemInit initialWorld
    by_cases h : B.SYS_BEOS = true ∨ B.SYS_DARWIN1_3 = true
    · simp [h, World.call, Call.isEarly]
    · simp [h, World.call, Call.isEarly]
  have hl : ∀ l : List Call, (∀ c ∈ l, c = Call.intf_ErrMsg) → ∀ c ∈ l, c.isEarly = true := by
    intro l hl c hc; rw [hl c hc]; rfl
  obtain ⟨l, hl1, ⟨_, h⟩ | ⟨e, he, h⟩⟩ := GetConfiguration_trace B (msgReady B cpu argv env)
  · rw [h]; intro c hc
    rcases List.mem_append.mp hc with hc | hc
    · exact hm c hc
    · exact hl l hl1 c hc
  · rw [h]; intro c hc
    rcases List.mem_append.mp hc with hc | hc
    · rcases List.mem_append.mp hc with hc | hc
      · exact hm c hc
      · exact hl l hl1 c hc
    · exact exitPrints_early he c hc

/-- The shape of a run of `main`: either it makes early calls only, or `GetConfiguration`
returns 0, the playlist is created and the calls of `startup` follow, with exit status 0. -/
theorem main_shape (B : Build) (cpu : Cpu) (o : Outcomes) (argv : List CStr) (env : Environ) :
    (∀ c ∈ (main B cpu o argv env).2.trace, c.isEarly = true) ∨
      ((∀ c ∈ (GetConfiguration B (msgReady B cpu argv env)).2.trace, c.isEarly = true) ∧
        (GetConfiguration B (msgReady B cpu argv env)).1 = 0 ∧
        o.msg_created = true ∧ o.playlist_created = true ∧
        (main B cpu o argv env).1 = 0 ∧
        (main B cpu o argv env).2.trace =
          (GetConfiguration B (msgReady B cpu argv env)).2.trace ++
            startupCalls B o (GetConfiguration B (msgReady B cpu argv env)).2 ∧
        (main B cpu o argv env).2.p_main.b_channels =
          ((GetConfiguration B (msgReady B cpu argv env)).2.p_main.b_channels &&
            o.channel_created)) := by
  have hg := GetConfiguration_early B cpu argv env
  rcases main_cases B cpu o argv env with h | ⟨_, h⟩ | ⟨_, _, h⟩ | ⟨hm, h0, h⟩
  · left; rw [h]; simp [initialWorld]
  · left; rw [h]
    unfold systemInit initialWorld
    by_cases hs : B.SYS_BEOS = true ∨ B.SYS_DARWIN1_3 = true
    · simp [hs, World.call, Call.isEarly]
    · simp [hs, World.call, Call.isEarly]
  · left; rw [h]
    intro c hc
    simp only [World.call_trace] at hc
    rcases List.mem_append.mp hc with hc | hc
    · exact hg c hc
    · simp at hc; subst hc; rfl
  · cases hp : o.playlist_created
    · left; rw [h, (startup_fail B o _ hp).2]
      intro c hc
      rcases List.mem_append.mp hc with hc | hc
      · exact hg c hc
      · simp at hc; rcases hc with hc | hc | hc <;> subst hc <;> rfl
    · right
      have hr := startup_run B o (GetConfiguration B (msgReady B cpu argv env)).2 hp
      rw [h]
      exact ⟨hg, h0, hm, rfl, hr.1, hr.2.1, hr.2.2⟩

theorem mem_initSignalCalls {B : Build} {c : Call} (h : c ∈ initSignalCalls B) :
    ∃ s d, c = Call.signal s d := by
  unfold initSignalCalls at h
  cases hw : B.WIN32
  · simp [hw] at h
    rcases h with h | h | h | h | h <;> exact ⟨_, _, h⟩
  · simp [hw] at h

theorem mem_teardownCalls {B : Build} {c : Call} (h : c ∈ teardownCalls B) :
    c ∈ [Call.vout_EndBank, Call.aout_EndBank, Call.module_EndBank, Call.intf_PlaylistDestroy,
      Call.system_End, Call.intf_Msg, Call.intf_MsgDestroy] := by
  unfold teardownCalls at h
  by_cases hs : B.SYS_BEOS = true ∨ B.SYS_DARWIN1_3 = true
  · simp [hs] at h ⊢; tauto
  · simp [hs] at h ⊢; tauto

theorem mem_interfaceCalls {B : Build} {o : Outcomes} {b : Bool} {c : Call}
    (h : c ∈ interfaceCalls B o b) :
    (o.intf_created = false ∧ c ∈ [Call.intf_Create false, Call.intf_ErrMsg]) ∨
      (o.intf_created = true ∧
        (c ∈ [Call.intf_Create true, Call.InitSignalHandler, Call.pf_run, Call.intf_Destroy] ∨
          (∃ s d, c = Call.signal s d) ∨ (b = true ∧ c = Call.network_ChannelJoin))) := by
  unfold interfaceCalls at h
  cases hi : o.intf_created
  · left; simpa [hi] using h
  · right
    refine ⟨rfl, ?_⟩
    simp only [hi, ↓reduceIte, List.mem_append] at h
    rcases h with ((h | h) | h) | h
    · left; simp at h ⊢; tauto
    · right; left; exact mem_initSignalCalls h
    · left; simp at h ⊢; tauto
    · right; right
      cases b
      · simp at h
      · simp at h; exact ⟨rfl, h⟩

theorem mem_channelCalls {o : Outcomes} {b : Bool} {c : Call} (h : c ∈ channelCalls o b) :
    b = true ∧ ((o.channel_created = true ∧ c = Call.network_ChannelCreate true) ∨
      (o.channel_created = false ∧
        (c = Call.network_ChannelCreate false ∨ c = Call.intf_Msg))) := by
  unfold channelCalls at h
  cases b <;> cases ho : o.channel_created <;> simp [ho] at h ⊢ <;> exact h

/-- Where a call of `startupCalls` comes from. -/
theorem mem_startupCalls {B : Build} {o : Outcomes} {w : World} {c : Call}
    (h : c ∈ startupCalls B o w) :
    c ∈ [Call.intf_PlaylistCreate true, Call.intf_PlaylistInit, Call.module_InitBank,
        Call.aout_InitBank, Call.vout_InitBank] ∨
      (∃ a, c = Call.intf_PlaylistAdd a) ∨
      c ∈ channelCalls o w.p_main.b_channels ∨
      c ∈ interfaceCalls B o (w.p_main.b_channels && o.channel_created) ∨
      c ∈ teardownCalls B := by
  unfold startupCalls at h
  simp only [List.mem_append, List.mem_map] at h
  rcases h with ((((h | ⟨a, _, h⟩) | h) | h) | h) | h
  · left; simp at h ⊢; tauto
  · right; left; exact ⟨a, h.symm⟩
  · left; simp at h ⊢; tauto
  · right; right; left; exact h
  · right; right; right; left; exact h
  · right; right; right; right; exact h

/-- C11: the failure of the channels is soft. In every run in which `network_ChannelCreate`
fails (it is called only when `--channels` set `b_channels`), `main` clears `b_channels`, goes
on to create the interface and to run it when created, does not call `network_ChannelJoin`,
carries out the whole teardown and returns 0; and when `b_channels` is false after parsing,
`network_ChannelCreate` is not called at all. -/
theorem main_channels_soft_failure (B : Build) (cpu : Cpu) (o : Outcomes) (argv : List CStr)
    (env : Environ) :
    (Call.network_ChannelCreate false ∈ (main B cpu o argv env).2.trace →
        (GetConfiguration B (msgReady B cpu argv env)).2.p_main.b_channels = true ∧
        (main B cpu o argv env).2.p_main.b_channels = false ∧
        (main B cpu o argv env).1 = 0 ∧
        (∃ pre, (main B cpu o argv env).2.trace =
          pre ++ [Call.network_ChannelCreate false, Call.intf_Msg] ++
            interfaceCalls B o false ++ teardownCalls B ∧
          Call.network_ChannelJoin ∉ pre) ∧
        Call.intf_Create o.intf_created ∈ (main B cpu o argv env).2.trace ∧
        (o.intf_created = true → Call.pf_run ∈ (main B cpu o argv env).2.trace) ∧
        Call.network_ChannelJoin ∉ (main B cpu o argv env).2.trace) ∧
      ((GetConfiguration B (msgReady B cpu argv env)).2.p_main.b_channels = false →
        ∀ ok, Call.network_ChannelCreate ok ∉ (main B cpu o argv env).2.trace) := by
  rcases main_shape B cpu o argv env with he | ⟨hg, h0, hm, hp, h1, ht, hb⟩
  · refine ⟨fun h => absurd (he _ h) (by decide), fun _ ok h => ?_⟩
    have := he _ h
    cases ok <;> exact absurd this (by decide)
  · have hncc : ∀ ok, Call.network_ChannelCreate ok ∈ (main B cpu o argv env).2.trace →
        (GetConfiguration B (msgReady B cpu argv env)).2.p_main.b_channels = true ∧
          o.channel_created = ok := by
      intro ok h
      rw [ht] at h
      rcases List.mem_append.mp h with h | h
      · have := hg _ h
        cases ok <;> exact absurd this (by decide)
      · rcases mem_startupCalls h with h | ⟨a, h⟩ | h | h | h
        · exact absurd h (by cases ok <;> decide)
        · cases h
        · obtain ⟨hb1, ⟨hc, h⟩ | ⟨hc, h | h⟩⟩ := mem_channelCalls h
          · cases h; exact ⟨hb1, hc⟩
          · cases h; exact ⟨hb1, hc⟩
          · cases h
        · rcases mem_interfaceCalls h with ⟨_, h⟩ | ⟨_, h | ⟨s, d, h⟩ | ⟨_, h⟩⟩
          · exact absurd h (by cases ok <;> decide)
          · exact absurd h (by cases ok <;> decide)
          · cases h
          · cases h
        · exact absurd (mem_teardownCalls h) (by cases ok <;> decide)
    refine ⟨fun h => ?_, fun hf ok h => ?_⟩
    · obtain ⟨hbt, hcc⟩ := hncc false h
      have hjoin : Call.network_ChannelJoin ∉
          (GetConfiguration B (msgReady B cpu argv env)).2.trace ++
            ([Call.intf_PlaylistCreate true, Call.intf_PlaylistInit] ++
              (((GetConfiguration B (msgReady B cpu argv env)).2.ppsz_argv.take
                (GetConfiguration B (msgReady B cpu argv env)).2.i_argc).drop
                (GetConfiguration B (msgReady B cpu argv env)).2.optind).map
                Call.intf_PlaylistAdd ++
              [Call.module_InitBank, Call.aout_InitBank, Call.vout_InitBank]) := by
        intro hj
        rcases List.mem_append.mp hj with hj | hj
        · exact absurd (hg _ hj) (by decide)
        · rcases List.mem_append.mp hj with hj | hj
          · rcases List.mem_append.mp hj with hj | hj
            · exact absurd hj (by decide)
            · obtain ⟨a, _, ha⟩ := List.mem_map.mp hj
              cases ha
          · exact absurd hj (by decide)
      have hsc : startupCalls B o (GetConfiguration B (msgReady B cpu argv env)).2 =
          ([Call.intf_PlaylistCreate true, Call.intf_PlaylistInit] ++
              (((GetConfiguration B (msgReady B cpu argv env)).2.ppsz_argv.take
                (GetConfiguration B (msgReady B cpu argv env)).2.i_argc).drop
                (GetConfiguration B (msgReady B cpu argv env)).2.optind).map
                Call.intf_PlaylistAdd ++
              [Call.module_InitBank, Call.aout_InitBank, Call.vout_InitBank]) ++
            [Call.network_ChannelCreate false, Call.intf_Msg] ++
            interfaceCalls B o false ++ teardownCalls B := by
        unfold startupCalls channelCalls
        simp only [hbt, hcc, Bool.and_false, ↓reduceIte, Bool.false_eq_true]
      have hnj : Call.network_ChannelJoin ∉ (main B cpu o argv env).2.trace := by
        rw [ht, hsc]
        intro hj
        simp only [← List.append_assoc] at hj
        rcases List.mem_append.mp hj with hj | hj
        · rcases List.mem_append.mp hj with hj | hj
          · rcases List.mem_append.mp hj with hj | hj
            · exact hjoin (by simpa only [List.append_assoc] using hj)
            · simp at hj
          · rcases mem_interfaceCalls hj with ⟨_, hj⟩ | ⟨_, hj | ⟨s, d, hj⟩ | ⟨hj, _⟩⟩
            · exact absurd hj (by decide)
            · exact absurd hj (by decide)
            · cases hj
            · cases hj
        · exact absurd (mem_teardownCalls hj) (by decide)
      refine ⟨hbt, by rw [hb, hcc]; simp, h1, ⟨_, by rw [ht, hsc]; simp only [List.append_assoc],
        hjoin⟩, ?_, ?_, hnj⟩
      · rw [ht, hsc]
        unfold interfaceCalls
        cases o.intf_created <;> simp
      · intro hi
        rw [ht, hsc]
        unfold interfaceCalls
        simp [hi]
    · have := (hncc ok h).1
      rw [hf] at this
      cases this

theorem main_channels_soft_failure_witness :
    Call.network_ChannelCreate false ∈ (main sampleBuild sampleCpu ⟨true, true, false, true, 0⟩
        (words ["vlc", "--channels", "a.mpg"]) []).2.trace ∧
      (main sampleBuild sampleCpu ⟨true, true, false, true, 0⟩
        (words ["vlc", "--channels", "a.mpg"]) []).2.p_main.b_channels = false ∧
      Call.network_ChannelJoin ∉ (main sampleBuild sampleCpu ⟨true, true, false, true, 0⟩
        (words ["vlc", "--channels", "a.mpg"]) []).2.trace :=
  ⟨by decide,
   ((main_channels_soft_failure sampleBuild sampleCpu ⟨true, true, false, true, 0⟩
     (words ["vlc", "--channels", "a.mpg"]) []).1 (by decide)).2.1,
   ((main_channels_soft_failure sampleBuild sampleCpu ⟨true, true, false, true, 0⟩
     (words ["vlc", "--channels", "a.mpg"]) []).1 (by decide)).2.2.2.2.2.2⟩

/-- The subsystems destroyed by the calls of `startup`. -/
theorem destroyed_startupCalls (B : Build) (o : Outcomes) (w : World)
    (hp : o.playlist_created = true) :
    destroyed (startupCalls B o w) =
      (if o.intf_created then [Subsystem.intf] else []) ++
        [Subsystem.vout_bank, Subsystem.aout_bank, Subsystem.module_bank, Subsystem.playlist,
          Subsystem.msg] := by
  rcases startup_seg B o w with ⟨hf, _⟩ | ⟨_, _, t, ht, _, hd, _⟩
  · rw [hp] at hf; cases hf
  · rw [(startup_run B o w hp).2.1] at ht
    rw [List.append_cancel_left ht, hd]

/-- C18: the failure of the interface is soft. In every run in which `intf_Create` fails,
`main` does not call `InitSignalHandler` (no `signal` call is made), does not call the run
entry point and destroys no interface, yet ends with the whole teardown (video, audio and
module banks, playlist, message interface) and returns 0. -/
theorem main_interface_soft_failure (B : Build) (cpu : Cpu) (o : Outcomes) (argv : List CStr)
    (env : Environ) (h : Call.intf_Create false ∈ (main B cpu o argv env).2.trace) :
    o.intf_created = false ∧ (main B cpu o argv env).1 = 0 ∧
      Call.InitSignalHandler ∉ (main B cpu o argv env).2.trace ∧
      (∀ s d, Call.signal s d ∉ (main B cpu o argv env).2.trace) ∧
      Call.pf_run ∉ (main B cpu o argv env).2.trace ∧
      Call.intf_Destroy ∉ (main B cpu o argv env).2.trace ∧
      (∃ pre, (main B cpu o argv env).2.trace =
        pre ++ [Call.intf_Create false, Call.intf_ErrMsg] ++ teardownCalls B) ∧
      destroyed (main B cpu o argv env).2.trace =
        [Subsystem.vout_bank, Subsystem.aout_bank, Subsystem.module_bank, Subsystem.playlist,
          Subsystem.msg] := by
  rcases main_shape B cpu o argv env with he | ⟨hg, h0, hm, hp, h1, ht, hb⟩
  · exact absurd (he _ h) (by decide)
  · have hi : o.intf_created = false := by
      rw [ht] at h
      rcases List.mem_append.mp h with h | h
      · exact absurd (hg _ h) (by decide)
      · rcases mem_startupCalls h with h | ⟨a, h⟩ | h | h | h
        · exact absurd h (by decide)
        · cases h
        · obtain ⟨_, ⟨_, h⟩ | ⟨_, h | h⟩⟩ := mem_channelCalls h <;> cases h
        · rcases mem_interfaceCalls h with ⟨hi, _⟩ | ⟨_, h | ⟨s, d, h⟩ | ⟨_, h⟩⟩
          · exact hi
          · exact absurd h (by decide)
          · cases h
          · cases h
        · exact absurd (mem_teardownCalls h) (by decide)
    have key : ∀ c : Call, c.isEarly = false → (∀ a, c ≠ Call.intf_PlaylistAdd a) →
        c ∉ [Call.intf_PlaylistCreate true, Call.intf_PlaylistInit, Call.module_InitBank,
          Call.aout_InitBank, Call.vout_InitBank, Call.network_ChannelCreate true,
          Call.network_ChannelCreate false, Call.intf_Msg, Call.intf_Create false,
          Call.intf_ErrMsg, Call.vout_EndBank, Call.aout_EndBank, Call.module_EndBank,
          Call.intf_PlaylistDestroy, Call.system_End, Call.intf_MsgDestroy] →
        c ∉ (main B cpu o argv env).2.trace := by
      intro c h1 h2 h3 hc
      rw [ht] at hc
      rcases List.mem_append.mp hc with hc | hc
      · rw [hg _ hc] at h1; cases h1
      · rcases mem_startupCalls hc with hc | ⟨a, hc⟩ | hc | hc | hc
        · apply h3; simp at hc ⊢; tauto
        · exact h2 a hc
        · obtain ⟨_, ⟨_, hc⟩ | ⟨_, hc | hc⟩⟩ := mem_channelCalls hc <;>
            (apply h3; rw [hc]; simp)
        · rcases mem_interfaceCalls hc with ⟨_, hc⟩ | ⟨hi2, _⟩
          · apply h3; simp at hc ⊢; tauto
          · rw [hi] at hi2; cases hi2
        · apply h3
          have := mem_teardownCalls hc
          simp at this ⊢; tauto
    refine ⟨hi, h1, key _ rfl (by intro a; simp) (by decide), ?_, key _ rfl (by intro a; simp)
      (by decide), key _ rfl (by intro a; simp) (by decide), ?_, ?_⟩
    · intro s d
      exact key _ rfl (by intro a; simp) (by simp)
    · refine ⟨(GetConfiguration B (msgReady B cpu argv env)).2.trace ++
        ([Call.intf_PlaylistCreate true, Call.intf_PlaylistInit] ++
          (((GetConfiguration B (msgReady B cpu argv env)).2.ppsz_argv.take
            (GetConfiguration B (msgReady B cpu argv env)).2.i_argc).drop
            (GetConfiguration B (msgReady B cpu argv env)).2.optind).map
            Call.intf_PlaylistAdd ++
          [Call.module_InitBank, Call.aout_InitBank, Call.vout_InitBank] ++
          channelCalls o (GetConfiguration B (msgReady B cpu argv env)).2.p_main.b_channels), ?_⟩
      rw [ht]
      unfold startupCalls interfaceCalls
      simp only [hi, Bool.false_eq_true, ↓reduceIte, List.append_assoc]
    · rw [ht, destroyed_append, destroyed_startupCalls B o _ hp,
        (GetConfiguration_created B (msgReady B cpu argv env)).2,
        (msgReady_trace B cpu argv env).2.1, hi]
      rfl

theorem main_interface_soft_failure_witness :
    Call.intf_Create false ∈ (main sampleBuild sampleCpu ⟨true, true, true, false, 0⟩
        (words ["vlc", "a.mpg"]) []).2.trace ∧
      (main sampleBuild sampleCpu ⟨true, true, true, false, 0⟩
        (words ["vlc", "a.mpg"]) []).1 = 0 ∧
      Call.pf_run ∉ (main sampleBuild sampleCpu ⟨true, true, true, false, 0⟩
        (words ["vlc", "a.mpg"]) []).2.trace :=
  ⟨by decide,
   (main_interface_soft_failure sampleBuild sampleCpu ⟨true, true, true, false, 0⟩
     (words ["vlc", "a.mpg"]) [] (by decide)).2.1,
   (main_interface_soft_failure sampleBuild sampleCpu ⟨true, true, true, false, 0⟩
     (words ["vlc", "a.mpg"]) [] (by decide)).2.2.2.2.1⟩

/-- The dispositions `InitSignalHandler` installs. -/
theorem InitSignalHandler_signals (B : Build) (w : World) (hW : B.WIN32 = false)
    (s : Signal) :
    (InitSignalHandler B w).signals s =
      if s.isFatal then Disposition.Fatal else Disposition.Simple := by
  unfold InitSignalHandler
  rw [hW]
  cases s <;> rfl

theorem World.call_signals (w : World) (c : Call) : (w.call c).signals = w.signals := rfl

/-- The delivery of ignored signals changes nothing. -/
theorem deliverAll_ignored (B : Build) (w : World) (sigs : List Signal)
    (h : ∀ s ∈ sigs, w.signals s = Disposition.SIG_IGN) :
    deliverAll B sigs w = Delivery.resumes w := by
  induction sigs with
  | nil => rfl
  | cons s rest ih =>
    have hs := h s (by simp)
    have hd : deliver B s w = Delivery.resumes w := by
      unfold deliver; rw [hs]
    unfold deliverAll
    rw [hd]
    exact ih (fun x hx => h x (List.mem_cons_of_mem _ hx))

/-- The run of `FatalSignalHandler` while the interface exists. -/
theorem FatalSignalHandler_alive (B : Build) (w : World) (sig : Signal) (intf : intf_thread_t)
    (hW : B.WIN32 = false) (hp : w.p_main.p_intf = some intf) (ha : w.intf_alive = true) :
    ∃ w2, FatalSignalHandler B sig w = Delivery.resumes w2 ∧
      w2.trace = w.trace ++ [Call.signal Signal.SIGINT Disposition.SIG_IGN,
        Call.signal Signal.SIGHUP Disposition.SIG_IGN,
        Call.signal Signal.SIGQUIT Disposition.SIG_IGN, Call.intf_ErrMsgImm] ∧
      (∀ s : Signal, s.isFatal = true → w2.signals s = Disposition.SIG_IGN) ∧
      w2.p_main.p_intf = some { intf with b_die := true } := by
  unfold FatalSignalHandler
  rw [hW]
  simp only [Bool.false_eq_true, ↓reduceIte, World.call_p_main, World.signal_p_main, hp,
    World.call_alive, World.signal_alive, ha]
  refine ⟨_, rfl, ?_, ?_, rfl⟩
  · simp [World.call, World.signal]
  · intro s hs
    cases s <;> first | rfl | cases hs

/-- C12: after `InitSignalHandler` the three fatal signals are handled by
`FatalSignalHandler`; its first run (the interface existing) first sets the three to
`SIG_IGN`, then prints and sets `b_die`; every later series of fatal signals leaves the state
as it is, so the handler body is not run again. -/
theorem FatalSignalHandler_runs_once (B : Build) (w w1 : World) (sig : Signal)
    (intf : intf_thread_t) (hW : B.WIN32 = false) (hf : sig.isFatal = true)
    (hs : w1.signals = (InitSignalHandler B w).signals)
    (hp : w1.p_main.p_intf = some intf) (ha : w1.intf_alive = true) :
    (∀ s : Signal, s.isFatal = true → w1.signals s = Disposition.Fatal) ∧
      deliver B sig w1 = FatalSignalHandler B sig w1 ∧
      ∃ w2, deliver B sig w1 = Delivery.resumes w2 ∧
        w2.trace = w1.trace ++ [Call.signal Signal.SIGINT Disposition.SIG_IGN,
          Call.signal Signal.SIGHUP Disposition.SIG_IGN,
          Call.signal Signal.SIGQUIT Disposition.SIG_IGN, Call.intf_ErrMsgImm] ∧
        (∀ s : Signal, s.isFatal = true → w2.signals s = Disposition.SIG_IGN) ∧
        w2.p_main.p_intf = some { intf with b_die := true } ∧
        ∀ sigs : List Signal, (∀ s ∈ sigs, s.isFatal = true) →
          deliverAll B sigs w2 = Delivery.resumes w2 := by
  have hfatal : ∀ s : Signal, s.isFatal = true → w1.signals s = Disposition.Fatal := by
    intro s h
    rw [hs, InitSignalHandler_signals B w hW s, h]
    rfl
  have hd : deliver B sig w1 = FatalSignalHandler B sig w1 := by
    unfold deliver
    rw [hfatal sig hf]
  obtain ⟨w2, h1, h2, h3, h4⟩ := FatalSignalHandler_alive B w1 sig intf hW hp ha
  refine ⟨hfatal, hd, w2, hd.trans h1, h2, h3, h4, ?_⟩
  intro sigs hsigs
  exact deliverAll_ignored B w2 sigs (fun s hx => h3 s (hsigs s hx))

theorem FatalSignalHandler_runs_once_witness :
    sampleBuild.WIN32 = false ∧
      ∃ w2, deliver sampleBuild Signal.SIGINT (InitSignalHandler sampleBuild
          { initialWorld sampleBuild sampleCpu [] [] with
            p_main := { (initialWorld sampleBuild sampleCpu [] []).p_main with
              p_intf := some ⟨false⟩ },
            intf_alive := true }) = Delivery.resumes w2 ∧
        deliverAll sampleBuild [Signal.SIGHUP, Signal.SIGINT, Signal.SIGQUIT] w2 =
          Delivery.resumes w2 :=
  ⟨by decide,
   match (FatalSignalHandler_runs_once sampleBuild
      { initialWorld sampleBuild sampleCpu [] [] with
        p_main := { (initialWorld sampleBuild sampleCpu [] []).p_main with
          p_intf := some ⟨false⟩ },
        intf_alive := true }
      (InitSignalHandler sampleBuild
        { initialWorld sampleBuild sampleCpu [] [] with
          p_main := { (initialWorld sampleBuild sampleCpu [] []).p_main with
            p_intf := some ⟨false⟩ },
          intf_alive := true })
      Signal.SIGINT ⟨false⟩ (by decide) (by decide) rfl rfl rfl).2.2 with
   | ⟨w2, h1, _, _, _, h5⟩ => ⟨w2, h1, h5 _ (by decide)⟩⟩

/-- The signal dispositions after `runInterface` when the interface was created: those of
`InitSignalHandler`, still in place after `intf_Destroy`. -/
theorem runInterface_signals (B : Build) (o : Outcomes) (w : World)
    (hi : o.intf_created = true) :
    (runInterface B o w).signals =
        (InitSignalHandler B
          (({ w.call (Call.intf_Create true) with
            p_main := { w.p_main with p_intf := some ⟨false⟩ },
            intf_alive := true } : World).call Call.InitSignalHandler)).signals ∧
      (runInterface B o w).p_main.p_intf = some ⟨false⟩ := by
  unfold runInterface
  simp only [hi, not_true_eq_false, ↓reduceIte]
  constructor
  · split_ifs <;> rfl
  · split_ifs <;>
      simp only [World.call_p_main, InitSignalHandler_p_main]

/-- C13 (the code at the failing input): `FatalSignalHandler` sets `b_die` on the interface
while it exists, but it dereferences `p_main->p_intf` without any test. After `main` has
destroyed the interface the handlers are still installed and `p_intf` still points to it, so
a fatal signal makes the handler access the destroyed interface; with a null `p_intf` it
dereferences the null pointer. In neither case is it a no-op. -/
theorem FatalSignalHandler_dereferences (B : Build) (o : Outcomes) (w : World) (sig : Signal)
    (hW : B.WIN32 = false) (hf : sig.isFatal = true) (hi : o.intf_created = true) :
    (runInterface B o w).signals sig = Disposition.Fatal ∧
      (runInterface B o w).intf_alive = false ∧
      (∃ w2, deliver B sig (runInterface B o w) = Delivery.faults w2) ∧
      (∀ w0 : World, w0.p_main.p_intf = none →
        ∃ w2, FatalSignalHandler B sig w0 = Delivery.faults w2) ∧
      (∀ (w0 : World) (intf : intf_thread_t), w0.p_main.p_intf = some intf →
        w0.intf_alive = true →
        ∃ w2, FatalSignalHandler B sig w0 = Delivery.resumes w2 ∧
          w2.p_main.p_intf = some { intf with b_die := true }) := by
  have hsig : (runInterface B o w).signals sig = Disposition.Fatal := by
    rw [(runInterface_signals B o w hi).1, InitSignalHandler_signals B _ hW sig, hf]
    rfl
  have hal : (runInterface B o w).intf_alive = false := by
    rw [(runInterface_state B o w).2.2, hi]; rfl
  refine ⟨hsig, hal, ?_, ?_, ?_⟩
  · unfold deliver
    rw [hsig]
    unfold FatalSignalHandler
    simp only [hW, Bool.false_eq_true, ↓reduceIte, World.call_p_main, World.signal_p_main,
      (runInterface_signals B o w hi).2, World.call_alive, World.signal_alive, hal]
    exact ⟨_, rfl⟩
  · intro w0 h0
    unfold FatalSignalHandler
    simp only [hW, Bool.false_eq_true, ↓reduceIte, World.call_p_main, World.signal_p_main, h0]
    exact ⟨_, rfl⟩
  · intro w0 intf h0 h1
    obtain ⟨w2, h2, _, _, h5⟩ := FatalSignalHandler_alive B w0 sig intf hW h0 h1
    exact ⟨w2, h2, h5⟩

theorem FatalSignalHandler_dereferences_witness :
    sampleBuild.WIN32 = false ∧
      ∃ w2, deliver sampleBuild Signal.SIGINT
        (runInterface sampleBuild ⟨true, true, true, true, 0⟩
          (initialWorld sampleBuild sampleCpu [] [])) = Delivery.faults w2 :=
  ⟨by decide,
   (FatalSignalHandler_dereferences sampleBuild ⟨true, true, true, true, 0⟩
     (initialWorld sampleBuild sampleCpu [] []) Signal.SIGINT (by decide) (by decide)
     (by decide)).2.2.1⟩

/-- The scan of `getopt_long` splits the arguments: each argument is either taken as an
option or option value, or left as an operand, and both parts keep their order. -/
theorem getoptScan_split (px : Bool) (pending : Option Int) (args : List CStr) :
    (getoptScan px pending args).operands.Sublist args ∧
      (getoptScan px pending args).consumed.Sublist args ∧
      ((getoptScan px pending args).consumed ++ (getoptScan px pending args).operands).Perm
        args := by
  induction args generalizing pending with
  | nil => cases pending <;> simp [getoptScan]
  | cons a rest ih =>
    cases pending with
    | some c =>
      simp only [getoptScan]
      obtain ⟨h1, h2, h3⟩ := ih none
      exact ⟨h1.cons a, h2.cons₂ a, by simpa using h3⟩
    | none =>
      unfold getoptScan
      split
      · exact ⟨List.Sublist.cons _ (List.Sublist.refl _), by simp, by simp⟩
      · obtain ⟨h1, h2, h3⟩ := ih (longOption longopts _).2
        exact ⟨h1.cons _, h2.cons₂ _, by simpa using h3⟩
      · obtain ⟨h1, h2, h3⟩ := ih (shortCluster psz_shortopts _).2
        exact ⟨h1.cons _, h2.cons₂ _, by simpa using h3⟩
      · split
        · exact ⟨List.Sublist.refl _, by simp, by simp⟩
        · obtain ⟨h1, h2, h3⟩ := ih none
          refine ⟨h1.cons₂ a, h2.cons a, ?_⟩
          exact (List.perm_middle).trans (h3.cons a)

/-- The argument vector and `optind` that `GetConfiguration` leaves when its option loop ends
on `EOF`: the elements taken as options come first, the operands follow, `optind` is the
index of the first operand. -/
theorem GetConfiguration_argv (B : Build) (w : World) (hE : B.EINVAL ≠ 0)
    (hd : ¬ (B.SYS_DARWIN1_3 = true ∧ w.i_argc > 1 ∧
      (w.ppsz_argv.getD 1 []).take 4 = "-psn".toList))
    (h0 : (GetConfiguration B w).1 = 0) :
    (GetConfiguration B w).2.ppsz_argv =
        w.ppsz_argv.headD [] ::
          ((getoptScan (getenv w.environ "POSIXLY_CORRECT".toList).isSome none
              ((w.ppsz_argv.take w.i_argc).drop 1)).consumed ++
            (getoptScan (getenv w.environ "POSIXLY_CORRECT".toList).isSome none
              ((w.ppsz_argv.take w.i_argc).drop 1)).operands) ∧
      (GetConfiguration B w).2.optind =
        1 + (getoptScan (getenv w.environ "POSIXLY_CORRECT".toList).isSome none
          ((w.ppsz_argv.take w.i_argc).drop 1)).consumed.length ∧
      (GetConfiguration B w).2.i_argc = w.i_argc := by
  unfold GetConfiguration at h0 ⊢
  simp only at h0 ⊢
  rw [if_neg hd] at h0 ⊢
  generalize hw1 : ({ w with p_main := _ } : World) = w1 at h0 ⊢
  have hi1 : w1.i_argc = w.i_argc := by rw [← hw1]
  generalize hs : getoptScan _ none _ = scan at h0 ⊢
  have hr := @optionLoop_return B scan.returns w1
  have hk := (optionLoop_keeps B scan.returns w1).1
  generalize hx : optionLoop B scan.returns w1 = x at h0 hr hk ⊢
  obtain ⟨x1, x2⟩ := x
  cases x1 with
  | some r =>
    simp only at h0
    rcases hr rfl with h | h
    · rw [h] at h0; cases h0
    · rw [h] at h0; exact absurd h0 hE
  | none =>
    simp only at hk ⊢
    split_ifs
    · exact ⟨rfl, rfl, hk.trans hi1⟩
    · exact ⟨rfl, rfl, hk.trans hi1⟩

/-- C14 (as amended): when `GetConfiguration` returns 0 from its option loop (on Darwin: when
`argv[1]` does not begin with `-psn`), `GetFilenames` appends to the playlist exactly the
operands `getopt_long` left at `argv[optind .. argc-1]`, once each and in their order; the
arguments taken as options or option values are not among them. -/
theorem GetFilenames_appends_operands (B : Build) (w : World) (argv0 : CStr)
    (args : List CStr) (hE : B.EINVAL ≠ 0)
    (hd : ¬ (B.SYS_DARWIN1_3 = true ∧ (args.headD []).take 4 = "-psn".toList))
    (h0 : (GetConfiguration B (w.withArgs (argv0 :: args))).1 = 0) :
    (GetFilenames (GetConfiguration B (w.withArgs (argv0 :: args))).2).trace =
        (GetConfiguration B (w.withArgs (argv0 :: args))).2.trace ++
          (getoptScan (getenv w.environ "POSIXLY_CORRECT".toList).isSome none
            args).operands.map Call.intf_PlaylistAdd ∧
      ((GetConfiguration B (w.withArgs (argv0 :: args))).2.ppsz_argv.take
          (GetConfiguration B (w.withArgs (argv0 :: args))).2.i_argc).drop
          (GetConfiguration B (w.withArgs (argv0 :: args))).2.optind =
        (getoptScan (getenv w.environ "POSIXLY_CORRECT".toList).isSome none args).operands ∧
      (getoptScan (getenv w.environ "POSIXLY_CORRECT".toList).isSome none
        args).operands.Sublist args ∧
      (getoptScan (getenv w.environ "POSIXLY_CORRECT".toList).isSome none
        args).consumed.Sublist args ∧
      ((getoptScan (getenv w.environ "POSIXLY_CORRECT".toList).isSome none args).consumed ++
        (getoptScan (getenv w.environ "POSIXLY_CORRECT".toList).isSome none
          args).operands).Perm args := by
  have hd2 : ¬ (B.SYS_DARWIN1_3 = true ∧ (w.withArgs (argv0 :: args)).i_argc > 1 ∧
      ((w.withArgs (argv0 :: args)).ppsz_argv.getD 1 []).take 4 = "-psn".toList) := by
    intro h
    apply hd
    refine ⟨h.1, ?_⟩
    have h3 := h.2.2
    cases args with
    | nil =>
      have h4 : ([] : CStr).take 4 = "-psn".toList := h3
      exact absurd h4 (by decide)
    | cons a rest => exact h3
  have ht : ((w.withArgs (argv0 :: args)).ppsz_argv.take
      (w.withArgs (argv0 :: args)).i_argc).drop 1 = args := by
    simp [World.withArgs]
  have hg := GetConfiguration_argv B (w.withArgs (argv0 :: args)) hE hd2 h0
  rw [ht] at hg
  have henv : (w.withArgs (argv0 :: args)).environ = w.environ := rfl
  rw [henv] at hg
  obtain ⟨hs1, hs2, hs3⟩ :=
    getoptScan_split (getenv w.environ "POSIXLY_CORRECT".toList).isSome none args
  generalize getoptScan (getenv w.environ "POSIXLY_CORRECT".toList).isSome none args = scan
    at hg hs1 hs2 hs3 ⊢
  have hlen : scan.consumed.length + scan.operands.length = args.length := by
    rw [← List.length_append]; exact hs3.length_eq
  have hop : ((GetConfiguration B (w.withArgs (argv0 :: args))).2.ppsz_argv.take
      (GetConfiguration B (w.withArgs (argv0 :: args))).2.i_argc).drop
      (GetConfiguration B (w.withArgs (argv0 :: args))).2.optind = scan.operands := by
    rw [hg.1, hg.2.1, hg.2.2]
    have hl : (w.withArgs (argv0 :: args)).i_argc =
        ((w.withArgs (argv0 :: args)).ppsz_argv.headD [] ::
          (scan.consumed ++ scan.operands)).length := by
      simp [World.withArgs]; omega
    rw [hl, List.take_length, Nat.add_comm 1, List.drop_succ_cons, List.drop_left]
  refine ⟨?_, hop, hs1, hs2, hs3⟩
  unfold GetFilenames
  simp only
  rw [hop]

theorem GetFilenames_appends_operands_witness :
    sampleBuild.EINVAL ≠ 0 ∧
      (GetConfiguration sampleBuild ((initialWorld sampleBuild sampleCpu [] []).withArgs
        ("vlc".toList :: words ["--width", "800", "a.mpg", "-v", "b.mpg"]))).1 = 0 ∧
      (getoptScan (getenv (initialWorld sampleBuild sampleCpu [] []).environ
        "POSIXLY_CORRECT".toList).isSome none
        (words ["--width", "800", "a.mpg", "-v", "b.mpg"])).operands =
        words ["a.mpg", "b.mpg"] ∧
      (GetFilenames (GetConfiguration sampleBuild
        ((initialWorld sampleBuild sampleCpu [] []).withArgs
          ("vlc".toList :: words ["--width", "800", "a.mpg", "-v", "b.mpg"]))).2).trace =
        (GetConfiguration sampleBuild ((initialWorld sampleBuild sampleCpu [] []).withArgs
          ("vlc".toList :: words ["--width", "800", "a.mpg", "-v", "b.mpg"]))).2.trace ++
          (getoptScan (getenv (initialWorld sampleBuild sampleCpu [] []).environ
            "POSIXLY_CORRECT".toList).isSome none
            (words ["--width", "800", "a.mpg", "-v", "b.mpg"])).operands.map
            Call.intf_PlaylistAdd :=
  ⟨by decide, by decide, by decide,
   (GetFilenames_appends_operands sampleBuild (initialWorld sampleBuild sampleCpu [] [])
     "vlc".toList (words ["--width", "800", "a.mpg", "-v", "b.mpg"]) (by decide) (by decide)
     (by decide)).1⟩

/-- C14 (counterexample): on a Darwin build, `vlc -psn_0_1 --width 800` is not parsed at all:
`GetConfiguration` returns 0 and `GetFilenames` appends the option token `--width` (and the
`-psn` token) to the playlist. -/
theorem GetFilenames_appends_option_on_darwin :
    (GetConfiguration sampleDarwin (msgReady sampleDarwin sampleCpu
        (words ["vlc", "-psn_0_1", "--width", "800"]) [])).1 = 0 ∧
      Call.intf_PlaylistAdd "--width".toList ∈
        (main sampleDarwin sampleCpu ⟨true, true, true, true, 0⟩
          (words ["vlc", "-psn_0_1", "--width", "800"]) []).2.trace ∧
      (getoptScan false none (words ["--width", "800"])).consumed = words ["--width", "800"] := by
  decide

/-- C15 (the code at the failing input): on Darwin, when `argv[1]` begins with `-psn`,
`GetConfiguration` only decrements `argc` and returns 0; `GetFilenames` then starts at
`argv[1]` and stops one short of the end, so the `-psn` token is appended to the playlist as
a file name and the last argument is dropped, whenever an argument follows the token. -/
theorem GetFilenames_darwin_psn (B : Build) (w : World) (argv0 psn : CStr) (rest : List CStr)
    (hD : B.SYS_DARWIN1_3 = true) (hpsn : psn.take 4 = "-psn".toList) (ho : w.optind = 1) :
    (GetConfiguration B (w.withArgs (argv0 :: psn :: rest))).1 = 0 ∧
      (GetFilenames (GetConfiguration B (w.withArgs (argv0 :: psn :: rest))).2).trace =
        w.trace ++ ((psn :: rest).dropLast).map Call.intf_PlaylistAdd ∧
      (rest ≠ [] →
        Call.intf_PlaylistAdd psn ∈
          (GetFilenames (GetConfiguration B (w.withArgs (argv0 :: psn :: rest))).2).trace) := by
  have hc : B.SYS_DARWIN1_3 = true ∧ (w.withArgs (argv0 :: psn :: rest)).i_argc > 1 ∧
      ((w.withArgs (argv0 :: psn :: rest)).ppsz_argv.getD 1 []).take 4 = "-psn".toList :=
    ⟨hD, by simp [World.withArgs], hpsn⟩
  have hG : GetConfiguration B (w.withArgs (argv0 :: psn :: rest)) =
      (0, { ({ w.withArgs (argv0 :: psn :: rest) with p_main := { w.p_main with
          i_argc := (argv0 :: psn :: rest).length, ppsz_argv := argv0 :: psn :: rest,
          ppsz_env := w.environ, b_audio := true, b_video := true, b_channels := false,
          i_warning_level := 0, psz_arg0 := arg0Loop argv0 argv0 } } : World) with
        i_argc := (argv0 :: psn :: rest).length - 1 }) := by
    unfold GetConfiguration
    simp only
    rw [if_pos hc]
    rfl
  have htr : (GetFilenames (GetConfiguration B (w.withArgs (argv0 :: psn :: rest))).2).trace =
      w.trace ++ ((psn :: rest).dropLast).map Call.intf_PlaylistAdd := by
    rw [hG]
    unfold GetFilenames
    simp only [World.withArgs, ho]
    have : (List.take ((argv0 :: psn :: rest).length - 1) (argv0 :: psn :: rest)).drop 1 =
        (psn :: rest).dropLast := by
      rw [List.dropLast_eq_take]
      simp
    rw [this]
  refine ⟨by rw [hG], htr, ?_⟩
  intro hr
  rw [htr]
  cases rest with
  | nil => exact absurd rfl hr
  | cons a r => simp [List.dropLast]

theorem GetFilenames_darwin_psn_witness :
    sampleDarwin.SYS_DARWIN1_3 = true ∧
      Call.intf_PlaylistAdd "-psn_0_9306113".toList ∈
        (main sampleDarwin sampleCpu ⟨true, true, true, true, 0⟩
          (words ["vlc", "-psn_0_9306113", "movie.mpg"]) []).2.trace ∧
      Call.intf_PlaylistAdd "movie.mpg".toList ∉
        (main sampleDarwin sampleCpu ⟨true, true, true, true, 0⟩
          (words ["vlc", "-psn_0_9306113", "movie.mpg"]) []).2.trace ∧
      (GetFilenames (GetConfiguration sampleDarwin
        ((initialWorld sampleDarwin sampleCpu [] []).withArgs
          (words ["vlc", "-psn_0_9306113", "movie.mpg"]))).2).trace =
        [Call.intf_PlaylistAdd "-psn_0_9306113".toList] :=
  ⟨by decide, by decide, by decide,
   (GetFilenames_darwin_psn sampleDarwin (initialWorld sampleDarwin sampleCpu [] [])
     "vlc".toList "-psn_0_9306113".toList (words ["movie.mpg"]) (by decide) (by decide)
     rfl).2.1⟩

theorem digitVal_dec {c : Char} (h : isDecDigit c = true) :
    digitVal c = some (c.toNat - 48) ∧ c.toNat - 48 < 10 := by
  unfold isDecDigit at h
  simp at h
  unfold digitVal
  rw [if_pos ⟨h.1, h.2⟩]
  exact ⟨rfl, by omega⟩

theorem isDigitIn_dec {c : Char} (h : isDecDigit c = true) : isDigitIn 10 c = true := by
  unfold isDigitIn
  rw [(digitVal_dec h).1]
  simpa using (digitVal_dec h).2

theorem isDigitIn_ten {c : Char} (h : isDigitIn 10 c = true) : isDecDigit c = true := by
  unfold isDigitIn digitVal at h
  unfold isDecDigit
  split_ifs at h with h1 h2 h3
  · simp [h1.1, h1.2]
  · simp at h; omega
  · simp at h; omega

/-- The digit loop of `strtol` in base 10 reads a string of decimal digits up to the first
character that is not one. -/
theorem scanDigits_dec (pre rest : CStr) (acc : Nat) (hpre : ∀ c ∈ pre, isDecDigit c = true)
    (hrest : ∀ c ∈ rest.head?, isDecDigit c = false) :
    scanDigits 10 acc (pre ++ rest) = (decVal acc pre, rest) := by
  induction pre generalizing acc with
  | nil =>
    cases rest with
    | nil => rfl
    | cons c cs =>
      have hc : isDecDigit c = false := hrest c (by simp)
      have hd : isDigitIn 10 c = false := by
        cases h : isDigitIn 10 c
        · rfl
        · rw [isDigitIn_ten h] at hc; cases hc
      simp only [List.nil_append, scanDigits, decVal, List.foldl_nil]
      unfold isDigitIn at hd
      cases hv : digitVal c with
      | none => rfl
      | some d =>
        rw [hv] at hd
        simp at hd
        simp [Nat.not_lt.mpr hd]
  | cons c cs ih =>
    have hc := hpre c (by simp)
    have := digitVal_dec hc
    simp only [List.cons_append, scanDigits, this.1, this.2, ↓reduceIte]
    exact ih _ (fun x hx => hpre x (List.mem_cons_of_mem _ hx))

theorem decDigit_cases {c : Char} (h : isDecDigit c = true) :
    c = '0' ∨ c = '1' ∨ c = '2' ∨ c = '3' ∨ c = '4' ∨ c = '5' ∨ c = '6' ∨ c = '7' ∨ c = '8' ∨
      c = '9' := by
  unfold isDecDigit at h
  simp at h
  have hc : c = Char.ofNat c.toNat := (Char.ofNat_toNat c).symm
  generalize c.toNat = n at h hc
  obtain ⟨h1, h2⟩ := h
  subst hc
  interval_cases n <;> simp

/-- The function `strtol` on a string that starts with decimal digits, in base 10, or in
base 0 when the first digit is not `0`: the value is the number the digits denote (saturated
to `long`), the rest starts at the first character that is not a digit. -/
theorem strtol_dec (w base : Nat) (c : Char) (cs rest : CStr)
    (hb : base = 10 ∨ (base = 0 ∧ c ≠ '0'))
    (hc : isDecDigit c = true) (hcs : ∀ x ∈ cs, isDecDigit x = true)
    (hrest : ∀ x ∈ rest.head?, isDecDigit x = false) :
    strtol w (c :: cs ++ rest) base = (clampLong w (decVal 0 (c :: cs)), rest) ∧
      strtol w ('-' :: c :: cs ++ rest) base =
        (clampLong w (-(decVal 0 (c :: cs) : Int)), rest) := by
  have hscan := scanDigits_dec (c :: cs) rest 0
    (by intro x hx; rcases List.mem_cons.mp hx with h | h; exact h ▸ hc; exact hcs x h) hrest
  have key : strtol w (c :: cs ++ rest) base =
        (clampLong w ((scanDigits 10 0 (c :: cs ++ rest)).1 : Int),
          (scanDigits 10 0 (c :: cs ++ rest)).2) ∧
      strtol w ('-' :: c :: cs ++ rest) base =
        (clampLong w (-((scanDigits 10 0 (c :: cs ++ rest)).1 : Int)),
          (scanDigits 10 0 (c :: cs ++ rest)).2) := by
    simp only [List.cons_append]
    generalize cs ++ rest = tl
    rcases hb with hb | ⟨hb, h0⟩
    · subst hb
      rcases decDigit_cases hc with h | h | h | h | h | h | h | h | h | h <;> subst h <;>
        cases tl <;> exact ⟨rfl, rfl⟩
    · subst hb
      rcases decDigit_cases hc with h | h | h | h | h | h | h | h | h | h <;> subst h <;>
        first
          | exact absurd rfl h0
          | (cases tl <;> exact ⟨rfl, rfl⟩)
  rw [key.1, key.2, hscan]
  exact ⟨rfl, rfl⟩

theorem digitChar_dec {k : Nat} (hk : k < 10) :
    isDecDigit (Nat.digitChar k) = true ∧ (Nat.digitChar k).toNat - 48 = k ∧
      (Nat.digitChar k = '0' → k = 0) := by
  interval_cases k <;> decide

/-- The digits `Nat.toDigitsCore` puts in front of its accumulator: decimal digits that
denote the number, the first being `0` only for the number 0. -/
theorem toDigitsCore_dec (fuel n : Nat) (ds : List Char) (h : n < fuel) :
    ∃ pre, Nat.toDigitsCore 10 fuel n ds = pre ++ ds ∧ pre ≠ [] ∧
      (∀ x ∈ pre, isDecDigit x = true) ∧ decVal 0 pre = n ∧
      (pre.head? = some '0' → n = 0) := by
  induction fuel generalizing n ds with
  | zero => omega
  | succ fuel ih =>
    have hd := digitChar_dec (Nat.mod_lt n (by norm_num : 10 > 0))
    unfold Nat.toDigitsCore
    simp only
    by_cases h0 : n / 10 = 0
    · rw [if_pos h0]
      have hn : n % 10 = n := Nat.mod_eq_of_lt (by omega)
      refine ⟨[Nat.digitChar (n % 10)], rfl, by simp, ?_, ?_, ?_⟩
      · intro x hx; simp at hx; rw [hx]; exact hd.1
      · show 0 * 10 + ((Nat.digitChar (n % 10)).toNat - 48) = n
        rw [hd.2.1]; omega
      · intro hh; simp at hh; rw [← hn]; exact hd.2.2 hh
    · rw [if_neg h0]
      obtain ⟨pre, h1, h2, h3, h4, h5⟩ := ih (n / 10) (Nat.digitChar (n % 10) :: ds) (by omega)
      refine ⟨pre ++ [Nat.digitChar (n % 10)], by rw [h1]; simp, by simp, ?_, ?_, ?_⟩
      · intro x hx
        rcases List.mem_append.mp hx with hx | hx
        · exact h3 x hx
        · simp at hx; rw [hx]; exact hd.1
      · unfold decVal at h4 ⊢
        rw [List.foldl_append, h4]
        simp [hd.2.1]
        omega
      · intro hh
        cases pre with
        | nil => exact absurd rfl h2
        | cons p ps =>
          simp at hh
          exact absurd (h5 (by simp [hh])) h0

/-- The text of `Nat.toDigits 10 n`: decimal digits that denote `n`, without a leading `0`
unless `n` is 0. -/
theorem toDigits_dec (n : Nat) :
    ∃ c cs, Nat.toDigits 10 n = c :: cs ∧ isDecDigit c = true ∧
      (∀ x ∈ cs, isDecDigit x = true) ∧ decVal 0 (c :: cs) = n ∧ (c = '0' → n = 0) := by
  obtain ⟨pre, h1, h2, h3, h4, h5⟩ := toDigitsCore_dec (n + 1) n [] (by omega)
  cases pre with
  | nil => exact absurd rfl h2
  | cons c cs =>
    refine ⟨c, cs, ?_, h3 c (by simp), fun x hx => h3 x (List.mem_cons_of_mem _ hx), h4, ?_⟩
    · unfold Nat.toDigits; rw [h1]; simp
    · intro hc; exact h5 (by simp [hc])

/-- The round trip of `sprintf ("%d")` and `strtol` with base 0: the text of an `int` is read
back whole, as that `int`. -/
theorem strtol_sprintf_d (w : Nat) (i : Int) (hw : 32 ≤ w) (h1 : -2147483648 ≤ i)
    (h2 : i < 2147483648) : strtol w (sprintf_d i) 0 = (i, []) := by
  obtain ⟨c, cs, hd, hc, hcs, hv, hz⟩ := toDigits_dec i.natAbs
  by_cases hi0 : i = 0
  · subst hi0
    have : strtol w (sprintf_d 0) 0 = (clampLong w 0, []) := rfl
    rw [this, clampLong_of_range hw (by norm_num) (by norm_num)]
  · have hc0 : c ≠ '0' := by
      intro h
      have := hz h
      omega
    have hs := strtol_dec w 0 c cs [] (Or.inr ⟨rfl, hc0⟩) hc hcs (by simp)
    simp only [List.append_nil] at hs
    unfold sprintf_d
    by_cases hneg : i < 0
    · rw [if_pos hneg, hd, hs.2, hv]
      have : -((i.natAbs : Nat) : Int) = i := by omega
      rw [this, clampLong_of_range hw h1 h2]
    · rw [if_neg hneg, hd, hs.1, hv]
      have : ((i.natAbs : Nat) : Int) = i := by omega
      rw [this, clampLong_of_range hw h1 h2]

theorem not_decDigit_ne_zero {c : Char} (h : isDecDigit c = false) : c ≠ '0' := by
  intro h0; subst h0; revert h; decide

theorem not_decDigit_isDigitIn {c : Char} (h : isDecDigit c = false) :
    isDigitIn 10 c = false := by
  cases hd : isDigitIn 10 c
  · rfl
  · rw [isDigitIn_ten hd] at h; cases h

/-- The function `strtol` in base 10 reads no digit from a string that does not start with a
number: the value is 0 and the whole string is left. -/
theorem strtol_no_number (w : Nat) (s : CStr) (h : startsWithNumber s = false) :
    strtol w s 10 = (0, s) := by
  unfold startsWithNumber at h
  unfold strtol
  simp only
  generalize s.dropWhile isspace = x at h ⊢
  cases x with
  | nil => simp
  | cons c t =>
    by_cases hm : c = '-'
    · subst hm
      cases t with
      | nil => simp
      | cons c2 t2 =>
        simp only at h
        simp [not_decDigit_ne_zero h, not_decDigit_isDigitIn h]
    · by_cases hp : c = '+'
      · subst hp
        cases t with
        | nil => simp
        | cons c2 t2 =>
          simp only at h
          simp [not_decDigit_ne_zero h, not_decDigit_isDigitIn h]
      · have hc : isDecDigit c = false := by
          revert h
          split
          · rename_i heq; simp at heq; exact absurd heq.1 hm
          · rename_i heq; simp at heq; exact absurd heq.1 hp
          · rename_i heq; simp at heq; intro h; rw [heq.1]; exact h
          · rename_i heq; simp at heq
        simp [hm, hp, not_decDigit_ne_zero hc, not_decDigit_isDigitIn hc]

/-- C19: integer write/read round trip. For a key that is not empty and has no `=`, and an
`int` value `i`, `main_GetIntVariable` right after `main_PutIntVariable (k, i)` returns `i`,
whatever the default: the `%d` text of `i` is not empty, `strtol` with base 0 consumes it all
and reads it as `i` (never as octal or hexadecimal). -/
theorem main_GetIntVariable_PutIntVariable (w : Nat) (env : Environ) (k : CStr) (i d : Int)
    (hk : ValidKey k) (hw : 32 ≤ w) (h1 : -2147483648 ≤ i) (h2 : i < 2147483648) :
    main_GetIntVariable w (main_PutIntVariable env k i) k d = i ∧
      sprintf_d i ≠ [] ∧ strtol w (sprintf_d i) 0 = (i, []) := by
  have hs := strtol_sprintf_d w i hw h1 h2
  have hne : sprintf_d i ≠ [] := by
    obtain ⟨c, cs, hd, _⟩ := toDigits_dec i.natAbs
    unfold sprintf_d
    split_ifs
    · simp
    · rw [hd]; simp
  refine ⟨?_, hne, hs⟩
  unfold main_GetIntVariable main_PutIntVariable
  rw [getenv_put_same env _ hk]
  simp only [hs, hne, ne_eq, not_false_eq_true, and_self, ↓reduceIte]
  exact toInt32_of_range h1 h2

theorem main_GetIntVariable_PutIntVariable_witness :
    ValidKey "vlc_width".toList ∧ 32 ≤ 32 ∧ (-2147483648 : Int) ≤ -2147483648 ∧
      (-2147483648 : Int) < 2147483648 ∧
      main_GetIntVariable 32 (main_PutIntVariable ["vlc_width=1".toList] "vlc_width".toList
        (-2147483648)) "vlc_width".toList 7 = -2147483648 :=
  ⟨by decide, by decide, by decide, by decide,
   (main_GetIntVariable_PutIntVariable 32 ["vlc_width=1".toList] "vlc_width".toList
     (-2147483648) 7 (by decide) (by decide) (by decide) (by decide)).1⟩

/-- The function `atoi` on a string that starts with decimal digits whose number fits an
`int`: the number the digits denote. -/
theorem atoi_dec (w : Nat) (c : Char) (cs rest : CStr) (hw : 32 ≤ w)
    (hc : isDecDigit c = true) (hcs : ∀ x ∈ cs, isDecDigit x = true)
    (hrest : ∀ x ∈ rest.head?, isDecDigit x = false)
    (hv : decVal 0 (c :: cs) < 2147483648) :
    atoi w (c :: cs ++ rest) = decVal 0 (c :: cs) := by
  unfold atoi
  rw [(strtol_dec w 10 c cs rest (Or.inl rfl) hc hcs hrest).1]
  simp only
  rw [clampLong_of_range hw (by omega) (by omega), toInt32_of_range (by omega) (by omega)]

/-! ## The numbers `strtol` and `atoi` read, against what the strings denote -/

theorem sign_cases (s : CStr) :
    (match s with
        | '-' :: _ => true
        | _ => false) = decide (s.head? = some '-') ∧
      (match s with
        | '-' :: t => t
        | '+' :: t => t
        | _ => s) = (if s.head? = some '-' ∨ s.head? = some '+' then s.tail else s) := by
  cases s with
  | nil => simp
  | cons c t =>
    by_cases hm : c = '-'
    · subst hm; simp
    · by_cases hp : c = '+'
      · subst hp; simp
      · simp [hm, hp]

/-- The function `strtol` is `strtolAfterSign` after the blanks and one sign. -/
theorem strtol_afterSign (w : Nat) (nptr : CStr) (base : Nat) :
    strtol w nptr base = strtolAfterSign w nptr base
      (decide ((nptr.dropWhile isspace).head? = some '-'))
      (if (nptr.dropWhile isspace).head? = some '-' ∨ (nptr.dropWhile isspace).head? = some '+'
        then (nptr.dropWhile isspace).tail else nptr.dropWhile isspace) := by
  rw [← (sign_cases (nptr.dropWhile isspace)).1, ← (sign_cases (nptr.dropWhile isspace)).2]
  rfl

/-- The digit loop of `strtol` reads the longest run of digits of the base and leaves the
rest. -/
theorem scanDigits_eq (b acc : Nat) (s : CStr) :
    scanDigits b acc s =
      ((s.takeWhile (isDigitIn b)).foldl (fun a c => a * b + (digitVal c).getD 0) acc,
        s.dropWhile (isDigitIn b)) := by
  induction s generalizing acc with
  | nil => rfl
  | cons c cs ih =>
    unfold scanDigits
    cases hv : digitVal c with
    | none => simp [isDigitIn, hv]
    | some d =>
      by_cases hd : d < b
      · simp [isDigitIn, hv, hd, ih]
      · simp [isDigitIn, hv, hd]

theorem clampLong_zero (w : Nat) : clampLong w 0 = 0 := by
  have hp : (0 : Int) < 2 ^ (w - 1) := by positivity
  unfold clampLong LONG_MAX LONG_MIN
  split_ifs <;> omega

/-- The function `strtol` in base 10 after the sign. -/
theorem strtolAfterSign_ten (w : Nat) (nptr : CStr) (neg : Bool) (u : CStr) :
    strtolAfterSign w nptr 10 neg u =
      if (u.head?.any (isDigitIn 10)) = true then
        (clampLong w (if neg then -((scanDigits 10 0 u).1 : Int) else ((scanDigits 10 0 u).1 : Int)),
          (scanDigits 10 0 u).2)
      else (0, nptr) := by
  unfold strtolAfterSign
  cases u with
  | nil => simp
  | cons c t =>
    by_cases h0 : c = '0'
    · subst h0
      cases t <;> simp
    · simp [h0]

/-- The function `strtol` in base 0 after the sign: `0x` or `0X` selects base 16, another
leading `0` base 8, anything else base 10. -/
theorem strtolAfterSign_zero (w : Nat) (nptr : CStr) (neg : Bool) (u : CStr) :
    strtolAfterSign w nptr 0 neg u =
      if u.take 2 = "0x".toList ∨ u.take 2 = "0X".toList then
        (if ((u.drop 2).head?.any (isDigitIn 16)) = true then
          (clampLong w (if neg then -((scanDigits 16 0 (u.drop 2)).1 : Int)
            else ((scanDigits 16 0 (u.drop 2)).1 : Int)), (scanDigits 16 0 (u.drop 2)).2)
        else (0, u.drop 1))
      else if u.head? = some '0' then
        (clampLong w (if neg then -((scanDigits 8 0 u).1 : Int)
            else ((scanDigits 8 0 u).1 : Int)), (scanDigits 8 0 u).2)
      else if (u.head?.any (isDigitIn 10)) = true then
        (clampLong w (if neg then -((scanDigits 10 0 u).1 : Int)
            else ((scanDigits 10 0 u).1 : Int)), (scanDigits 10 0 u).2)
      else (0, nptr) := by
  have h8 : isDigitIn 8 '0' = true := by decide
  unfold strtolAfterSign
  cases u with
  | nil => simp
  | cons c t =>
    by_cases h0 : c = '0'
    · subst h0
      cases t with
      | nil => simp [h8]
      | cons x t2 =>
        by_cases hx : x = 'x'
        · subst hx
          cases t2 <;> simp
        · by_cases hX : x = 'X'
          · subst hX
            cases t2 <;> simp
          · simp [hx, hX, h8]
    · simp [h0]

theorem isDigitIn_ten_eq : isDigitIn 10 = isDecDigit := by
  funext c
  cases h : isDecDigit c
  · cases h2 : isDigitIn 10 c
    · rfl
    · rw [isDigitIn_ten h2] at h; cases h
  · exact isDigitIn_dec h

theorem foldl_dec (ds : CStr) (acc : Nat) (h : ∀ c ∈ ds, isDecDigit c = true) :
    ds.foldl (fun a c => a * 10 + (digitVal c).getD 0) acc = decVal acc ds := by
  induction ds generalizing acc with
  | nil => rfl
  | cons c cs ih =>
    have hc := digitVal_dec (h c (by simp))
    simp only [List.foldl_cons, decVal, hc.1, Option.getD_some]
    exact ih _ (fun x hx => h x (List.mem_cons_of_mem _ hx))

/-- The digit loop of `strtol` in base 10 on any string: the number of the leading decimal
digits. -/
theorem scanDigits_ten (u : CStr) :
    scanDigits 10 0 u = (decVal 0 (u.takeWhile isDecDigit), u.dropWhile isDecDigit) := by
  rw [scanDigits_eq, isDigitIn_ten_eq, foldl_dec _ _ (fun c hc => (List.mem_takeWhile_imp hc))]

theorem takeWhile_head_false {p : Char → Bool} (u : CStr) (h : (u.head?.any p) ≠ true) :
    u.takeWhile p = [] := by
  cases u with
  | nil => rfl
  | cons c t =>
    simp at h
    simp [List.takeWhile, h]

theorem isBlank_iff (c : Char) :
    isBlank c = true ↔ (c = ' ' ∨ c = Char.ofNat 9 ∨ c = Char.ofNat 10 ∨ c = Char.ofNat 11 ∨
      c = Char.ofNat 12 ∨ c = Char.ofNat 13) := by
  have e : " \t\n\x0b\x0c\r".toList =
      [' ', Char.ofNat 9, Char.ofNat 10, Char.ofNat 11, Char.ofNat 12, Char.ofNat 13] := by
    decide
  unfold isBlank
  rw [e]
  simp [List.contains, List.elem_iff]

/-- The blanks of the specification are the characters `isspace` accepts. -/
theorem isspace_eq : isspace = isBlank := by
  funext c
  rw [Bool.eq_iff_iff, isBlank_iff]
  unfold isspace
  simp only [Bool.or_eq_true, Bool.and_eq_true, decide_eq_true_eq]
  constructor
  · intro h
    have hc : c = Char.ofNat c.toNat := (Char.ofNat_toNat c).symm
    generalize c.toNat = n at h hc
    subst hc
    rcases h with h | ⟨h1, h2⟩
    · subst h; decide
    · interval_cases n <;> decide
  · rintro (h | h | h | h | h | h) <;> subst h <;> decide

theorem strtol_ten_aux (w : Nat) (v : CStr) (neg : Bool) (u : CStr) :
    (if (u.head?.any isDecDigit) = true then
        (clampLong w (if neg then -((decVal 0 (u.takeWhile isDecDigit), u.dropWhile isDecDigit).1 : Int)
          else ((decVal 0 (u.takeWhile isDecDigit), u.dropWhile isDecDigit).1 : Int)),
          (decVal 0 (u.takeWhile isDecDigit), u.dropWhile isDecDigit).2)
      else ((0 : Int), v)).1 =
      clampLong w (if neg then -(decVal 0 (u.takeWhile isDecDigit) : Int)
        else (decVal 0 (u.takeWhile isDecDigit) : Int)) := by
  by_cases h : (u.head?.any isDecDigit) = true
  · rw [if_pos h]
  · rw [if_neg h, takeWhile_head_false u h]
    cases neg <;> simp [decVal, clampLong_zero]

/-- The value `strtol` reads in base 10 is, for every string, the integer prefix of the
string saturated to the range of `long`. -/
theorem strtol_ten_value (w : Nat) (v : CStr) :
    (strtol w v 10).1 = clampLong w (spec_leadingInteger v) := by
  rw [strtol_afterSign, strtolAfterSign_ten, scanDigits_ten, isDigitIn_ten_eq, isspace_eq]
  exact strtol_ten_aux w v _ _

/-- The function `atoi` returns, for every string, the integer prefix of the string,
saturated to the range of `long` and converted to `int`. -/
theorem atoi_eq (w : Nat) (v : CStr) :
    atoi w v = toInt32 (clampLong w (spec_leadingInteger v)) := by
  unfold atoi
  rw [strtol_ten_value]

theorem all_takeWhile {p : Char → Bool} (ds : CStr) (h : ds.all p = true) :
    ds.takeWhile p = ds ∧ ds.dropWhile p = [] := by
  rw [List.all_eq_true] at h
  exact ⟨List.takeWhile_eq_self_iff.mpr h, List.dropWhile_eq_nil_iff.mpr h⟩

/-- The digit part of `strtol` against the digit part of the specification: the parse reads a
whole string of digits as the number it denotes, and leaves something unread, or fails, on
any other string. -/
theorem digits_result (w : Nat) (neg : Bool) (b : Nat) (ds : CStr) (fail : Int × CStr) :
    (∀ n : Int, (if ds ≠ [] ∧ ds.all (isDigitIn b) = true then
          some (if neg then -(digitsValue b ds : Int) else (digitsValue b ds : Int))
        else none) = some n →
      (if (ds.head?.any (isDigitIn b)) = true then
          (clampLong w (if neg then -((scanDigits b 0 ds).1 : Int)
            else ((scanDigits b 0 ds).1 : Int)), (scanDigits b 0 ds).2)
        else fail) = (clampLong w n, [])) ∧
      ((if ds ≠ [] ∧ ds.all (isDigitIn b) = true then
          some (if neg then -(digitsValue b ds : Int) else (digitsValue b ds : Int))
        else none) = none →
        (if (ds.head?.any (isDigitIn b)) = true then
          (clampLong w (if neg then -((scanDigits b 0 ds).1 : Int)
            else ((scanDigits b 0 ds).1 : Int)), (scanDigits b 0 ds).2)
        else fail).2 ≠ [] ∨
        (if (ds.head?.any (isDigitIn b)) = true then
          (clampLong w (if neg then -((scanDigits b 0 ds).1 : Int)
            else ((scanDigits b 0 ds).1 : Int)), (scanDigits b 0 ds).2)
        else fail) = fail) := by
  by_cases h : ds ≠ [] ∧ ds.all (isDigitIn b) = true
  · rw [if_pos h]
    have hh : (ds.head?.any (isDigitIn b)) = true := by
      obtain ⟨h1, h2⟩ := h
      cases ds with
      | nil => exact absurd rfl h1
      | cons c t => simp at h2; simp [h2.1]
    obtain ⟨e1, e2⟩ := all_takeWhile ds h.2
    rw [if_pos hh, scanDigits_eq, e1, e2]
    refine ⟨?_, fun h => by cases h⟩
    intro n hn
    injection hn with hn
    rw [← hn]
    rfl
  · rw [if_neg h]
    refine ⟨fun n h => (by cases h), fun _ => ?_⟩
    by_cases hh : (ds.head?.any (isDigitIn b)) = true
    · rw [if_pos hh, scanDigits_eq]
      left
      intro hd
      apply h
      refine ⟨?_, ?_⟩
      · intro hnil; rw [hnil] at hh; simp at hh
      · rw [List.all_eq_true]; exact List.dropWhile_eq_nil_iff.mp hd
    · rw [if_neg hh]
      exact Or.inr rfl

theorem take_two_drop {u : CStr} {a b : Char} (h : u.take 2 = [a, b]) :
    u.drop 1 ≠ [] ∧ u ≠ [] ∧ u.head? = some a := by
  cases u with
  | nil => cases h
  | cons c t =>
    cases t with
    | nil => cases h
    | cons c2 t2 =>
      simp at h
      simp [h.1]

/-- The parse of `main_GetIntVariable` against the specification: `strtol` with base 0 reads
a string to its end exactly when the string denotes an integer, and then returns that integer
saturated to the range of `long`. -/
theorem strtol_denoted (w : Nat) (v : CStr) :
    (∀ n : Int, spec_integerDenoted v = some n →
        v ≠ [] ∧ strtol w v 0 = (clampLong w n, [])) ∧
      (spec_integerDenoted v = none → ¬ (v ≠ [] ∧ (strtol w v 0).2 = [])) := by
  rw [strtol_afterSign, strtolAfterSign_zero, isspace_eq]
  unfold spec_integerDenoted
  simp only
  have hv : v.dropWhile isBlank ≠ [] → v ≠ [] := by
    intro h hv; rw [hv] at h; exact h rfl
  generalize v.dropWhile isBlank = s at hv ⊢
  have hu : (if s.head? = some '-' ∨ s.head? = some '+' then s.tail else s) ≠ [] → v ≠ [] := by
    intro h
    apply hv
    intro hs
    rw [hs] at h
    simp at h
  generalize (if s.head? = some '-' ∨ s.head? = some '+' then s.tail else s) = u at hu ⊢
  generalize decide (s.head? = some '-') = neg
  by_cases hhex : u.take 2 = "0x".toList ∨ u.take 2 = "0X".toList
  · have hd : u.drop 1 ≠ [] ∧ u ≠ [] := by
      rcases hhex with h | h
      · exact ⟨(take_two_drop h).1, (take_two_drop h).2.1⟩
      · exact ⟨(take_two_drop h).1, (take_two_drop h).2.1⟩
    simp only [hhex, decide_True, if_true]
    obtain ⟨h1, h2⟩ := digits_result w neg 16 (u.drop 2) (0, u.drop 1)
    refine ⟨fun n hn => ⟨hu hd.2, h1 n hn⟩, fun hn hc => ?_⟩
    rcases h2 hn with h | h
    · exact h hc.2
    · rw [h] at hc; exact hd.1 hc.2
  · simp only [hhex, decide_False, if_false, Bool.false_eq_true]
    by_cases h0 : u.head? = some '0'
    · have hh : (u.head?.any (isDigitIn 8)) = true := by rw [h0]; decide
      have hne : u ≠ [] := by intro h; rw [h] at h0; cases h0
      simp only [h0, if_true]
      obtain ⟨h1, h2⟩ := digits_result w neg 8 u (0, v)
      rw [if_pos hh] at h1 h2
      refine ⟨fun n hn => ⟨hu hne, h1 n hn⟩, fun hn hc => ?_⟩
      rcases h2 hn with h | h
      · exact h hc.2
      · have e : (scanDigits 8 0 u).2 = v := congrArg Prod.snd h
        exact hc.1 (e.symm.trans hc.2)
    · simp only [h0, if_false]
      obtain ⟨h1, h2⟩ := digits_result w neg 10 u (0, v)
      refine ⟨fun n hn => ⟨?_, h1 n hn⟩, fun hn hc => ?_⟩
      · apply hu
        intro h
        rw [h] at hn
        simp at hn
      · rcases h2 hn with h | h
        · exact h hc.2
        · rw [h] at hc; exact hc.1 hc.2

/-- C5 (counterexample): the stored value `99999999999` is not empty, the parse consumes it to
its end and it denotes 99999999999; yet `main_GetIntVariable` returns 1215752191 where `long`
has 64 bits and 2147483647 where it has 32. -/
theorem main_GetIntVariable_not_denoted :
    getenv ["vlc_width=99999999999".toList] "vlc_width".toList = some "99999999999".toList ∧
      (strtol 64 "99999999999".toList 0).2 = [] ∧
      (strtol 32 "99999999999".toList 0).2 = [] ∧
      spec_integerDenoted "99999999999".toList = some 99999999999 ∧
      main_GetIntVariable 64 ["vlc_width=99999999999".toList] "vlc_width".toList 7 =
        1215752191 ∧
      main_GetIntVariable 32 ["vlc_width=99999999999".toList] "vlc_width".toList 7 =
        2147483647 := by
  decide

/-- C5 (as amended): `main_GetIntVariable` returns the default when the key is unset, when
the value is empty and when the parse leaves characters unread (as in `12abc`). The parse
consumes a value that is not empty to its end exactly when the value denotes an integer
(blanks, a sign, then decimal digits, octal digits after `0` or hexadecimal digits after
`0x`); the result is then that integer saturated to the range of `long` and converted to
`int`, which is the integer itself whenever it fits an `int`. -/
theorem main_GetIntVariable_denoted (w : Nat) (env : Environ) (k v : CStr) (d : Int)
    (hw : 32 ≤ w) :
    (getenv env k = none → main_GetIntVariable w env k d = d) ∧
      ((v ≠ [] ∧ (strtol w v 0).2 = []) ↔ ∃ n, spec_integerDenoted v = some n) ∧
      (getenv env k = some v →
        (∀ n : Int, spec_integerDenoted v = some n →
          main_GetIntVariable w env k d = toInt32 (clampLong w n) ∧
          (-2147483648 ≤ n → n < 2147483648 → main_GetIntVariable w env k d = n)) ∧
        (spec_integerDenoted v = none → main_GetIntVariable w env k d = d) ∧
        (v = [] → main_GetIntVariable w env k d = d) ∧
        ((strtol w v 0).2 ≠ [] → main_GetIntVariable w env k d = d)) ∧
      (ValidKey k →
        (∀ n : Int, spec_integerDenoted v = some n → -2147483648 ≤ n → n < 2147483648 →
          main_GetIntVariable w (main_PutPszVariable env k v) k d = n) ∧
        (spec_integerDenoted v = none →
          main_GetIntVariable w (main_PutPszVariable env k v) k d = d) ∧
        main_GetIntVariable w (main_PutPszVariable env k []) k d = d ∧
        main_GetIntVariable w (main_PutPszVariable env k "12abc".toList) k d = d ∧
        main_GetIntVariable w (main_PutPszVariable env k "12".toList) k d = 12 ∧
        main_GetIntVariable w (main_PutPszVariable env k "0x1F".toList) k d = 31 ∧
        main_GetIntVariable w (main_PutPszVariable env k " \t-017".toList) k d = -15 ∧
        main_GetIntVariable w (main_PutPszVariable env k "+1234567890".toList) k d
          = 1234567890 ∧
        main_GetIntVariable w (main_PutPszVariable env k "0X89abcde".toList) k d
          = 144358622 ∧
        main_GetIntVariable w (main_PutPszVariable env k "0x1234567".toList) k d
          = 19088743 ∧
        main_GetIntVariable w (main_PutPszVariable env k "0xABCDEF".toList) k d
          = 11259375 ∧
        main_GetIntVariable w (main_PutPszVariable env k "01234567".toList) k d = 342391 ∧
        main_GetIntVariable w (main_PutPszVariable env k "08".toList) k d = d ∧
        main_GetIntVariable w (main_PutPszVariable env k "0x".toList) k d = d ∧
        main_GetIntVariable w (main_PutPszVariable env k "12 ".toList) k d = d ∧
        main_GetIntVariable w (main_PutPszVariable env k "0xf0".toList) k d = 240 ∧
        main_GetIntVariable w (main_PutPszVariable env k "-0x10".toList) k d = -16) := by
  have hsome : ∀ (e : Environ) (x : CStr) (n : Int), getenv e k = some x →
      spec_integerDenoted x = some n → main_GetIntVariable w e k d = toInt32 (clampLong w n) := by
    intro e x n hg hn
    obtain ⟨h1, h2⟩ := (strtol_denoted w x).1 n hn
    simp only [main_GetIntVariable, hg, h2, h1, ne_eq, not_false_eq_true, and_self, ↓reduceIte]
  have hnone : ∀ (e : Environ) (x : CStr), getenv e k = some x →
      ¬ (x ≠ [] ∧ (strtol w x 0).2 = []) → main_GetIntVariable w e k d = d := by
    intro e x hg hn
    simp only [main_GetIntVariable, hg]
    rw [if_neg hn]
  have hfit : ∀ (e : Environ) (x : CStr) (n : Int), getenv e k = some x →
      spec_integerDenoted x = some n → -2147483648 ≤ n → n < 2147483648 →
      main_GetIntVariable w e k d = n := by
    intro e x n hg hn h1 h2
    rw [hsome e x n hg hn, clampLong_of_range hw h1 h2, toInt32_of_range h1 h2]
  refine ⟨?_, ?_, ?_, ?_⟩
  · intro h; simp only [main_GetIntVariable, h]
  · constructor
    · intro h
      cases hd : spec_integerDenoted v with
      | none => exact absurd h ((strtol_denoted w v).2 hd)
      | some n => exact ⟨n, rfl⟩
    · rintro ⟨n, hn⟩
      obtain ⟨h1, h2⟩ := (strtol_denoted w v).1 n hn
      exact ⟨h1, by rw [h2]⟩
  · intro hg
    refine ⟨fun n hn => ⟨hsome env v n hg hn, hfit env v n hg hn⟩, ?_, ?_, ?_⟩
    · intro hn; exact hnone env v hg ((strtol_denoted w v).2 hn)
    · intro hv; exact hnone env v hg (fun h => h.1 hv)
    · intro hr; exact hnone env v hg (fun h => hr h.2)
  · intro hk
    have hput : ∀ x : CStr, getenv (main_PutPszVariable env k x) k = some x :=
      fun x => getenv_put_same env x hk
    refine ⟨fun n hn => hfit _ v n (hput v) hn, ?_, ?_, ?_, ?_, ?_, ?_, ?_, ?_, ?_, ?_, ?_, ?_,
      ?_, ?_, ?_, ?_⟩
    · intro hn; exact hnone _ v (hput v) ((strtol_denoted w v).2 hn)
    · exact hnone _ [] (hput _) (fun h => h.1 rfl)
    · exact hnone _ _ (hput _) ((strtol_denoted w _).2 (by decide))
    · exact hfit _ _ 12 (hput _) (by decide) (by decide) (by decide)
    · exact hfit _ _ 31 (hput _) (by decide) (by decide) (by decide)
    · exact hfit _ _ (-15) (hput _) (by decide) (by decide) (by decide)
    · exact hfit _ _ 1234567890 (hput _) (by decide) (by decide) (by decide)
    · exact hfit _ _ 144358622 (hput _) (by decide) (by decide) (by decide)
    · exact hfit _ _ 19088743 (hput _) (by decide) (by decide) (by decide)
    · exact hfit _ _ 11259375 (hput _) (by decide) (by decide) (by decide)
    · exact hfit _ _ 342391 (hput _) (by decide) (by decide) (by decide)
    · exact hnone _ _ (hput _) ((strtol_denoted w _).2 (by decide))
    · exact hnone _ _ (hput _) ((strtol_denoted w _).2 (by decide))
    · exact hnone _ _ (hput _) ((strtol_denoted w _).2 (by decide))
    · exact hfit _ _ 240 (hput _) (by decide) (by decide) (by decide)
    · exact hfit _ _ (-16) (hput _) (by decide) (by decide) (by decide)

theorem main_GetIntVariable_denoted_witness :
    32 ≤ 32 ∧ ValidKey "vlc_width".toList ∧
      main_GetIntVariable 32 (main_PutPszVariable [] "vlc_width".toList "0x1F".toList)
        "vlc_width".toList 7 = 31 ∧
      main_GetIntVariable 32 (main_PutPszVariable [] "vlc_width".toList "12abc".toList)
        "vlc_width".toList 7 = 7 :=
  ⟨by decide, by decide,
   ((main_GetIntVariable_denoted 32 [] "vlc_width".toList "0x1F".toList 7 (by decide)).2.2.2
     (by decide)).1 31 (by decide) (by decide) (by decide),
   ((main_GetIntVariable_denoted 32 [] "vlc_width".toList "0x1F".toList 7 (by decide)).2.2.2
     (by decide)).2.2.2.1⟩

/-- C16 (counterexample): `-T 99999999999` does not store the decimal string of the integer
prefix 99999999999: it stores `2147483647` where `long` has 32 bits and `1215752191` where it
has 64, and there `-T 2147483648` stores `-2147483648`. -/
theorem GetConfiguration_numeric_overflow :
    spec_leadingInteger "99999999999".toList = 99999999999 ∧
      sprintf_d 99999999999 = "99999999999".toList ∧
      main_GetPszVariable (GetConfiguration sampleBuild
        ((initialWorld sampleBuild sampleCpu [] []).withArgs
          (words ["vlc", "-T", "99999999999"]))).2.environ
        sampleBuild.vars.INPUT_CHAPTER_VAR [] = "2147483647".toList ∧
      main_GetPszVariable (GetConfiguration { sampleBuild with longBits := 64 }
        ((initialWorld sampleBuild sampleCpu [] []).withArgs
          (words ["vlc", "-T", "99999999999"]))).2.environ
        sampleBuild.vars.INPUT_CHAPTER_VAR [] = "1215752191".toList ∧
      spec_leadingInteger "2147483648".toList = 2147483648 ∧
      main_GetPszVariable (GetConfiguration { sampleBuild with longBits := 64 }
        ((initialWorld sampleBuild sampleCpu [] []).withArgs
          (words ["vlc", "-T", "2147483648"]))).2.environ
        sampleBuild.vars.INPUT_CHAPTER_VAR [] = "-2147483648".toList := by
  decide

theorem no_number_zero (v : CStr) (h : startsWithNumber v = false) :
    spec_leadingInteger v = 0 := by
  unfold startsWithNumber at h
  rw [isspace_eq] at h
  unfold spec_leadingInteger
  simp only
  generalize v.dropWhile isBlank = s at h ⊢
  cases s with
  | nil => simp [decVal]
  | cons c t =>
    by_cases hm : c = '-'
    · subst hm
      cases t with
      | nil => simp [decVal]
      | cons c2 t2 =>
        simp only at h
        simp [List.takeWhile, h, decVal]
    · by_cases hp : c = '+'
      · subst hp
        cases t with
        | nil => simp [decVal]
        | cons c2 t2 =>
          simp only at h
          simp [List.takeWhile, h, decVal]
      · have hc : isDecDigit c = false := by
          revert h
          split
          · rename_i heq; injection heq with h1 h2; exact absurd h1 hm
          · rename_i heq; injection heq with h1 h2; exact absurd h1 hp
          · rename_i heq; injection heq with h1 h2; subst h1; exact id
          · rename_i heq; cases heq
        simp [hm, hp, List.takeWhile, hc, decVal]

/-- C16 (as amended): for each numeric disc/track option, in its short and long spelling, and
every value, parsing returns success and writes under the key of the option the decimal text
of `atoi` of the value. That number is the integer prefix of the value (blanks, a sign,
decimal digits) saturated to the range of `long` and converted to `int`: the integer prefix
itself whenever it fits an `int`, and 0, stored as `0`, whenever the value does not start
with a number. So `007` stores `7`, `12abc` stores `12` and `abc` stores `0`. -/
theorem GetConfiguration_numeric_atoi (B : Build) (w : World) (argv0 v d : CStr)
    (hkeys : ∀ p ∈ numericStore B.vars, ValidKey p.2) (hw : 32 ≤ B.longBits) :
    (∀ p ∈ numericStore B.vars,
        (GetConfiguration B (w.withArgs [argv0, p.1, v])).1 = 0 ∧
        (GetConfiguration B (w.withArgs [argv0, p.1, v])).2.environ =
          main_PutIntVariable w.environ p.2 (atoi B.longBits v) ∧
        main_GetPszVariable (GetConfiguration B (w.withArgs [argv0, p.1, v])).2.environ p.2 d
          = sprintf_d (toInt32 (clampLong B.longBits (spec_leadingInteger v))) ∧
        (-2147483648 ≤ spec_leadingInteger v → spec_leadingInteger v < 2147483648 →
          main_GetPszVariable (GetConfiguration B (w.withArgs [argv0, p.1, v])).2.environ
            p.2 d = sprintf_d (spec_leadingInteger v)) ∧
        (startsWithNumber v = false →
          main_GetPszVariable (GetConfiguration B (w.withArgs [argv0, p.1, v])).2.environ
            p.2 d = "0".toList)) ∧
      atoi B.longBits v = toInt32 (clampLong B.longBits (spec_leadingInteger v)) ∧
      (startsWithNumber v = false → spec_leadingInteger v = 0) ∧
      (∀ p ∈ numericStore B.vars,
        main_GetPszVariable
          (GetConfiguration B (w.withArgs [argv0, p.1, "007".toList])).2.environ p.2 d
          = "7".toList ∧
        main_GetPszVariable
          (GetConfiguration B (w.withArgs [argv0, p.1, "12abc".toList])).2.environ p.2 d
          = "12".toList ∧
        main_GetPszVariable
          (GetConfiguration B (w.withArgs [argv0, p.1, "abc".toList])).2.environ p.2 d
          = "0".toList ∧
        main_GetPszVariable
          (GetConfiguration B (w.withArgs [argv0, p.1, " \t\n\x0b\x0c\r-45x6".toList])).2.environ
          p.2 d = "-45".toList ∧
        main_GetPszVariable
          (GetConfiguration B (w.withArgs [argv0, p.1, "+1234567890".toList])).2.environ p.2 d
          = "1234567890".toList ∧
        main_GetPszVariable
          (GetConfiguration B (w.withArgs [argv0, p.1, "0x1F".toList])).2.environ p.2 d
          = "0".toList ∧
        main_GetPszVariable
          (GetConfiguration B (w.withArgs [argv0, p.1, "\x087".toList])).2.environ p.2 d
          = "0".toList) := by
  have gen : ∀ (x : CStr), ∀ p ∈ numericStore B.vars,
      (GetConfiguration B (w.withArgs [argv0, p.1, x])).1 = 0 ∧
        (GetConfiguration B (w.withArgs [argv0, p.1, x])).2.environ =
          main_PutIntVariable w.environ p.2 (atoi B.longBits x) ∧
        main_GetPszVariable (GetConfiguration B (w.withArgs [argv0, p.1, x])).2.environ p.2 d
          = sprintf_d (toInt32 (clampLong B.longBits (spec_leadingInteger x))) := by
    intro x p hp
    have hk := hkeys p hp
    have key : ∀ (opt k : CStr) (c : Int), ValidKey k → opt.take 4 ≠ "-psn".toList →
        (∀ px, (getoptScan px none [opt, x]).returns = [(c, some x)]) →
        (∀ w2 : World, optionCase B c x w2 =
          (none, { w2 with environ :=
            main_PutIntVariable w2.environ k (atoi B.longBits x) })) →
        (GetConfiguration B (w.withArgs [argv0, opt, x])).1 = 0 ∧
          (GetConfiguration B (w.withArgs [argv0, opt, x])).2.environ =
            main_PutIntVariable w.environ k (atoi B.longBits x) ∧
          main_GetPszVariable (GetConfiguration B (w.withArgs [argv0, opt, x])).2.environ k d
            = sprintf_d (toInt32 (clampLong B.longBits (spec_leadingInteger x))) := by
      intro opt k c hk hopt hscan hcase
      have h := GetConfiguration_one B w [opt, x] argv0 c x
        (fun e => main_PutIntVariable e k (atoi B.longBits x)) (fun h => hopt h.2.2) hscan hcase
      refine ⟨h.1, h.2.1, ?_⟩
      rw [h.2.1, ← atoi_eq]
      simp [main_GetPszVariable, main_PutIntVariable, getenv_put_same _ _ hk]
    simp only [numericStore, List.mem_cons, List.mem_singleton, List.not_mem_nil, or_false] at hp
    rcases hp with h | h | h | h | h | h | h | h | h | h <;>
      subst h <;>
      exact key _ _ _ hk (by simp) (fun _ => rfl) (fun _ => rfl)
  have fit : ∀ (x : CStr) (n : Int), spec_leadingInteger x = n → -2147483648 ≤ n →
      n < 2147483648 → ∀ p ∈ numericStore B.vars,
      main_GetPszVariable (GetConfiguration B (w.withArgs [argv0, p.1, x])).2.environ p.2 d
        = sprintf_d n := by
    intro x n hn h1 h2 p hp
    rw [(gen x p hp).2.2, hn, clampLong_of_range hw h1 h2, toInt32_of_range h1 h2]
  refine ⟨?_, atoi_eq _ _, no_number_zero v, ?_⟩
  · intro p hp
    refine ⟨(gen v p hp).1, (gen v p hp).2.1, (gen v p hp).2.2, ?_, ?_⟩
    · intro h1 h2; exact fit v _ rfl h1 h2 p hp
    · intro hs
      exact fit v 0 (no_number_zero v hs) (by decide) (by decide) p hp
  · intro p hp
    exact ⟨fit _ 7 (by decide) (by decide) (by decide) p hp,
      fit _ 12 (by decide) (by decide) (by decide) p hp,
      fit _ 0 (by decide) (by decide) (by decide) p hp,
      (fit _ (-45) (by decide) (by decide) (by decide) p hp).trans (by decide),
      fit _ 1234567890 (by decide) (by decide) (by decide) p hp,
      fit _ 0 (by decide) (by decide) (by decide) p hp,
      fit _ 0 (by decide) (by decide) (by decide) p hp⟩

theorem GetConfiguration_numeric_atoi_witness :
    (∀ p ∈ numericStore sampleBuild.vars, ValidKey p.2) ∧ 32 ≤ sampleBuild.longBits ∧
      main_GetPszVariable (GetConfiguration sampleBuild
        ((initialWorld sampleBuild sampleCpu [] []).withArgs
          (words ["vlc", "-t", "12abc"]))).2.environ sampleBuild.vars.INPUT_TITLE_VAR [] =
        "12".toList :=
  ⟨by decide, by decide,
   (((GetConfiguration_numeric_atoi sampleBuild (initialWorld sampleBuild sampleCpu [] [])
     "vlc".toList "12abc".toList [] (by decide) (by decide)).2.2.2
     ("-t".toList, sampleBuild.vars.INPUT_TITLE_VAR) (by decide)).2.1)⟩

end Vlc
